import Mathlib

/-!
Verification of the expression core of
`source/blender/nodes/geometry/nodes/node_geo_expression.cc`:
lexer/parser, overload-resolving postfix compiler and stack interpreter.

The embedding follows the C++ source closely:
* `std::string` becomes `List Char`; read positions are `Nat`.
* recursive-descent functions thread an explicit state (`PSt`) and take a
  fuel argument for termination; the top-level entry point supplies fuel
  that is far larger than the deepest possible recursion for its input.
* 32-bit floats are modelled by `FP`: exact rationals plus the IEEE special
  values (see the doc comment on `FP`).
* C++ `int` arithmetic is modelled by unbounded `ℤ` (signed overflow is
  undefined behaviour in the source, so only the defined range is modelled).
* the untagged runtime stack of 32-bit cells becomes a list of tagged
  `Cell`s; reading a cell at the wrong tag (a bit reinterpretation, which
  well-typed compiled programs never perform — proved below) yields a junk
  default, as does reading below the bottom of the stack.
-/

namespace GeoExpr

/-- IEEE-754 binary32 values, idealized: finite values are exact rationals
(no rounding of results), plus the special values.  The numeric claims
proved in this file only exercise arithmetic whose IEEE result is exact at
the inputs involved.  There is no negative zero in the model. -/
inductive FP where
  | num (q : ℚ)
  | inf
  | neginf
  | nan
deriving DecidableEq

instance : Inhabited FP := ⟨FP.num 0⟩

/-- Floor of a rational (computable unfolding of `Rat.floor`). -/
def ratFloor (q : ℚ) : ℤ := Int.fdiv q.num q.den

/-- Ceiling of a rational. -/
def ratCeil (q : ℚ) : ℤ := -Int.fdiv (-q.num) q.den

/-- Rational arithmetic, expressed through `mkRat` so that it reduces
definitionally (the kernel-level `Rat` operations are `@[irreducible]`);
`qadd_eq` … `qpow_eq` below identify these with the standard operations. -/
def qadd (a b : ℚ) : ℚ := mkRat (a.num * (b.den : ℤ) + b.num * (a.den : ℤ)) (a.den * b.den)

/-- See `qadd`. -/
def qmul (a b : ℚ) : ℚ := mkRat (a.num * b.num) (a.den * b.den)

/-- See `qadd`. -/
def qinv (a : ℚ) : ℚ := mkRat (if a.num < 0 then -(a.den : ℤ) else (a.den : ℤ)) a.num.natAbs

/-- See `qadd`. -/
def qdiv (a b : ℚ) : ℚ := qmul a (qinv b)

/-- See `qadd`. -/
def qsub (a b : ℚ) : ℚ := qadd a (-b)

/-- See `qadd`. -/
def qpow : ℚ → ℕ → ℚ
  | _, 0 => 1
  | a, n + 1 => qmul (qpow a n) a

/-- Integer power of a rational (computable unfolding of `zpow`). -/
def ratZpow (q : ℚ) (z : ℤ) : ℚ := if 0 ≤ z then qpow q z.toNat else qinv (qpow q (-z).toNat)

/-- Truncation of a rational toward zero. -/
def truncQ (q : ℚ) : ℤ := if 0 ≤ q then ratFloor q else ratCeil q

/-- Float addition (IEEE-style special-value propagation, exact finite part). -/
def fadd : FP → FP → FP
  | .num a, .num b => .num (qadd a b)
  | .nan, _ => .nan
  | _, .nan => .nan
  | .inf, .neginf => .nan
  | .neginf, .inf => .nan
  | .inf, _ => .inf
  | _, .inf => .inf
  | .neginf, _ => .neginf
  | _, .neginf => .neginf

/-- Float negation. -/
def fneg : FP → FP
  | .num a => .num (-a)
  | .inf => .neginf
  | .neginf => .inf
  | .nan => .nan

/-- Float subtraction. -/
def fsub : FP → FP → FP
  | .num a, .num b => .num (qsub a b)
  | .nan, _ => .nan
  | _, .nan => .nan
  | .inf, .inf => .nan
  | .neginf, .neginf => .nan
  | .inf, _ => .inf
  | _, .neginf => .inf
  | .neginf, _ => .neginf
  | _, .inf => .neginf

/-- Float multiplication. -/
def fmul : FP → FP → FP
  | .num a, .num b => .num (qmul a b)
  | .nan, _ => .nan
  | _, .nan => .nan
  | .inf, .inf => .inf
  | .inf, .neginf => .neginf
  | .neginf, .inf => .neginf
  | .neginf, .neginf => .inf
  | .inf, .num b => if 0 < b then .inf else if b < 0 then .neginf else .nan
  | .num a, .inf => if 0 < a then .inf else if a < 0 then .neginf else .nan
  | .neginf, .num b => if 0 < b then .neginf else if b < 0 then .inf else .nan
  | .num a, .neginf => if 0 < a then .neginf else if a < 0 then .inf else .nan

/-- Raw float division, as performed by the C `/` operator on floats:
a nonzero finite value divided by (the unique model) zero gives a signed
infinity, `0/0` gives NaN. -/
def fdiv : FP → FP → FP
  | .num a, .num b =>
      if b = 0 then (if a = 0 then .nan else if 0 < a then .inf else .neginf)
      else .num (qdiv a b)
  | .nan, _ => .nan
  | _, .nan => .nan
  | .inf, .inf => .nan
  | .inf, .neginf => .nan
  | .neginf, .inf => .nan
  | .neginf, .neginf => .nan
  | .inf, .num b => if b < 0 then .neginf else .inf
  | .neginf, .num b => if b < 0 then .inf else .neginf
  | .num _, .inf => .num 0
  | .num _, .neginf => .num 0

/-- IEEE equality test: NaN compares unequal to everything, including itself. -/
def feqB : FP → FP → Bool
  | .num a, .num b => decide (a = b)
  | .inf, .inf => true
  | .neginf, .neginf => true
  | _, _ => false

/-- IEEE strict less-than: false whenever a NaN is involved. -/
def fltB : FP → FP → Bool
  | .num a, .num b => decide (a < b)
  | .num _, .inf => true
  | .neginf, .num _ => true
  | .neginf, .inf => true
  | _, _ => false

/-- IEEE less-or-equal: false whenever a NaN is involved. -/
def fleB (a b : FP) : Bool := fltB a b || feqB a b

/-- `fabsf`. -/
def fabsF : FP → FP
  | .num a => .num |a|
  | .inf => .inf
  | .neginf => .inf
  | .nan => .nan

/-- C `pow` on floats.  Integer exponents of finite values are exact; the
remaining cases (fractional exponents, special values) are idealized to NaN —
no claim proved in this file depends on them. -/
def fpowF : FP → FP → FP
  | .num a, .num b =>
      if b.den = 1 then
        if a = 0 ∧ b.num < 0 then .inf
        else .num (ratZpow a b.num)
      else .nan
  | _, _ => .nan

/-- `(int)pow((double)a, (double)b)` as used by the integer power opcode.
Non-negative exponents are exact; a negative exponent gives a magnitude
below 1 which truncates to 0 unless the base is ±1 (`0^negative` yields an
infinity whose int cast is undefined behaviour; modelled as 0). -/
def powInt (a b : ℤ) : ℤ :=
  if 0 ≤ b then a ^ b.toNat
  else if a = 1 then 1
  else if a = -1 then (if b % 2 = 0 then 1 else -1)
  else 0

/-- `fmodf` on finite values (`a - b * trunc(a/b)`, remainder with the sign
of `a`; the divisor is nonzero at every reachable call site, which is
guarded); special values idealized to NaN. -/
def fmodF : FP → FP → FP
  | .num a, .num b => if b = 0 then .nan else .num (qsub a (qmul b (truncQ (qdiv a b) : ℚ)))
  | _, _ => .nan

/-- `floorf`. -/
def floorF : FP → FP
  | .num a => .num (ratFloor a)
  | x => x

/-- `ceilf`. -/
def ceilF : FP → FP
  | .num a => .num (ratCeil a)
  | x => x

/-- `truncf` (round toward zero). -/
def truncF : FP → FP
  | .num a => .num (truncQ a)
  | x => x

/-- `roundf` (round half away from zero). -/
def roundF : FP → FP
  | .num a => .num (if 0 ≤ a then (ratFloor (qadd a (mkRat 1 2)) : ℚ) else (-(ratFloor (qadd (-a) (mkRat 1 2))) : ℚ))
  | x => x

/-- Blender's `fractf(a) = a - floorf(a)`. -/
def fractF (a : FP) : FP := fsub a (floorF a)

/-- Blender's `compare_ff(a, b, max_diff)`: `fabsf(a - b) <= max_diff`. -/
def compare_ff (a b eps : FP) : Bool := fleB (fabsF (fsub a b)) eps

/-- The libm transcendentals (`sin`, `cos`, …) cannot be represented exactly
on rationals; they are modelled as unspecified total functions (constantly
NaN).  No claim proved in this file evaluates them. -/
def sinF : FP → FP := fun _ => .nan

/-- See `sinF`. -/
def cosF : FP → FP := fun _ => .nan

/-- See `sinF`. -/
def tanF : FP → FP := fun _ => .nan

/-- See `sinF`. -/
def asinF : FP → FP := fun _ => .nan

/-- See `sinF`. -/
def acosF : FP → FP := fun _ => .nan

/-- See `sinF`. -/
def atanF : FP → FP := fun _ => .nan

/-- See `sinF`. -/
def atan2F : FP → FP → FP := fun _ _ => .nan

/-- See `sinF`. -/
def sqrtF : FP → FP := fun _ => .nan

/-- See `sinF` (used for both `log` and `ln`). -/
def logF : FP → FP := fun _ => .nan

/-- See `sinF`. -/
def expF : FP → FP := fun _ => .nan

/-- Blender `float3`. -/
structure V3 where
  x : FP
  y : FP
  z : FP
deriving DecidableEq

/-- Componentwise `float3` addition. -/
def vadd (a b : V3) : V3 := ⟨fadd a.x b.x, fadd a.y b.y, fadd a.z b.z⟩

/-- Componentwise `float3` subtraction. -/
def vsub (a b : V3) : V3 := ⟨fsub a.x b.x, fsub a.y b.y, fsub a.z b.z⟩

/-- `float3` negation. -/
def vneg (a : V3) : V3 := ⟨fneg a.x, fneg a.y, fneg a.z⟩

/-- `float * float3`. -/
def vmulF (f : FP) (a : V3) : V3 := ⟨fmul a.x f, fmul a.y f, fmul a.z f⟩

/-- `float3 / float` — componentwise raw division, with no zero check. -/
def vdivF (a : V3) (f : FP) : V3 := ⟨fdiv a.x f, fdiv a.y f, fdiv a.z f⟩

/-- `float3` equality: exact componentwise IEEE equality. -/
def veqB (a b : V3) : Bool := feqB a.x b.x && feqB a.y b.y && feqB a.z b.z

/-- Dot product as written in the interpreter. -/
def vdot (a b : V3) : FP :=
  fadd (fadd (fmul a.x b.x) (fmul a.y b.y)) (fmul a.z b.z)

/-- Cross product as written in the interpreter (right-handed). -/
def vcross (a b : V3) : V3 :=
  ⟨fsub (fmul a.y b.z) (fmul a.z b.y),
   fsub (fmul a.z b.x) (fmul a.x b.z),
   fsub (fmul a.x b.y) (fmul a.y b.x)⟩

end GeoExpr

namespace GeoExpr

/-- `Token::TokenType` — the closed opcode enumeration.  The C++ sentinels
(`FIRST_CONSTANT`, `NUM`, …) are aliases for enum values, represented here
by numeric ranges over `tokIdx`. -/
inductive TokenType where
  | NONE
  | CONSTANT_FLOAT
  | CONSTANT_INT
  | VARIABLE_FLOAT
  | VARIABLE_INT
  | VARIABLE_BOOL
  | VARIABLE_VEC
  | LEFT_PAREN
  | RIGHT_PAREN
  | COMMA
  | OPERATOR_UNARY_MINUS
  | OPERATOR_UNARY_MINUS_INT
  | OPERATOR_UNARY_MINUS_VEC
  | OPERATOR_UNARY_NOT
  | OPERATOR_PLUS
  | OPERATOR_PLUS_INT
  | OPERATOR_PLUS_VEC
  | OPERATOR_MINUS
  | OPERATOR_MINUS_INT
  | OPERATOR_MINUS_VEC
  | OPERATOR_MULTIPLY
  | OPERATOR_MULTIPLY_INT
  | OPERATOR_MULTIPLY_FLOAT_VEC
  | OPERATOR_MULTIPLY_VEC_FLOAT
  | OPERATOR_DIVIDE
  | OPERATOR_DIVIDE_INT
  | OPERATOR_DIVIDE_VEC_FLOAT
  | OPERATOR_POWER
  | OPERATOR_POWER_INT
  | OPERATOR_MODULO
  | OPERATOR_MODULO_INT
  | OPERATOR_EQUAL
  | OPERATOR_EQUAL_INT
  | OPERATOR_EQUAL_VEC
  | OPERATOR_NOT_EQUAL
  | OPERATOR_NOT_EQUAL_INT
  | OPERATOR_NOT_EQUAL_VEC
  | OPERATOR_GREATER
  | OPERATOR_GREATER_INT
  | OPERATOR_GREATER_EQUAL
  | OPERATOR_GREATER_EQUAL_INT
  | OPERATOR_LESS
  | OPERATOR_LESS_INT
  | OPERATOR_LESS_EQUAL
  | OPERATOR_LESS_EQUAL_INT
  | OPERATOR_AND
  | OPERATOR_OR
  | OPERATOR_GET_MEMBER_VEC
  | FUNCTION_SQUARE_ROOT
  | FUNCTION_SINE
  | FUNCTION_COSINE
  | FUNCTION_TANGENT
  | FUNCTION_ASIN
  | FUNCTION_ACOS
  | FUNCTION_ATAN
  | FUNCTION_ATAN2
  | FUNCTION_MAX
  | FUNCTION_MAX_INT
  | FUNCTION_MIN
  | FUNCTION_MIN_INT
  | FUNCTION_ABS
  | FUNCTION_ABS_INT
  | FUNCTION_SIGN
  | FUNCTION_SIGN_INT
  | FUNCTION_TO_RADIANS
  | FUNCTION_TO_DEGREES
  | FUNCTION_VECTOR
  | FUNCTION_NOT
  | FUNCTION_LOG
  | FUNCTION_LN
  | FUNCTION_POW
  | FUNCTION_EXP
  | FUNCTION_IF
  | FUNCTION_IF_INT
  | FUNCTION_IF_VEC
  | FUNCTION_CEIL
  | FUNCTION_FLOOR
  | FUNCTION_FRAC
  | FUNCTION_ROUND
  | FUNCTION_TRUNCATE
  | FUNCTION_COMPARE
  | FUNCTION_COMPARE_VEC
  | FUNCTION_DOT
  | FUNCTION_CROSS
  | FUNCTION_NORMALIZE
  | FUNCTION_LENGTH
  | FUNCTION_LENGTH2
  | CONVERT_INT_FLOAT
  | CONVERT_FLOAT_INT
deriving DecidableEq

/-- The numeric value each enumerator has in the C++ `enum class`; range
tests (`is_operand` etc.) are expressed through it exactly as in the source. -/
def tokIdx : TokenType → Nat
  | .NONE => 0
  | .CONSTANT_FLOAT => 1
  | .CONSTANT_INT => 2
  | .VARIABLE_FLOAT => 3
  | .VARIABLE_INT => 4
  | .VARIABLE_BOOL => 5
  | .VARIABLE_VEC => 6
  | .LEFT_PAREN => 7
  | .RIGHT_PAREN => 8
  | .COMMA => 9
  | .OPERATOR_UNARY_MINUS => 10
  | .OPERATOR_UNARY_MINUS_INT => 11
  | .OPERATOR_UNARY_MINUS_VEC => 12
  | .OPERATOR_UNARY_NOT => 13
  | .OPERATOR_PLUS => 14
  | .OPERATOR_PLUS_INT => 15
  | .OPERATOR_PLUS_VEC => 16
  | .OPERATOR_MINUS => 17
  | .OPERATOR_MINUS_INT => 18
  | .OPERATOR_MINUS_VEC => 19
  | .OPERATOR_MULTIPLY => 20
  | .OPERATOR_MULTIPLY_INT => 21
  | .OPERATOR_MULTIPLY_FLOAT_VEC => 22
  | .OPERATOR_MULTIPLY_VEC_FLOAT => 23
  | .OPERATOR_DIVIDE => 24
  | .OPERATOR_DIVIDE_INT => 25
  | .OPERATOR_DIVIDE_VEC_FLOAT => 26
  | .OPERATOR_POWER => 27
  | .OPERATOR_POWER_INT => 28
  | .OPERATOR_MODULO => 29
  | .OPERATOR_MODULO_INT => 30
  | .OPERATOR_EQUAL => 31
  | .OPERATOR_EQUAL_INT => 32
  | .OPERATOR_EQUAL_VEC => 33
  | .OPERATOR_NOT_EQUAL => 34
  | .OPERATOR_NOT_EQUAL_INT => 35
  | .OPERATOR_NOT_EQUAL_VEC => 36
  | .OPERATOR_GREATER => 37
  | .OPERATOR_GREATER_INT => 38
  | .OPERATOR_GREATER_EQUAL => 39
  | .OPERATOR_GREATER_EQUAL_INT => 40
  | .OPERATOR_LESS => 41
  | .OPERATOR_LESS_INT => 42
  | .OPERATOR_LESS_EQUAL => 43
  | .OPERATOR_LESS_EQUAL_INT => 44
  | .OPERATOR_AND => 45
  | .OPERATOR_OR => 46
  | .OPERATOR_GET_MEMBER_VEC => 47
  | .FUNCTION_SQUARE_ROOT => 48
  | .FUNCTION_SINE => 49
  | .FUNCTION_COSINE => 50
  | .FUNCTION_TANGENT => 51
  | .FUNCTION_ASIN => 52
  | .FUNCTION_ACOS => 53
  | .FUNCTION_ATAN => 54
  | .FUNCTION_ATAN2 => 55
  | .FUNCTION_MAX => 56
  | .FUNCTION_MAX_INT => 57
  | .FUNCTION_MIN => 58
  | .FUNCTION_MIN_INT => 59
  | .FUNCTION_ABS => 60
  | .FUNCTION_ABS_INT => 61
  | .FUNCTION_SIGN => 62
  | .FUNCTION_SIGN_INT => 63
  | .FUNCTION_TO_RADIANS => 64
  | .FUNCTION_TO_DEGREES => 65
  | .FUNCTION_VECTOR => 66
  | .FUNCTION_NOT => 67
  | .FUNCTION_LOG => 68
  | .FUNCTION_LN => 69
  | .FUNCTION_POW => 70
  | .FUNCTION_EXP => 71
  | .FUNCTION_IF => 72
  | .FUNCTION_IF_INT => 73
  | .FUNCTION_IF_VEC => 74
  | .FUNCTION_CEIL => 75
  | .FUNCTION_FLOOR => 76
  | .FUNCTION_FRAC => 77
  | .FUNCTION_ROUND => 78
  | .FUNCTION_TRUNCATE => 79
  | .FUNCTION_COMPARE => 80
  | .FUNCTION_COMPARE_VEC => 81
  | .FUNCTION_DOT => 82
  | .FUNCTION_CROSS => 83
  | .FUNCTION_NORMALIZE => 84
  | .FUNCTION_LENGTH => 85
  | .FUNCTION_LENGTH2 => 86
  | .CONVERT_INT_FLOAT => 87
  | .CONVERT_FLOAT_INT => 88

/-- `Token::eValueType` — compile-time value kind tag. -/
inductive EV where
  | NONE
  | FLOAT
  | INT
  | VEC
deriving DecidableEq

/-- The 32-bit immediate of a token.  The C++ source stores either a signed
int or a bit-cast float in one 32-bit field; the model tags the payload.
The bit-pattern reinterpretation is never exercised: float payloads are
read only from `CONSTANT_FLOAT` tokens, int payloads from all others. -/
inductive TVal where
  | vi (n : ℤ)
  | vf (x : FP)
deriving DecidableEq

/-- `struct Token`. -/
structure Token where
  type : TokenType
  value : TVal
deriving DecidableEq

/-- Token with an int immediate (`Token(TokenType, int)`). -/
def mkTokI (t : TokenType) (n : ℤ) : Token := ⟨t, .vi n⟩

/-- Token with a float immediate (`Token(TokenType, float)`). -/
def mkTokF (t : TokenType) (x : FP) : Token := ⟨t, .vf x⟩

/-- `Token::get_value_as_float`.  The only reachable read of an int payload
as a float is the `CONSTANT_FLOAT` token the final output coercion builds
through the int constructor with value 0, whose 32-bit pattern is `0.0f`;
the model returns `num 0` accordingly. -/
def Token.get_value_as_float (t : Token) : FP :=
  match t.value with
  | .vf x => x
  | .vi _ => .num 0

/-- The int immediate (junk when the payload is a float — never exercised). -/
def Token.intVal (t : Token) : ℤ :=
  match t.value with
  | .vi n => n
  | .vf _ => 0

/-- `token_info` rows: display name, precedence, result kind, arity and
per-argument kinds. -/
structure TokenInfo where
  name : String
  prec : ℤ
  result_type : EV
  num_args : Nat
  arg1 : EV
  arg2 : EV
  arg3 : EV

/-- The static `token_info` table (indexed in the source by the enum value). -/
def tokenInfo : TokenType → TokenInfo
  | .NONE => ⟨"NONE", 0, .NONE, 0, .NONE, .NONE, .NONE⟩
  | .CONSTANT_FLOAT => ⟨"CONST_FLOAT", 0, .FLOAT, 0, .NONE, .NONE, .NONE⟩
  | .CONSTANT_INT => ⟨"CONSTANT_INT", 0, .INT, 0, .NONE, .NONE, .NONE⟩
  | .VARIABLE_FLOAT => ⟨"VARIABLE_FLOAT", 0, .FLOAT, 0, .NONE, .NONE, .NONE⟩
  | .VARIABLE_INT => ⟨"VARIABLE_INT", 0, .INT, 0, .NONE, .NONE, .NONE⟩
  | .VARIABLE_BOOL => ⟨"VARIABLE_BOOL", 0, .INT, 0, .NONE, .NONE, .NONE⟩
  | .VARIABLE_VEC => ⟨"VARIABLE_VECTOR", 0, .VEC, 0, .NONE, .NONE, .NONE⟩
  | .LEFT_PAREN => ⟨"LEFT_PAREN", 0, .NONE, 0, .NONE, .NONE, .NONE⟩
  | .RIGHT_PAREN => ⟨"RIGHT_PAREN", 0, .NONE, 0, .NONE, .NONE, .NONE⟩
  | .COMMA => ⟨"COMMA", 0, .NONE, 0, .NONE, .NONE, .NONE⟩
  | .OPERATOR_UNARY_MINUS => ⟨"OP_UNARY_MINUS_F", 7, .FLOAT, 1, .FLOAT, .NONE, .NONE⟩
  | .OPERATOR_UNARY_MINUS_INT => ⟨"OP_UNARY_MINUS_I", 7, .INT, 1, .INT, .NONE, .NONE⟩
  | .OPERATOR_UNARY_MINUS_VEC => ⟨"OP_UNARY_MINUS_V", 7, .VEC, 1, .VEC, .NONE, .NONE⟩
  | .OPERATOR_UNARY_NOT => ⟨"OP_UNARY_NOT", 7, .INT, 1, .INT, .NONE, .NONE⟩
  | .OPERATOR_PLUS => ⟨"OP_PLUS_F", 1, .FLOAT, 2, .FLOAT, .FLOAT, .NONE⟩
  | .OPERATOR_PLUS_INT => ⟨"OP_PLUS_I", 1, .INT, 2, .INT, .INT, .NONE⟩
  | .OPERATOR_PLUS_VEC => ⟨"OP_PLUS_V", 1, .VEC, 2, .VEC, .VEC, .NONE⟩
  | .OPERATOR_MINUS => ⟨"OP_MINUS_F", 1, .FLOAT, 2, .FLOAT, .FLOAT, .NONE⟩
  | .OPERATOR_MINUS_INT => ⟨"OP_MINUS_I", 1, .INT, 2, .INT, .INT, .NONE⟩
  | .OPERATOR_MINUS_VEC => ⟨"OP_MINUS_V", 1, .VEC, 2, .VEC, .VEC, .NONE⟩
  | .OPERATOR_MULTIPLY => ⟨"OP_MULTIPLY_F", 2, .FLOAT, 2, .FLOAT, .FLOAT, .NONE⟩
  | .OPERATOR_MULTIPLY_INT => ⟨"OP_MULTIPLY_I", 2, .INT, 2, .INT, .INT, .NONE⟩
  | .OPERATOR_MULTIPLY_FLOAT_VEC => ⟨"OP_MULTIPLY_FV", 2, .VEC, 2, .FLOAT, .VEC, .NONE⟩
  | .OPERATOR_MULTIPLY_VEC_FLOAT => ⟨"OP_MULTIPLY_VF", 2, .VEC, 2, .VEC, .FLOAT, .NONE⟩
  | .OPERATOR_DIVIDE => ⟨"OP_DIVIDE_F", 2, .FLOAT, 2, .FLOAT, .FLOAT, .NONE⟩
  | .OPERATOR_DIVIDE_INT => ⟨"OP_DIVIDE_I", 2, .INT, 2, .INT, .INT, .NONE⟩
  | .OPERATOR_DIVIDE_VEC_FLOAT => ⟨"OP_DIVIDE_VF", 2, .VEC, 2, .VEC, .FLOAT, .NONE⟩
  | .OPERATOR_POWER => ⟨"OP_POWER_F", 8, .FLOAT, 2, .FLOAT, .FLOAT, .NONE⟩
  | .OPERATOR_POWER_INT => ⟨"OP_POWER_I", 8, .INT, 2, .INT, .INT, .NONE⟩
  | .OPERATOR_MODULO => ⟨"OP_MODULO_F", 2, .FLOAT, 2, .FLOAT, .FLOAT, .NONE⟩
  | .OPERATOR_MODULO_INT => ⟨"OP_MODULO_I", 2, .INT, 2, .INT, .INT, .NONE⟩
  | .OPERATOR_EQUAL => ⟨"OP_EQUAL_F", -1, .INT, 2, .FLOAT, .FLOAT, .NONE⟩
  | .OPERATOR_EQUAL_INT => ⟨"OP_EQUAL_I", -1, .INT, 2, .INT, .INT, .NONE⟩
  | .OPERATOR_EQUAL_VEC => ⟨"OP_EQUAL_VEC", -1, .INT, 2, .VEC, .VEC, .NONE⟩
  | .OPERATOR_NOT_EQUAL => ⟨"OP_NOT_EQUAL_F", -1, .INT, 2, .FLOAT, .FLOAT, .NONE⟩
  | .OPERATOR_NOT_EQUAL_INT => ⟨"OP_NOT_EQUAL_I", -1, .INT, 2, .INT, .INT, .NONE⟩
  | .OPERATOR_NOT_EQUAL_VEC => ⟨"OP_NOT_EQUAL_VEC", -1, .INT, 2, .VEC, .VEC, .NONE⟩
  | .OPERATOR_GREATER => ⟨"OP_GREATER", 0, .INT, 2, .FLOAT, .FLOAT, .NONE⟩
  | .OPERATOR_GREATER_INT => ⟨"OP_GREATER_I", 0, .INT, 2, .INT, .INT, .NONE⟩
  | .OPERATOR_GREATER_EQUAL => ⟨"OP_GREATER_EQUAL", 0, .INT, 2, .FLOAT, .FLOAT, .NONE⟩
  | .OPERATOR_GREATER_EQUAL_INT => ⟨"OP_GREATER_EQUAL_I", 0, .INT, 2, .INT, .INT, .NONE⟩
  | .OPERATOR_LESS => ⟨"OP_LESS", 0, .INT, 2, .FLOAT, .FLOAT, .NONE⟩
  | .OPERATOR_LESS_INT => ⟨"OP_LESS_I", 0, .INT, 2, .INT, .INT, .NONE⟩
  | .OPERATOR_LESS_EQUAL => ⟨"OP_LESS_EQUAL", 0, .INT, 2, .FLOAT, .FLOAT, .NONE⟩
  | .OPERATOR_LESS_EQUAL_INT => ⟨"OP_LESS_EQUAL_INT", 0, .INT, 2, .INT, .INT, .NONE⟩
  | .OPERATOR_AND => ⟨"OP_AND", -2, .INT, 2, .INT, .INT, .NONE⟩
  | .OPERATOR_OR => ⟨"OP_OR", -3, .INT, 2, .INT, .INT, .NONE⟩
  | .OPERATOR_GET_MEMBER_VEC => ⟨"OP_READ_MEMBER_V", 9, .FLOAT, 1, .VEC, .NONE, .NONE⟩
  | .FUNCTION_SQUARE_ROOT => ⟨"FN_SQUARE_ROOT", 9, .FLOAT, 1, .FLOAT, .NONE, .NONE⟩
  | .FUNCTION_SINE => ⟨"FN_SIN", 9, .FLOAT, 1, .FLOAT, .NONE, .NONE⟩
  | .FUNCTION_COSINE => ⟨"FN_COS", 9, .FLOAT, 1, .FLOAT, .NONE, .NONE⟩
  | .FUNCTION_TANGENT => ⟨"FN_TAN", 9, .FLOAT, 1, .FLOAT, .NONE, .NONE⟩
  | .FUNCTION_ASIN => ⟨"FN_ASIN", 9, .FLOAT, 1, .FLOAT, .NONE, .NONE⟩
  | .FUNCTION_ACOS => ⟨"FN_ACOS", 9, .FLOAT, 1, .FLOAT, .NONE, .NONE⟩
  | .FUNCTION_ATAN => ⟨"FN_ATAN", 9, .FLOAT, 1, .FLOAT, .NONE, .NONE⟩
  | .FUNCTION_ATAN2 => ⟨"FN_ATAN2", 9, .FLOAT, 2, .FLOAT, .FLOAT, .NONE⟩
  | .FUNCTION_MAX => ⟨"FN_MAX_F", 9, .FLOAT, 2, .FLOAT, .FLOAT, .NONE⟩
  | .FUNCTION_MAX_INT => ⟨"FN_MAX_I", 9, .INT, 2, .INT, .INT, .NONE⟩
  | .FUNCTION_MIN => ⟨"FN_MIN_F", 9, .FLOAT, 2, .FLOAT, .FLOAT, .NONE⟩
  | .FUNCTION_MIN_INT => ⟨"FN_MIN_I", 9, .INT, 2, .INT, .INT, .NONE⟩
  | .FUNCTION_ABS => ⟨"FN_ABS", 9, .FLOAT, 1, .FLOAT, .NONE, .NONE⟩
  | .FUNCTION_ABS_INT => ⟨"FN_ABS_INT", 9, .INT, 1, .INT, .NONE, .NONE⟩
  | .FUNCTION_SIGN => ⟨"FN_SIGN", 9, .INT, 1, .FLOAT, .NONE, .NONE⟩
  | .FUNCTION_SIGN_INT => ⟨"FN_SIGN_INT", 9, .INT, 1, .INT, .NONE, .NONE⟩
  | .FUNCTION_TO_RADIANS => ⟨"FN_TO_RADIANS", 9, .FLOAT, 1, .FLOAT, .NONE, .NONE⟩
  | .FUNCTION_TO_DEGREES => ⟨"FN_TO_DEGREES", 9, .FLOAT, 1, .FLOAT, .NONE, .NONE⟩
  | .FUNCTION_VECTOR => ⟨"FN_VECTOR", 9, .VEC, 3, .FLOAT, .FLOAT, .FLOAT⟩
  | .FUNCTION_NOT => ⟨"FUNCTION_NOT", 9, .INT, 1, .INT, .NONE, .NONE⟩
  | .FUNCTION_LOG => ⟨"FUNCTION_LOG", 9, .FLOAT, 2, .FLOAT, .FLOAT, .NONE⟩
  | .FUNCTION_LN => ⟨"FUNCTION_LN", 9, .FLOAT, 1, .FLOAT, .NONE, .NONE⟩
  | .FUNCTION_POW => ⟨"FUNCTION_POW", 9, .FLOAT, 2, .FLOAT, .FLOAT, .NONE⟩
  | .FUNCTION_EXP => ⟨"FUNCTION_EXP", 9, .FLOAT, 1, .FLOAT, .NONE, .NONE⟩
  | .FUNCTION_IF => ⟨"FUNCTION_IF", 9, .FLOAT, 3, .INT, .FLOAT, .FLOAT⟩
  | .FUNCTION_IF_INT => ⟨"FUNCTION_IF_I", 9, .INT, 3, .INT, .INT, .INT⟩
  | .FUNCTION_IF_VEC => ⟨"FUNCTION_IF_VEC", 9, .VEC, 3, .INT, .VEC, .VEC⟩
  | .FUNCTION_CEIL => ⟨"FUNCTION_CEIL", 9, .FLOAT, 1, .FLOAT, .NONE, .NONE⟩
  | .FUNCTION_FLOOR => ⟨"FUNCTION_FLOOR", 9, .FLOAT, 1, .FLOAT, .NONE, .NONE⟩
  | .FUNCTION_FRAC => ⟨"FUNCTION_FRAC", 9, .FLOAT, 1, .FLOAT, .NONE, .NONE⟩
  | .FUNCTION_ROUND => ⟨"FUNCTION_ROUND", 9, .FLOAT, 1, .FLOAT, .NONE, .NONE⟩
  | .FUNCTION_TRUNCATE => ⟨"FUNCTION_TRUNCATE", 9, .FLOAT, 1, .FLOAT, .NONE, .NONE⟩
  | .FUNCTION_COMPARE => ⟨"FUNCTION_COMPARE", 9, .INT, 3, .FLOAT, .FLOAT, .FLOAT⟩
  | .FUNCTION_COMPARE_VEC => ⟨"FUNCTION_COMPARE_VEC", 9, .INT, 3, .VEC, .VEC, .FLOAT⟩
  | .FUNCTION_DOT => ⟨"FUNCTION_DOT_PRODUCT", 9, .FLOAT, 2, .VEC, .VEC, .NONE⟩
  | .FUNCTION_CROSS => ⟨"FUNCTION_CROSS_PRODUCT", 9, .VEC, 2, .VEC, .VEC, .NONE⟩
  | .FUNCTION_NORMALIZE => ⟨"FUNCTION_NORMALIZE", 9, .VEC, 1, .VEC, .NONE, .NONE⟩
  | .FUNCTION_LENGTH => ⟨"FUNCTION_LENGTH", 9, .FLOAT, 1, .VEC, .NONE, .NONE⟩
  | .FUNCTION_LENGTH2 => ⟨"FUNCTION_LENGTH_SQUARED", 9, .FLOAT, 1, .VEC, .NONE, .NONE⟩
  | .CONVERT_INT_FLOAT => ⟨"FN_CONV_I2F", 9, .FLOAT, 1, .INT, .NONE, .NONE⟩
  | .CONVERT_FLOAT_INT => ⟨"FN_CONV_F2I", 9, .INT, 1, .FLOAT, .NONE, .NONE⟩

/-- `Token::is_operand` — a constant or variable load. -/
def TokenType.is_operand (t : TokenType) : Bool :=
  decide (1 ≤ tokIdx t ∧ tokIdx t < 7)

/-- `Token::is_constant`. -/
def TokenType.is_constant (t : TokenType) : Bool :=
  decide (1 ≤ tokIdx t ∧ tokIdx t < 3)

/-- `Token::is_operator`. -/
def TokenType.is_operator (t : TokenType) : Bool :=
  decide (10 ≤ tokIdx t ∧ tokIdx t < 48)

/-- `Token::is_operator_or_function`. -/
def TokenType.is_operator_or_function (t : TokenType) : Bool :=
  decide (10 ≤ tokIdx t ∧ tokIdx t < 89)

/-- `Token::is_postfix_operator` (the range from `FIRST_POSTFIX_OPERATOR`). -/
def TokenType.is_postfix_op (t : TokenType) : Bool :=
  decide (47 ≤ tokIdx t ∧ tokIdx t < 89)

/-- `Token::precedence`. -/
def Token.prec (t : Token) : ℤ := (tokenInfo t.type).prec

/-- `Token::num_args`. -/
def Token.num_args (t : Token) : Nat := (tokenInfo t.type).num_args

/-- `func_table`: lowercase spellings of the function names. -/
def func_table : List (List Char × TokenType) :=
  [("sin".toList, .FUNCTION_SINE),
   ("sine".toList, .FUNCTION_SINE),
   ("cos".toList, .FUNCTION_COSINE),
   ("cosine".toList, .FUNCTION_COSINE),
   ("tan".toList, .FUNCTION_TANGENT),
   ("tangent".toList, .FUNCTION_TANGENT),
   ("asin".toList, .FUNCTION_ASIN),
   ("arcsine".toList, .FUNCTION_ASIN),
   ("acos".toList, .FUNCTION_ACOS),
   ("arccosine".toList, .FUNCTION_ACOS),
   ("atan".toList, .FUNCTION_ATAN),
   ("arctangent".toList, .FUNCTION_ATAN),
   ("atan2".toList, .FUNCTION_ATAN2),
   ("max".toList, .FUNCTION_MAX),
   ("maximum".toList, .FUNCTION_MAX),
   ("min".toList, .FUNCTION_MIN),
   ("minimum".toList, .FUNCTION_MIN),
   ("sqrt".toList, .FUNCTION_SQUARE_ROOT),
   ("squareroot".toList, .FUNCTION_SQUARE_ROOT),
   ("square_root".toList, .FUNCTION_SQUARE_ROOT),
   ("abs".toList, .FUNCTION_ABS),
   ("absolute".toList, .FUNCTION_ABS),
   ("sign".toList, .FUNCTION_SIGN),
   ("toradians".toList, .FUNCTION_TO_RADIANS),
   ("to_radians".toList, .FUNCTION_TO_RADIANS),
   ("todegrees".toList, .FUNCTION_TO_DEGREES),
   ("to_degrees".toList, .FUNCTION_TO_DEGREES),
   ("vec".toList, .FUNCTION_VECTOR),
   ("vector".toList, .FUNCTION_VECTOR),
   ("not".toList, .FUNCTION_NOT),
   ("log".toList, .FUNCTION_LOG),
   ("logarithm".toList, .FUNCTION_LOG),
   ("ln".toList, .FUNCTION_LN),
   ("pow".toList, .FUNCTION_POW),
   ("power".toList, .FUNCTION_POW),
   ("exp".toList, .FUNCTION_EXP),
   ("exponential".toList, .FUNCTION_EXP),
   ("if".toList, .FUNCTION_IF),
   ("ceil".toList, .FUNCTION_CEIL),
   ("floor".toList, .FUNCTION_FLOOR),
   ("frac".toList, .FUNCTION_FRAC),
   ("fraction".toList, .FUNCTION_FRAC),
   ("round".toList, .FUNCTION_ROUND),
   ("truncate".toList, .FUNCTION_TRUNCATE),
   ("trunc".toList, .FUNCTION_TRUNCATE),
   ("compare".toList, .FUNCTION_COMPARE),
   ("dot".toList, .FUNCTION_DOT),
   ("cross".toList, .FUNCTION_CROSS),
   ("normalize".toList, .FUNCTION_NORMALIZE),
   ("length".toList, .FUNCTION_LENGTH),
   ("length2".toList, .FUNCTION_LENGTH2)]

/-- An `overload_set` row: the generic opcode and up to five typed variants,
padded with `NONE`. -/
structure OvSet where
  base : TokenType
  alt1 : TokenType
  alt2 : TokenType
  alt3 : TokenType
  alt4 : TokenType
  alt5 : TokenType

/-- The static `overloads` table. -/
def overloads : List OvSet :=
  [⟨.OPERATOR_UNARY_MINUS, .OPERATOR_UNARY_MINUS_INT, .OPERATOR_UNARY_MINUS_VEC, .NONE, .NONE, .NONE⟩,
   ⟨.FUNCTION_ABS, .FUNCTION_ABS_INT, .NONE, .NONE, .NONE, .NONE⟩,
   ⟨.FUNCTION_SIGN, .FUNCTION_SIGN_INT, .NONE, .NONE, .NONE, .NONE⟩,
   ⟨.OPERATOR_PLUS, .OPERATOR_PLUS_INT, .OPERATOR_PLUS_VEC, .NONE, .NONE, .NONE⟩,
   ⟨.OPERATOR_MINUS, .OPERATOR_MINUS_INT, .OPERATOR_MINUS_VEC, .NONE, .NONE, .NONE⟩,
   ⟨.OPERATOR_MULTIPLY, .OPERATOR_MULTIPLY_INT, .OPERATOR_MULTIPLY_VEC_FLOAT, .OPERATOR_MULTIPLY_FLOAT_VEC, .NONE, .NONE⟩,
   ⟨.OPERATOR_DIVIDE, .OPERATOR_DIVIDE_INT, .OPERATOR_DIVIDE_VEC_FLOAT, .NONE, .NONE, .NONE⟩,
   ⟨.OPERATOR_POWER, .OPERATOR_POWER_INT, .NONE, .NONE, .NONE, .NONE⟩,
   ⟨.OPERATOR_MODULO, .OPERATOR_MODULO_INT, .NONE, .NONE, .NONE, .NONE⟩,
   ⟨.OPERATOR_EQUAL, .OPERATOR_EQUAL_INT, .OPERATOR_EQUAL_VEC, .NONE, .NONE, .NONE⟩,
   ⟨.OPERATOR_NOT_EQUAL, .OPERATOR_NOT_EQUAL_INT, .OPERATOR_NOT_EQUAL_VEC, .NONE, .NONE, .NONE⟩,
   ⟨.OPERATOR_GREATER, .OPERATOR_GREATER_INT, .NONE, .NONE, .NONE, .NONE⟩,
   ⟨.OPERATOR_GREATER_EQUAL, .OPERATOR_GREATER_EQUAL_INT, .NONE, .NONE, .NONE, .NONE⟩,
   ⟨.OPERATOR_LESS, .OPERATOR_LESS_INT, .NONE, .NONE, .NONE, .NONE⟩,
   ⟨.OPERATOR_LESS_EQUAL, .OPERATOR_LESS_EQUAL_INT, .NONE, .NONE, .NONE, .NONE⟩,
   ⟨.FUNCTION_MAX, .FUNCTION_MAX_INT, .NONE, .NONE, .NONE, .NONE⟩,
   ⟨.FUNCTION_MIN, .FUNCTION_MIN_INT, .NONE, .NONE, .NONE, .NONE⟩,
   ⟨.FUNCTION_IF, .FUNCTION_IF_INT, .FUNCTION_IF_VEC, .NONE, .NONE, .NONE⟩,
   ⟨.FUNCTION_COMPARE, .FUNCTION_COMPARE_VEC, .NONE, .NONE, .NONE, .NONE⟩]

end GeoExpr

namespace GeoExpr

/-- Host socket data types that can reach the expression core
(`eNodeSocketDatatype`, restricted to the four cases the node accepts). -/
inductive SockT where
  | FLOAT
  | INT
  | BOOLEAN
  | VECTOR
deriving DecidableEq

/-- C `isspace` on the ASCII range. -/
def cIsSpace (c : Char) : Bool :=
  c = ' ' || c = '\t' || c = '\n' || c = '\x0b' || c = '\x0c' || c = '\r'

/-- C `tolower` on the ASCII range. -/
def cToLower (c : Char) : Char :=
  if 'A' ≤ c ∧ c ≤ 'Z' then Char.ofNat (c.toNat + 32) else c

/-- `input.at(pos)` — all C++ call sites bound-check first, so the default
is never observed on reachable paths. -/
def charAt (input : List Char) (pos : Nat) : Char := input.getD pos '\x00'

/-- `input.substr(pos, n)`. -/
def substr (input : List Char) (pos n : Nat) : List Char := (input.drop pos).take n

/-- `input.find(c, fromPos)`, with `npos` truncated to `-1` as the `int`
assignment in the source does. -/
def strFind (input : List Char) (c : Char) (fromPos : Nat) : ℤ :=
  match (input.drop fromPos).findIdx? (fun d => d = c) with
  | some i => ((fromPos + i : ℕ) : ℤ)
  | none => -1

/-- `ExpressionParser::skip_white_space`: advance the position over the
whitespace run starting at it (the C++ `while` loop, expressed as the
length of the whitespace prefix of the remaining input). -/
def skip_white_space (input : List Char) (pos : Nat) : Nat :=
  pos + ((input.drop pos).takeWhile cIsSpace).length

/-- Longest digit run at the head of the input. -/
def takeDigits (l : List Char) : List Char := l.takeWhile (fun c => c.isDigit)

/-- Value of a digit string. -/
def digitsVal (ds : List Char) : ℕ := ds.foldl (fun a c => 10 * a + (c.toNat - 48)) 0

/-- `std::from_chars` for a 32-bit signed int: optional minus sign and a
nonempty digit run.  Returns the value and the number of characters
consumed, or `none` for both `invalid_argument` and `result_out_of_range`
(the caller only distinguishes success; on overflow the parsed value is
never used). -/
def fromCharsInt (l : List Char) : Option (ℤ × Nat) :=
  let p : Bool × List Char × Nat :=
    match l with
    | '-' :: rest => (true, rest, 1)
    | _ => (false, l, 0)
  let ds := takeDigits p.2.1
  if ds = [] then none
  else
    let v : ℤ := (if p.1 then -1 else 1) * (digitsVal ds : ℤ)
    if v < -(2 ^ 31) ∨ 2 ^ 31 ≤ v then none
    else some (v, p.2.2 + ds.length)

/-- Exponent part of a float literal: `e`/`E`, optional sign, digits; a
malformed exponent is not consumed at all. -/
def readExponent (l : List Char) : ℤ × Nat :=
  match l with
  | c :: rest =>
      if c = 'e' ∨ c = 'E' then
        let p : ℤ × List Char × Nat :=
          match rest with
          | '+' :: r => (1, r, 1)
          | '-' :: r => (-1, r, 1)
          | _ => (1, rest, 0)
        let ds := takeDigits p.2.1
        if ds = [] then (0, 0)
        else (p.1 * (digitsVal ds : ℤ), 1 + p.2.2 + ds.length)
      else (0, 0)
  | [] => (0, 0)

/-- Case-insensitive prefix test (`matchCI input pattern`). -/
def matchCI : List Char → List Char → Bool
  | _, [] => true
  | [], _ :: _ => false
  | c :: cs, d :: ds => (cToLower c = cToLower d : Bool) && matchCI cs ds

/-- `std::from_chars` for `float` (`chars_format::general`): optional minus
sign, then either an `inf`/`infinity`/`nan` spelling or a decimal mantissa
with optional exponent.  Idealizations: the value is kept as an exact
rational (the C++ result is the nearest float); overflow to the error state
uses the binary32 overflow threshold `2^128`; `nan(…)` payload suffixes and
gradual-underflow errors are not modelled (no claim depends on them). -/
def fromCharsFloat (l : List Char) : Option (FP × Nat) :=
  let p : Bool × List Char × Nat :=
    match l with
    | '-' :: rest => (true, rest, 1)
    | _ => (false, l, 0)
  let neg := p.1
  let l1 := p.2.1
  let signLen := p.2.2
  if matchCI l1 "infinity".toList then some ((if neg then .neginf else .inf), signLen + 8)
  else if matchCI l1 "inf".toList then some ((if neg then .neginf else .inf), signLen + 3)
  else if matchCI l1 "nan".toList then some (.nan, signLen + 3)
  else
    let d1 := takeDigits l1
    let rest1 := l1.drop d1.length
    let q : List Char × Nat :=
      match rest1 with
      | '.' :: r => (takeDigits r, (takeDigits r).length + 1)
      | _ => ([], 0)
    let d2 := q.1
    let fracLen := q.2
    if d1 = [] ∧ d2 = [] then none
    else
      let rest2 := rest1.drop fracLen
      let mant : ℚ := qadd (digitsVal d1 : ℚ) (qdiv (digitsVal d2 : ℚ) (qpow 10 d2.length))
      let e := readExponent rest2
      let v0 : ℚ := qmul mant (ratZpow 10 e.1)
      let v : ℚ := if neg then -v0 else v0
      if (340282366920938463463374607431768211456 : ℚ) ≤ |v| then none
      else some (.num v, signLen + d1.length + fracLen + e.2)

/-- Parser state: read position, token buffer, error message and byte
offset.  `errLog` is instrumentation only: it records every error recording
event in order (it has no influence on behaviour) so that the
error-reporting claims can be stated. -/
structure PSt where
  pos : Nat
  out : List Token
  err : String
  errPos : ℤ
  errLog : List (String × ℤ)
deriving DecidableEq

/-- Parser environment: the source text and the host-declared variables. -/
structure PEnv where
  input : List Char
  input_names : List (List Char)
  input_types : List SockT

/-- `ExpressionParser::set_error_if_none`.  The C++ guard compares the
`const char *` against the empty-string literal; with the compiler's
literal pooling (the behaviour the code relies on) that is an emptiness
test, which is what is modelled. -/
def set_error_if_none (msg : String) (position : ℤ) (s : PSt) : PSt :=
  if s.err = "" then
    { s with err := msg, errPos := position, errLog := s.errLog ++ [(msg, position)] }
  else s

/-- An unconditional error assignment (`error_msg_ = …; error_pos_ = …`). -/
def force_error (msg : String) (position : ℤ) (s : PSt) : PSt :=
  { s with err := msg, errPos := position, errLog := s.errLog ++ [(msg, position)] }

/-- `ExpressionParser::read_variable_name_size`: length of a syntactically
valid identifier at the read position (including any skipped leading
whitespace in the count), 0 if none.  Does not advance the position.
`read_name_end` is the scan loop over the identifier's tail characters,
expressed as the length of the matching prefix. -/
def read_name_end (input : List Char) (pos : Nat) : Nat :=
  pos + ((input.drop pos).takeWhile (fun c => c = '_' || c.isAlpha || c.isDigit)).length

/-- See `read_name_end`. -/
def read_variable_name_size (input : List Char) (pos : Nat) : Nat :=
  let t := skip_white_space input pos
  if t = input.length then 0
  else
    let first := charAt input t
    if first ≠ '_' ∧ ¬ first.isAlpha then 0
    else read_name_end input (t + 1) - pos

/-- `ExpressionParser::is_special_const`: `pi` and `tau`, case-insensitive.
The values are the doubles `M_PI` and `2·M_PI` rounded to binary32, written
as exact rationals. -/
def is_special_const (var_name : List Char) : Option FP :=
  if var_name.length = 2 ∧ (charAt var_name 0 = 'p' ∨ charAt var_name 0 = 'P') ∧
      (charAt var_name 1 = 'i' ∨ charAt var_name 1 = 'I') then
    some (.num (mkRat 13176795 4194304))
  else if var_name.length = 3 ∧ (charAt var_name 0 = 't' ∨ charAt var_name 0 = 'T') ∧
      (charAt var_name 1 = 'a' ∨ charAt var_name 1 = 'A') ∧
      (charAt var_name 2 = 'u' ∨ charAt var_name 2 = 'U') then
    some (.num (mkRat 13176795 2097152))
  else none

/-- First index of `nm` in the name list, `-1` if absent. -/
def findName (names : List (List Char)) (nm : List Char) : ℤ :=
  match names.findIdx? (fun sx => sx = nm) with
  | some i => (i : ℤ)
  | none => -1

/-- `ExpressionParser::read_member_offset`: `x`/`y`/`z` (case-insensitive)
directly after the dot map to offsets 2/1/0; anything else is `-1` with the
position restored. -/
def read_member_offset (input : List Char) (pos : Nat) : ℤ × Nat :=
  if pos = input.length then (-1, pos)
  else
    let name := charAt input pos
    if name = 'x' ∨ name = 'X' then (2, pos + 1)
    else if name = 'y' ∨ name = 'Y' then (1, pos + 1)
    else if name = 'z' ∨ name = 'Z' then (0, pos + 1)
    else (-1, pos)

/-- `ExpressionParser::read_operator_op`, including its exact read-position
effects on each failure path (the source leaves the position advanced by 3
when the three-character attempt fails). -/
def read_operator_op (input : List Char) (pos0 : Nat) : TokenType × Nat :=
  let pos := skip_white_space input pos0
  if pos = input.length then (.NONE, pos)
  else
    let op_char := charAt input pos
    if op_char = '+' then (.OPERATOR_PLUS, pos + 1)
    else if op_char = '-' then (.OPERATOR_MINUS, pos + 1)
    else if op_char = '*' then (.OPERATOR_MULTIPLY, pos + 1)
    else if op_char = '/' then (.OPERATOR_DIVIDE, pos + 1)
    else if op_char = '^' then (.OPERATOR_POWER, pos + 1)
    else if op_char = '%' then (.OPERATOR_MODULO, pos + 1)
    else if op_char = '.' then (.OPERATOR_GET_MEMBER_VEC, pos + 1)
    else if input.length - pos < 2 then (.NONE, pos)
    else
      let two := substr input pos 2
      if two = "==".toList then (.OPERATOR_EQUAL, pos + 2)
      else if two = "!=".toList then (.OPERATOR_NOT_EQUAL, pos + 2)
      else if two = ">=".toList then (.OPERATOR_GREATER_EQUAL, pos + 2)
      else if two = "<=".toList then (.OPERATOR_LESS_EQUAL, pos + 2)
      else if two = "or".toList then (.OPERATOR_OR, pos + 2)
      else if two = "OR".toList then (.OPERATOR_OR, pos + 2)
      else if two = "||".toList then (.OPERATOR_OR, pos + 2)
      else if two = "&&".toList then (.OPERATOR_AND, pos + 2)
      else if op_char = '>' then (.OPERATOR_GREATER, pos + 1)
      else if op_char = '<' then (.OPERATOR_LESS, pos + 1)
      else if op_char = '=' then (.OPERATOR_EQUAL, pos + 1)
      else if input.length - pos < 3 then (.NONE, pos)
      else
        let three := substr input pos 3
        if three = "and".toList ∨ three = "AND".toList then (.OPERATOR_AND, pos + 3)
        else (.NONE, pos + 3)

/-- `ExpressionParser::read_function_op`: the characters from the read
position up to the first `(` anywhere in the rest of the input, lowercased,
are matched against the function table.  On a match the position moves to
the `(`. -/
def read_function_op (input : List Char) (pos0 : Nat) : TokenType × Nat :=
  let pos := skip_white_space input pos0
  let paren_pos := strFind input '(' pos
  if paren_pos = -1 then (.NONE, pos)
  else
    let func_name := (substr input pos (paren_pos.toNat - pos)).map cToLower
    match func_table.find? (fun e => e.1 = func_name) with
    | some e => (e.2, paren_pos.toNat)
    | none => (.NONE, pos)

/-- `ExpressionParser::next_input_is_function_name` (position by value). -/
def next_input_is_function_name (input : List Char) (pos : Nat) : Bool :=
  (read_function_op input pos).1 ≠ .NONE

/-- `ExpressionParser::parse_number` — see `fromCharsInt`/`fromCharsFloat`;
whichever of the int and float parses consumes more characters wins, the
int on ties. -/
def parse_number (input : List Char) (s : PSt) : Bool × PSt :=
  let pos := skip_white_space input s.pos
  let s := { s with pos := pos }
  if pos = input.length then (false, s)
  else
    let sub := input.drop pos
    let iRes := fromCharsInt sub
    let fRes := fromCharsFloat sub
    match iRes, fRes with
    | some iv, some fv =>
        if fv.2 ≤ iv.2 then
          (true, { s with pos := pos + iv.2, out := s.out ++ [mkTokI .CONSTANT_INT iv.1] })
        else
          (true, { s with pos := pos + fv.2, out := s.out ++ [mkTokF .CONSTANT_FLOAT fv.1] })
    | some iv, none =>
        (true, { s with pos := pos + iv.2, out := s.out ++ [mkTokI .CONSTANT_INT iv.1] })
    | none, some fv =>
        (true, { s with pos := pos + fv.2, out := s.out ++ [mkTokF .CONSTANT_FLOAT fv.1] })
    | none, none =>
        (false, set_error_if_none "Invalid number" (pos : ℤ) s)

/-- `ExpressionParser::parse_left_paren`. -/
def parse_left_paren (input : List Char) (s : PSt) : Bool × PSt :=
  let pos := skip_white_space input s.pos
  let s := { s with pos := pos }
  if pos ≠ input.length ∧ charAt input pos = '(' then
    (true, { s with pos := pos + 1, out := s.out ++ [mkTokI .LEFT_PAREN 0] })
  else
    (false, set_error_if_none "Expected (" (pos : ℤ) s)

/-- `ExpressionParser::parse_right_paren`. -/
def parse_right_paren (input : List Char) (s : PSt) : Bool × PSt :=
  let pos := skip_white_space input s.pos
  let s := { s with pos := pos }
  if pos ≠ input.length ∧ charAt input pos = ')' then
    (true, { s with pos := pos + 1, out := s.out ++ [mkTokI .RIGHT_PAREN 0] })
  else
    (false, set_error_if_none "Expected )" (pos : ℤ) s)

/-- `ExpressionParser::parse_comma`. -/
def parse_comma (input : List Char) (s : PSt) : Bool × PSt :=
  let pos := skip_white_space input s.pos
  let s := { s with pos := pos }
  if pos ≠ input.length ∧ charAt input pos = ',' then
    (true, { s with pos := pos + 1, out := s.out ++ [mkTokI .COMMA 0] })
  else
    (false, set_error_if_none "Expected ','" (pos : ℤ) s)

/-- `ExpressionParser::parse_operator`. -/
def parse_operator (input : List Char) (s : PSt) : Bool × PSt :=
  let pos := skip_white_space input s.pos
  if pos = input.length then (false, { s with pos := pos })
  else
    let start := pos
    let r := read_operator_op input pos
    if r.1 = .NONE then (false, { s with pos := r.2 })
    else if r.1 = .OPERATOR_GET_MEMBER_VEC then
      let m := read_member_offset input r.2
      if m.1 = -1 then
        (false,
         set_error_if_none "Expected member name directly after \".\"" (start : ℤ)
           { s with pos := start })
      else
        (true, { s with pos := m.2, out := s.out ++ [mkTokI .OPERATOR_GET_MEMBER_VEC m.1] })
    else (true, { s with pos := r.2, out := s.out ++ [mkTokI r.1 0] })

/-- `ExpressionParser::parse_variable`, including the `pi`/`tau` special
constants and variable lookup against the host-declared names. -/
def parse_variable (names : List (List Char)) (types : List SockT) (input : List Char)
    (s : PSt) : Bool × PSt :=
  let pos := skip_white_space input s.pos
  let s := { s with pos := pos }
  if pos = input.length then (false, s)
  else
    let name_len := read_variable_name_size input pos
    if name_len = 0 then (false, set_error_if_none "Expected a variable name" (pos : ℤ) s)
    else
      let var_name := substr input pos name_len
      match is_special_const var_name with
      | some v =>
          (true, { s with pos := pos + name_len, out := s.out ++ [mkTokF .CONSTANT_FLOAT v] })
      | none =>
          let idx := findName names var_name
          if idx = -1 then (false, set_error_if_none "Unknown input name" (pos : ℤ) s)
          else
            let tt : TokenType :=
              match types.getD idx.toNat .FLOAT with
              | .BOOLEAN => .VARIABLE_BOOL
              | .INT => .VARIABLE_INT
              | .FLOAT => .VARIABLE_FLOAT
              | .VECTOR => .VARIABLE_VEC
            (true, { s with pos := pos + name_len, out := s.out ++ [mkTokI tt idx] })

/-- The last token of the buffer (the buffer is never empty at the one call
site, inside the expression loop). -/
def lastTok (l : List Token) : Token := (l.getLast?).getD ⟨.NONE, .vi 0⟩

end GeoExpr

namespace GeoExpr

/-- Call descriptors for the mutually recursive parsing functions.  The
C++ recursive descent is mutual recursion between `parse_expression`,
its `while (true)` loop, `parse_operand_or_unary`, `parse_operand`,
`parse_function` and its argument loop; the model packs the six into one
function recursive on fuel (`parseGo`), with one descriptor per C++
function, so that evaluation reduces efficiently.  The named wrappers
below recover the individual functions. -/
inductive PCall where
  | expr (tcp tcm : Bool)
  | exprLoop (tcp tcm : Bool)
  | operandOrUnary
  | operand
  | fnCall
  | fnArgs (num_args remaining start2 : Nat)

/-- The six parsing functions, by recursion on fuel; the branches are the
bodies of the corresponding C++ functions (see `PCall`).  The top-level
entry point supplies more fuel than any input can consume.
Known implicit-return defects of the source (the success paths of
`parse_operand_or_unary` after a unary operator and of `parse_function`
fall off the end of the C++ function): the intended `true` is returned.
Notable faithful details: `.operandOrUnary` does not treat `-` as unary
when a digit follows directly (the sign is left to the number parse);
`.operand` clears the error message recorded by a failed number attempt
before falling back to a variable; `.fnCall` emits the function token
before checking the argument list, and argument-list failures restore the
read position but leave already-emitted tokens in the buffer, as the
source does. -/
def parseGo (env : PEnv) : Nat → PCall → PSt → Bool × PSt
  | 0, _, s => (false, s)
  | f + 1, .expr tcp tcm, s =>
    let pos := skip_white_space env.input s.pos
    let s := { s with pos := pos }
    if pos = env.input.length then (false, s)
    else
      match parseGo env f .operandOrUnary s with
      | (false, s1) => (false, set_error_if_none "Expected an operand" (s1.pos : ℤ) s1)
      | (true, s1) => parseGo env f (.exprLoop tcp tcm) s1
  | f + 1, .exprLoop tcp tcm, s =>
    let pos := skip_white_space env.input s.pos
    let s := { s with pos := pos }
    if pos = env.input.length then (true, s)
    else if tcp ∧ charAt env.input pos = ')' then (true, s)
    else if tcm ∧ charAt env.input pos = ',' then (true, s)
    else
      match parse_operator env.input s with
      | (false, s1) => (false, set_error_if_none "Expected an operator" (s1.pos : ℤ) s1)
      | (true, s1) =>
        if ¬ (lastTok s1.out).type.is_postfix_op then
          match parseGo env f .operandOrUnary s1 with
          | (false, s2) =>
              (false, set_error_if_none "Expected an operand after operator" (s2.pos : ℤ) s2)
          | (true, s2) => parseGo env f (.exprLoop tcp tcm) s2
        else parseGo env f (.exprLoop tcp tcm) s1
  | f + 1, .operandOrUnary, s =>
    let pos := skip_white_space env.input s.pos
    let s := { s with pos := pos }
    if pos = env.input.length then (false, s)
    else
      let unary_op : TokenType :=
        if charAt env.input pos = '-' ∧ pos + 1 < env.input.length ∧
            ¬ (charAt env.input (pos + 1)).isDigit then
          .OPERATOR_UNARY_MINUS
        else if charAt env.input pos = '!' then .OPERATOR_UNARY_NOT
        else .NONE
      if unary_op ≠ .NONE then
        let s := { s with pos := pos + 1, out := s.out ++ [mkTokI unary_op 0] }
        match parseGo env f .operand s with
        | (false, s1) =>
            (false, set_error_if_none "Expected operand after unary operator" (s1.pos : ℤ) s1)
        | (true, s1) => (true, s1)
      else parseGo env f .operand s
  | f + 1, .operand, s =>
    let pos := skip_white_space env.input s.pos
    let s := { s with pos := pos }
    if pos = env.input.length then (false, s)
    else if charAt env.input pos = '(' then
      let paren_start := pos
      let s := { s with pos := pos + 1, out := s.out ++ [mkTokI .LEFT_PAREN 0] }
      match parseGo env f (.expr true false) s with
      | (false, s1) =>
          (false, set_error_if_none "Expected expression after parenthesis" (s1.pos : ℤ) s1)
      | (true, s1) =>
        match parse_right_paren env.input s1 with
        | (false, s2) => (false, force_error "Unclosed parenthesis" (paren_start : ℤ) s2)
        | (true, s2) => (true, s2)
    else
      if next_input_is_function_name env.input pos then parseGo env f .fnCall s
      else
        match parse_number env.input s with
        | (true, s1) => (true, s1)
        | (false, s1) =>
          let s1 := { s1 with err := "" }
          if read_variable_name_size env.input s1.pos ≠ 0 then
            parse_variable env.input_names env.input_types env.input s1
          else
            (false,
             set_error_if_none "Expected a constant, variable or function" (s1.pos : ℤ) s1)
  | f + 1, .fnCall, s =>
    let pos := skip_white_space env.input s.pos
    let s := { s with pos := pos }
    if pos = env.input.length then (false, s)
    else
      let start := pos
      let r := read_function_op env.input pos
      if r.1 = .NONE then
        (false, set_error_if_none "Unknown function name" (start : ℤ) { s with pos := r.2 })
      else
        let s := { s with pos := r.2, out := s.out ++ [mkTokI r.1 0] }
        let num_args := (tokenInfo r.1).num_args
        match parse_left_paren env.input s with
        | (false, s1) => (false, { s1 with pos := start })
        | (true, s1) =>
          let start2 := s1.pos
          match parseGo env f (.expr true (decide (1 < num_args))) s1 with
          | (false, s2) => (false, { s2 with pos := start2 })
          | (true, s2) => parseGo env f (.fnArgs num_args (num_args - 1) start2) s2
  | _ + 1, .fnArgs _ 0 _, s =>
    (match parse_right_paren env.input s with
     | (false, s1) => (false, s1)
     | (true, s1) => (true, s1))
  | f + 1, .fnArgs num_args (rem + 1) start2, s =>
    match parse_comma env.input s with
    | (false, s1) => (false, { s1 with pos := start2 })
    | (true, s1) =>
      match parseGo env f (.expr true (decide (0 < rem))) s1 with
      | (false, s2) =>
        let s2 :=
          if num_args = 2 then set_error_if_none "Expected 2 arguments to function" (start2 : ℤ) s2
          else set_error_if_none "Expected 3 arguments to function" (start2 : ℤ) s2
        (false, { s2 with pos := start2 })
      | (true, s2) => parseGo env f (.fnArgs num_args rem start2) s2

/-- `ExpressionParser::parse_expression` — see `parseGo`. -/
def parse_expression (fuel : Nat) (env : PEnv) (tcp tcm : Bool) (s : PSt) : Bool × PSt :=
  parseGo env fuel (.expr tcp tcm) s

/-- The `while (true)` loop of `parse_expression` — see `parseGo`. -/
def parse_expression_loop (fuel : Nat) (env : PEnv) (tcp tcm : Bool) (s : PSt) : Bool × PSt :=
  parseGo env fuel (.exprLoop tcp tcm) s

/-- `ExpressionParser::parse_operand_or_unary` — see `parseGo`. -/
def parse_operand_or_unary (fuel : Nat) (env : PEnv) (s : PSt) : Bool × PSt :=
  parseGo env fuel .operandOrUnary s

/-- `ExpressionParser::parse_operand` — see `parseGo`. -/
def parse_operand (fuel : Nat) (env : PEnv) (s : PSt) : Bool × PSt :=
  parseGo env fuel .operand s

/-- `ExpressionParser::parse_function` — see `parseGo`. -/
def parse_function (fuel : Nat) (env : PEnv) (s : PSt) : Bool × PSt :=
  parseGo env fuel .fnCall s

/-- The argument loop of `parse_function` — see `parseGo`. -/
def parse_function_args (fuel : Nat) (env : PEnv) (num_args remaining start2 : Nat)
    (s : PSt) : Bool × PSt :=
  parseGo env fuel (.fnArgs num_args remaining start2) s

/-- Fuel that strictly dominates the recursion depth of the parser on its
input: every unit of fuel spent on the call path from the root corresponds
to at least one consumed character, except for a bounded number of
constant-overhead frames per nesting level, each of which also consumes at
least one character (`(` or a function name); `2·length + 16` therefore
always suffices.  The parser functions are monotone in fuel (success with
some fuel implies the same result with more), so only sufficiency matters. -/
def parseFuel (input : List Char) : Nat := 2 * input.length + 16

/-- `ExpressionParser::parse`: entry point, returning success plus the final
state carrying the token buffer and the reported `(message, offset)`. -/
def parser_parse (env : PEnv) : Bool × PSt :=
  parse_expression (parseFuel env.input) env false false ⟨0, [], "", 0, []⟩

end GeoExpr

namespace GeoExpr

/-- `ExpressionProgram::stack_space`: cells used by a value of this kind. -/
def stack_space (t : EV) : ℤ := if t = .VEC then 3 else 1

/-- `Vector::last(n)` on the compile-time type stack (head of the list is
the last element).  Reading below the bottom — undefined behaviour in the
source, possible only on malformed token streams — yields the junk kind
`NONE`, which no operator signature accepts, so such a read always leads to
a compile error (proved below). -/
def stLast (l : List EV) (n : Nat) : EV := l.getD n .NONE

/-- `check_arguments_match` (one argument). -/
def check1 (func : TokenType) (a : EV) : Bool := (tokenInfo func).arg1 = a

/-- `check_arguments_match` (two arguments). -/
def check2 (func : TokenType) (a b : EV) : Bool :=
  ((tokenInfo func).arg1 = a : Bool) && ((tokenInfo func).arg2 = b : Bool)

/-- `check_arguments_match` (three arguments). -/
def check3 (func : TokenType) (a b c : EV) : Bool :=
  ((tokenInfo func).arg1 = a : Bool) && ((tokenInfo func).arg2 = b : Bool) &&
    ((tokenInfo func).arg3 = c : Bool)

/-- `ExpressionProgram::find_overloads`: first table row with this base. -/
def find_overloads (t : TokenType) : Option OvSet := overloads.find? (fun o => o.base = t)

/-- The candidate list of an overload row in scan order. -/
def ovAlts (o : OvSet) : List TokenType := [o.alt1, o.alt2, o.alt3, o.alt4, o.alt5]

/-- The candidate scan of `get_op_version_for_type`: stop at the first
`NONE` entry, return the first candidate whose signature matches. -/
def scan1 : List TokenType → EV → TokenType
  | [], _ => .NONE
  | t :: rest, a =>
      if t = .NONE then .NONE else if check1 t a then t else scan1 rest a

/-- See `scan1`. -/
def scan2 : List TokenType → EV → EV → TokenType
  | [], _, _ => .NONE
  | t :: rest, a, b =>
      if t = .NONE then .NONE else if check2 t a b then t else scan2 rest a b

/-- See `scan1`. -/
def scan3 : List TokenType → EV → EV → EV → TokenType
  | [], _, _, _ => .NONE
  | t :: rest, a, b, c =>
      if t = .NONE then .NONE else if check3 t a b c then t else scan3 rest a b c

/-- `get_op_version_for_type` (one argument). -/
def get_op_version1 (base : TokenType) (a : EV) : TokenType :=
  if check1 base a then base
  else
    match find_overloads base with
    | none => .NONE
    | some o => scan1 (ovAlts o) a

/-- `get_op_version_for_type` (two arguments). -/
def get_op_version2 (base : TokenType) (a b : EV) : TokenType :=
  if check2 base a b then base
  else
    match find_overloads base with
    | none => .NONE
    | some o => scan2 (ovAlts o) a b

/-- `get_op_version_for_type` (three arguments). -/
def get_op_version3 (base : TokenType) (a b c : EV) : TokenType :=
  if check3 base a b c then base
  else
    match find_overloads base with
    | none => .NONE
    | some o => scan3 (ovAlts o) a b c

/-- `ExpressionProgram::get_type_conversion_op`: `Int → Float` is the only
implicit conversion; `Float → Int` exists only when explicitly allowed. -/
def get_type_conversion_op (from_type to_type : EV) (allowed_implicit_only : Bool) :
    TokenType :=
  if from_type = .INT ∧ to_type = .FLOAT then .CONVERT_INT_FLOAT
  else if allowed_implicit_only then .NONE
  else if from_type = .FLOAT ∧ to_type = .INT then .CONVERT_FLOAT_INT
  else .NONE

/-- `ExpressionProgram::is_scalar`. -/
def is_scalar (t : EV) : Bool := t = .FLOAT || t = .INT

/-- Result of `perform_type_conversion` (one argument): the specialized
opcode (`NONE` on failure), the conversion tokens to emit before it, and
the updated argument kind. -/
structure Conv1 where
  spec : TokenType
  emit : List Token
  a : EV

/-- `perform_type_conversion` (one argument). -/
def perform_type_conversion1 (t : TokenType) (arg : EV) : Conv1 :=
  let spec := get_op_version1 t arg
  if spec ≠ .NONE then ⟨spec, [], arg⟩
  else if arg = .INT then
    let spec2 := get_op_version1 t .FLOAT
    if spec2 ≠ .NONE then ⟨spec2, [mkTokI .CONVERT_INT_FLOAT 0], .FLOAT⟩
    else ⟨.NONE, [], arg⟩
  else ⟨.NONE, [], arg⟩

/-- See `Conv1`. -/
structure Conv2 where
  spec : TokenType
  emit : List Token
  a1 : EV
  a2 : EV

/-- `perform_type_conversion` (two arguments), with the exact sequence of
fallbacks of the source: exact match; convert arg1 to arg2's kind (the
conversion token's immediate is the cell width of arg2, the distance of
arg1 from the stack top); convert arg2 to arg1's kind (immediate 0); both
ints to floats; int beside a vector to float (either side). -/
def perform_type_conversion2 (t : TokenType) (arg1 arg2 : EV) : Conv2 :=
  let spec := get_op_version2 t arg1 arg2
  if spec ≠ .NONE then ⟨spec, [], arg1, arg2⟩
  else
    let cv1 := get_type_conversion_op arg1 arg2 true
    let s1 := get_op_version2 t arg2 arg2
    if cv1 ≠ .NONE ∧ s1 ≠ .NONE then ⟨s1, [mkTokI cv1 (stack_space arg2)], arg2, arg2⟩
    else
      let cv2 := get_type_conversion_op arg2 arg1 true
      let s2 := get_op_version2 t arg1 arg1
      if cv2 ≠ .NONE ∧ s2 ≠ .NONE then ⟨s2, [mkTokI cv2 0], arg1, arg1⟩
      else
        let sFF := get_op_version2 t .FLOAT .FLOAT
        if arg1 = .INT ∧ arg2 = .INT ∧ sFF ≠ .NONE then
          ⟨sFF, [mkTokI .CONVERT_INT_FLOAT 1, mkTokI .CONVERT_INT_FLOAT 0], .FLOAT, .FLOAT⟩
        else
          let sFV := get_op_version2 t .FLOAT arg2
          if arg1 = .INT ∧ arg2 = .VEC ∧ sFV ≠ .NONE then
            ⟨sFV, [mkTokI .CONVERT_INT_FLOAT (stack_space arg2)], .FLOAT, arg2⟩
          else
            let sVF := get_op_version2 t arg1 .FLOAT
            if arg1 = .VEC ∧ arg2 = .INT ∧ sVF ≠ .NONE then
              ⟨sVF, [mkTokI .CONVERT_INT_FLOAT 0], arg1, .FLOAT⟩
            else ⟨.NONE, [], arg1, arg2⟩

/-- See `Conv1`. -/
structure Conv3 where
  spec : TokenType
  emit : List Token
  a1 : EV
  a2 : EV
  a3 : EV

/-- `perform_type_conversion` (three arguments): exact match; all three
scalars widened to float; the last two scalars widened to float. -/
def perform_type_conversion3 (t : TokenType) (arg1 arg2 arg3 : EV) : Conv3 :=
  let spec := get_op_version3 t arg1 arg2 arg3
  if spec ≠ .NONE then ⟨spec, [], arg1, arg2, arg3⟩
  else
    let all_float := get_op_version3 t .FLOAT .FLOAT .FLOAT
    if all_float ≠ .NONE ∧ is_scalar arg1 ∧ is_scalar arg2 ∧ is_scalar arg3 then
      ⟨all_float,
       (if arg1 = .INT then [mkTokI .CONVERT_INT_FLOAT 2] else []) ++
         (if arg2 = .INT then [mkTokI .CONVERT_INT_FLOAT 1] else []) ++
         (if arg3 = .INT then [mkTokI .CONVERT_INT_FLOAT 0] else []),
       .FLOAT, .FLOAT, .FLOAT⟩
    else
      let last2 := get_op_version3 t arg1 .FLOAT .FLOAT
      if last2 ≠ .NONE ∧ is_scalar arg2 ∧ is_scalar arg3 then
        ⟨last2,
         (if arg2 = .INT then [mkTokI .CONVERT_INT_FLOAT 1] else []) ++
           (if arg3 = .INT then [mkTokI .CONVERT_INT_FLOAT 0] else []),
         arg1, .FLOAT, .FLOAT⟩
      else ⟨.NONE, [], arg1, arg2, arg3⟩

/-- Note: `perform_type_conversion3` applied to all-scalar arguments whose
first widening branch fires leaves non-int scalars unchanged — since they
are scalars and not `INT` they are already `FLOAT`, so the uniform result
kinds `FLOAT, FLOAT, FLOAT` above agree with the per-argument updates of
the source. -/
def MAX_STACK : ℤ := 100

/-- Compiler state of `create_postfix_program`: the operator stack and the
compile-time type stack (heads are the `Vector::last` ends), the running
cell count, and the emitted program.  `cks` is instrumentation only: the
value of `stack_size` at each end-of-token check, in order. -/
structure CSt where
  opStack : List Token
  stackType : List EV
  stackSize : ℤ
  out : List Token
  cks : List ℤ
deriving DecidableEq

/-- `ExpressionProgram::output_constant`. -/
def output_constant (t : Token) (st : CSt) : CSt :=
  if t.type = .CONSTANT_FLOAT then
    { st with
      out := st.out ++ [t],
      stackSize := st.stackSize + 1,
      stackType := .FLOAT :: st.stackType }
  else
    { st with
      out := st.out ++ [t],
      stackSize := st.stackSize + 1,
      stackType := .INT :: st.stackType }

/-- `ExpressionProgram::output_variable`. -/
def output_variable (t : Token) (st : CSt) : CSt :=
  let k : EV :=
    if t.type = .VARIABLE_VEC then .VEC
    else if t.type = .VARIABLE_INT ∨ t.type = .VARIABLE_BOOL then .INT
    else .FLOAT
  { st with
    out := st.out ++ [t],
    stackType := k :: st.stackType,
    stackSize := st.stackSize + stack_space k }

/-- `ExpressionProgram::unsupported_type_error`. -/
def unsupported_type_error (t : Token) (stackType : List EV) : String :=
  let token_name := (tokenInfo t.type).name ++ ": "
  if (tokenInfo t.type).num_args = 1 then
    if stLast stackType 0 = .VEC then token_name ++ ": Cannot perform this function on a vector"
    else token_name ++ ": wrong data type."
  else if (tokenInfo t.type).num_args = 2 then
    let arg1 := stLast stackType 0
    let arg2 := stLast stackType 1
    if (arg1 = .VEC ∧ arg2 ≠ .VEC) ∨ (arg1 ≠ .VEC ∧ arg2 = .VEC) then
      token_name ++ "Cannot mix vector and non vector types in this operation"
    else if arg1 = .VEC ∧ arg2 = .VEC then
      token_name ++ "Cannot perform this operation on a vector"
    else token_name ++ ": wrong data type."
  else if (tokenInfo t.type).num_args = 3 then token_name ++ "incorrect argument type"
  else token_name ++ ": wrong data type."

/-- `ExpressionProgram::output_op_or_function`: monomorphize the operator
against the kinds on the type stack, emit any conversions plus the
specialized opcode (keeping the original immediate), and update the type
stack and cell count.  `none` is the `false` return (type error). -/
def output_op_or_function (t : Token) (st : CSt) : Option CSt :=
  if (tokenInfo t.type).num_args = 1 then
    let arg_type := stLast st.stackType 0
    let c := perform_type_conversion1 t.type arg_type
    if c.spec = .NONE then none
    else
      let rt := (tokenInfo c.spec).result_type
      some { st with
        out := st.out ++ c.emit ++ [⟨c.spec, t.value⟩],
        stackSize := st.stackSize - stack_space c.a + stack_space rt,
        stackType := rt :: st.stackType.tail }
  else if (tokenInfo t.type).num_args = 3 then
    let a1 := stLast st.stackType 2
    let a2 := stLast st.stackType 1
    let a3 := stLast st.stackType 0
    let c := perform_type_conversion3 t.type a1 a2 a3
    if c.spec = .NONE then none
    else
      let rt := (tokenInfo c.spec).result_type
      some { st with
        out := st.out ++ c.emit ++ [⟨c.spec, t.value⟩],
        stackSize := st.stackSize - stack_space c.a1 - stack_space c.a2 - stack_space c.a3 +
          stack_space rt,
        stackType := rt :: st.stackType.tail.tail.tail }
  else
    let first_type := stLast st.stackType 1
    let second_type := stLast st.stackType 0
    let c := perform_type_conversion2 t.type first_type second_type
    if c.spec = .NONE then none
    else
      let rt := (tokenInfo c.spec).result_type
      some { st with
        out := st.out ++ c.emit ++ [⟨c.spec, t.value⟩],
        stackSize := st.stackSize - stack_space c.a1 - stack_space c.a2 + stack_space rt,
        stackType := rt :: st.stackType.tail.tail }

/-- Head of the operator stack (`Vector::last()`); junk on empty, which the
guards of every call site exclude. -/
def headTok (l : List Token) : Token := l.headD ⟨.NONE, .vi 0⟩

/-- The pop-and-lower loop of the operator branch: pop operators with
precedence ≥ the incoming one, stopping at a `(` or the bottom.  The loops
recurse on the operator stack passed as an explicit list (the `opStack`
field of the threaded state is scratch during a loop; the caller stores the
returned list back). -/
def popWhileGE (prec : ℤ) : List Token → CSt → (List Token × CSt) × Option String
  | [], st => (([], st), none)
  | top :: rest, st =>
    if top.prec < prec ∨ top.type = .LEFT_PAREN then ((top :: rest, st), none)
    else
      match output_op_or_function top st with
      | none => ((top :: rest, st), some (unsupported_type_error top st.stackType))
      | some st' => popWhileGE prec rest st'

/-- The pop loop of the `)`/`,` branch: pop and lower until a `(` is on
top.  The source reads `last()` on an empty operator stack if no `(` is
present (undefined behaviour, unreachable from parser output); the model
stops instead. -/
def popToLParen : List Token → CSt → (List Token × CSt) × Option String
  | [], st => (([], st), none)
  | top :: rest, st =>
    if top.type = .LEFT_PAREN then ((top :: rest, st), none)
    else
      match output_op_or_function top st with
      | none => ((top :: rest, st), some (unsupported_type_error top st.stackType))
      | some st' => popToLParen rest st'

/-- The dispatch of one iteration of the main loop of
`create_postfix_program` (the `if`/`else if` chain on the token class). -/
def processTokCore (t : Token) (st : CSt) : CSt × Option String :=
  if t.type.is_operand then
    if t.type.is_constant then (output_constant t st, none) else (output_variable t st, none)
  else if t.type.is_operator_or_function then
    let precedence := t.prec
    if st.opStack = [] ∨ (headTok st.opStack).type = .LEFT_PAREN ∨
        (headTok st.opStack).prec < precedence then
      ({ st with opStack := t :: st.opStack }, none)
    else
      match popWhileGE precedence st.opStack st with
      | ((ops1, st1), some e) => ({ st1 with opStack := ops1 }, some e)
      | ((ops1, st1), none) => ({ st1 with opStack := t :: ops1 }, none)
  else if t.type = .LEFT_PAREN then ({ st with opStack := t :: st.opStack }, none)
  else if t.type = .RIGHT_PAREN ∨ t.type = .COMMA then
    match popToLParen st.opStack st with
    | ((ops1, st1), some e) => ({ st1 with opStack := ops1 }, some e)
    | ((ops1, st1), none) =>
      if t.type = .RIGHT_PAREN then ({ st1 with opStack := ops1.tail }, none)
      else ({ st1 with opStack := ops1 }, none)
  else (st, none)

/-- One iteration of the main loop of `create_postfix_program`: dispatch on
the token, then record the cell count and fail if it exceeds `MAX_STACK`. -/
def processTok (t : Token) (st : CSt) : CSt × Option String :=
  match processTokCore t st with
  | (st', some e) => (st', some e)
  | (st', none) =>
    let st'' := { st' with cks := st'.cks ++ [st'.stackSize] }
    if st''.stackSize > MAX_STACK then
      (st'', some "Expression uses too much stack space")
    else (st'', none)

/-- The main loop over the parsed tokens. -/
def processAll : List Token → CSt → CSt × Option String
  | [], st => (st, none)
  | t :: rest, st =>
    match processTok t st with
    | (st', some e) => (st', some e)
    | (st', none) => processAll rest st'

/-- The final loop: pop and lower everything left on the operator stack. -/
def finishOps : List Token → CSt → (List Token × CSt) × Option String
  | [], st => (([], st), none)
  | top :: rest, st =>
    match output_op_or_function top st with
    | none => ((top :: rest, st), some (unsupported_type_error top st.stackType))
    | some st' => finishOps rest st'

/-- The final output coercion, as a function of the kind on top of the type
stack and the declared output socket type — exactly the four `if`s of the
source, in order.  The two padding constants are built through the int
constructor (`add_token(CONSTANT_FLOAT, 0)` selects the int overload in
C++); the runtime bit-cast of 0 reads as `0.0f`. -/
def finalCoerceToks (top_type : EV) (outTy : SockT) : List Token :=
  (if top_type = .INT ∧ outTy ≠ .BOOLEAN ∧ outTy ≠ .INT then
      [mkTokI .CONVERT_INT_FLOAT 0]
    else []) ++
  (if top_type = .VEC ∧ outTy ≠ .VECTOR then [mkTokI .OPERATOR_GET_MEMBER_VEC 2] else []) ++
  (if outTy = .VECTOR ∧ top_type ≠ .VEC then
      [mkTokI .CONSTANT_FLOAT 0, mkTokI .CONSTANT_FLOAT 0]
    else []) ++
  (if top_type ≠ .INT ∧ (outTy = .BOOLEAN ∨ outTy = .INT) then
      [mkTokI .CONVERT_FLOAT_INT 0]
    else [])

/-- `ExpressionProgram::create_postfix_program`: main loop, final pops,
output coercion.  Returns the final state (whose `out` is the program) or
the state at failure together with the error message. -/
def create_postfix_program (parse_buffer : List Token) (outTy : SockT) :
    CSt × Option String :=
  match processAll parse_buffer ⟨[], [], 0, [], []⟩ with
  | (st, some e) => (st, some e)
  | (st, none) =>
    match finishOps st.opStack st with
    | ((ops2, st2), some e) => ({ st2 with opStack := ops2 }, some e)
    | ((_, st2), none) =>
      let top_type := stLast st2.stackType 0
      ({ st2 with
         opStack := [],
         out := st2.out ++ finalCoerceToks top_type outTy }, none)

/-- `ExpressionProgram::create_program` (without the host-facing error
message munging): parse, then build the postfix program. -/
def compileProgram (src : List Char) (names : List (List Char)) (types : List SockT)
    (outTy : SockT) : Except String (List Token) :=
  let r := parser_parse ⟨src, names, types⟩
  if r.1 then
    match create_postfix_program r.2.out outTy with
    | (_, some e) => .error e
    | (st, none) => .ok st.out
  else .error r.2.err

end GeoExpr

namespace GeoExpr

/-- One 32-bit cell of the runtime stack.  The C++ stack is untagged; the
model tags each cell with the kind it was written at.  Reading a cell at
the other kind would be a bit reinterpretation; well-typed compiled
programs never do it (proved below), and the model returns a junk default
there. -/
inductive Cell where
  | cf (x : FP)
  | ci (n : ℤ)
deriving DecidableEq

/-- The kind tag of a cell. -/
inductive CellK where
  | KF
  | KI
deriving DecidableEq

/-- The runtime stack; the head is the most recently written cell
(`stack[top_idx]`). -/
abbrev RSt := List Cell

/-- Kind tags of a runtime stack, top first. -/
def KindsOf (s : RSt) : List CellK :=
  s.map (fun c => match c with | .cf _ => .KF | .ci _ => .KI)

/-- Read a cell as a float (junk on an int cell or below the bottom). -/
def cellF : Cell → FP
  | .cf x => x
  | .ci _ => .num 0

/-- Read a cell as an int (junk on a float cell or below the bottom). -/
def cellI : Cell → ℤ
  | .ci n => n
  | .cf _ => 0

/-- `RuntimeStack::peek_float(offset)`. -/
def peekF (s : RSt) (off : Nat) : FP := cellF (s.getD off (.cf (.num 0)))

/-- `RuntimeStack::peek_int(offset)`. -/
def peekI (s : RSt) (off : Nat) : ℤ := cellI (s.getD off (.ci 0))

/-- `RuntimeStack::replace_float(v, offset)`. -/
def replaceF (s : RSt) (v : FP) (off : Nat) : RSt := s.set off (.cf v)

/-- `RuntimeStack::replace_int(v, offset)`. -/
def replaceI (s : RSt) (v : ℤ) (off : Nat) : RSt := s.set off (.ci v)

/-- `RuntimeStack::push_float`. -/
def pushF (v : FP) (s : RSt) : RSt := .cf v :: s

/-- `RuntimeStack::push_int`. -/
def pushI (v : ℤ) (s : RSt) : RSt := .ci v :: s

/-- `RuntimeStack::push_vector` — pushes `x`, then `y`, then `z`. -/
def pushV (v : V3) (s : RSt) : RSt := .cf v.z :: .cf v.y :: .cf v.x :: s

/-- `RuntimeStack::pop_float`. -/
def popF (s : RSt) : FP × RSt := (peekF s 0, s.drop 1)

/-- `RuntimeStack::pop_int`. -/
def popI (s : RSt) : ℤ × RSt := (peekI s 0, s.drop 1)

/-- `RuntimeStack::pop_two_floats` — `(arg1, arg2)` with `arg1` the value
pushed first (one below the top). -/
def pop2F (s : RSt) : FP × FP × RSt := (peekF s 1, peekF s 0, s.drop 2)

/-- `RuntimeStack::pop_two_ints`. -/
def pop2I (s : RSt) : ℤ × ℤ × RSt := (peekI s 1, peekI s 0, s.drop 2)

/-- `RuntimeStack::pop_vector` — reads `(x, y, z)` from the top three
cells. -/
def popV (s : RSt) : V3 × RSt := (⟨peekF s 2, peekF s 1, peekF s 0⟩, s.drop 3)

/-- `RuntimeStack::pop_two_vectors`. -/
def pop2V (s : RSt) : V3 × V3 × RSt :=
  (⟨peekF s 5, peekF s 4, peekF s 3⟩, ⟨peekF s 2, peekF s 1, peekF s 0⟩, s.drop 6)

/-- One per-row variable value as supplied by the host. -/
inductive RVal where
  | rf (x : FP)
  | ri (n : ℤ)
  | rb (b : Bool)
  | rv (v : V3)
deriving DecidableEq

/-- `inputs[i].get<float>(row)`: the host guarantees the declared type; a
mismatch or out-of-range index reads junk in the model. -/
def inF : RVal → FP
  | .rf x => x
  | _ => .num 0

/-- See `inF`. -/
def inI : RVal → ℤ
  | .ri n => n
  | _ => 0

/-- See `inF`. -/
def inB : RVal → Bool
  | .rb b => b
  | _ => false

/-- See `inF`. -/
def inV : RVal → V3
  | .rv v => v
  | _ => ⟨.num 0, .num 0, .num 0⟩

/-- Bool-to-int compression used when pushing comparison results. -/
def b2i (b : Bool) : ℤ := if b then 1 else 0

/-- `(int)f` — C float-to-int cast truncates toward zero; NaN, infinities
and out-of-range values are undefined behaviour in C and junk (0) here. -/
def f2i : FP → ℤ
  | .num a => truncQ a
  | _ => 0

/-- `(float)i` — modelled as exact (the C++ cast rounds ints above 2^24;
no program proved about here reaches that range). -/
def i2f (n : ℤ) : FP := .num (n : ℚ)

/-- The conversion factor `M_PI / 180` (and its inverse): irrational, hence
unspecified in the model, like the transcendentals — see `sinF`. -/
def DEG2RAD : FP := .nan

/-- See `DEG2RAD`. -/
def RAD2DEG : FP := .nan

/-- One step of `ExpressionProgram::execute_program`: the per-opcode action
on the runtime stack.  `LEFT_PAREN`, `RIGHT_PAREN`, `COMMA`, `NONE` and
`FUNCTION_VECTOR` are no-ops as in the source (`FUNCTION_VECTOR`'s three
arguments already form the vector). -/
def execTok (inputs : List RVal) (t : Token) (s : RSt) : RSt :=
  match t.type with
  | .CONSTANT_FLOAT => pushF t.get_value_as_float s
  | .CONSTANT_INT => pushI t.intVal s
  | .VARIABLE_FLOAT => pushF (inF (inputs.getD t.intVal.toNat (.rf (.num 0)))) s
  | .VARIABLE_INT => pushI (inI (inputs.getD t.intVal.toNat (.ri 0))) s
  | .VARIABLE_BOOL => pushI (b2i (inB (inputs.getD t.intVal.toNat (.rb false)))) s
  | .VARIABLE_VEC => pushV (inV (inputs.getD t.intVal.toNat (.rv ⟨.num 0, .num 0, .num 0⟩))) s
  | .OPERATOR_PLUS => let p := pop2F s; pushF (fadd p.1 p.2.1) p.2.2
  | .OPERATOR_PLUS_INT => let p := pop2I s; pushI (p.1 + p.2.1) p.2.2
  | .OPERATOR_PLUS_VEC => let p := pop2V s; pushV (vadd p.1 p.2.1) p.2.2
  | .OPERATOR_MINUS => let p := pop2F s; pushF (fsub p.1 p.2.1) p.2.2
  | .OPERATOR_MINUS_INT => let p := pop2I s; pushI (p.1 - p.2.1) p.2.2
  | .OPERATOR_MINUS_VEC => let p := pop2V s; pushV (vsub p.1 p.2.1) p.2.2
  | .OPERATOR_MULTIPLY => let p := pop2F s; pushF (fmul p.1 p.2.1) p.2.2
  | .OPERATOR_MULTIPLY_INT => let p := pop2I s; pushI (p.1 * p.2.1) p.2.2
  | .OPERATOR_MULTIPLY_FLOAT_VEC =>
      let pv := popV s
      let pf := popF pv.2
      pushV (vmulF pf.1 pv.1) pf.2
  | .OPERATOR_MULTIPLY_VEC_FLOAT =>
      let pf := popF s
      let pv := popV pf.2
      pushV (vmulF pf.1 pv.1) pv.2
  | .OPERATOR_DIVIDE =>
      let p := pop2F s
      pushF (if feqB p.2.1 (.num 0) then .num 0 else fdiv p.1 p.2.1) p.2.2
  | .OPERATOR_DIVIDE_INT =>
      let p := pop2I s
      pushI (if p.2.1 = 0 then 0 else Int.tdiv p.1 p.2.1) p.2.2
  | .OPERATOR_DIVIDE_VEC_FLOAT =>
      let pf := popF s
      let pv := popV pf.2
      pushV (vdivF pv.1 pf.1) pv.2
  | .OPERATOR_POWER => let p := pop2F s; pushF (fpowF p.1 p.2.1) p.2.2
  | .OPERATOR_POWER_INT => let p := pop2I s; pushI (powInt p.1 p.2.1) p.2.2
  | .OPERATOR_MODULO =>
      let p := pop2F s
      pushF (if feqB p.2.1 (.num 0) then .num 0 else fmodF p.1 p.2.1) p.2.2
  | .OPERATOR_MODULO_INT =>
      let p := pop2I s
      pushI (if p.2.1 = 0 then 0 else Int.tmod p.1 p.2.1) p.2.2
  | .OPERATOR_EQUAL => let p := pop2F s; pushI (b2i (feqB p.1 p.2.1)) p.2.2
  | .OPERATOR_EQUAL_INT => let p := pop2I s; pushI (b2i (decide (p.1 = p.2.1))) p.2.2
  | .OPERATOR_EQUAL_VEC => let p := pop2V s; pushI (b2i (veqB p.1 p.2.1)) p.2.2
  | .OPERATOR_NOT_EQUAL => let p := pop2F s; pushI (b2i (! feqB p.1 p.2.1)) p.2.2
  | .OPERATOR_NOT_EQUAL_INT => let p := pop2I s; pushI (b2i (decide (p.1 ≠ p.2.1))) p.2.2
  | .OPERATOR_NOT_EQUAL_VEC => let p := pop2V s; pushI (b2i (! veqB p.1 p.2.1)) p.2.2
  | .OPERATOR_GREATER => let p := pop2F s; pushI (b2i (fltB p.2.1 p.1)) p.2.2
  | .OPERATOR_GREATER_INT => let p := pop2I s; pushI (b2i (decide (p.2.1 < p.1))) p.2.2
  | .OPERATOR_GREATER_EQUAL => let p := pop2F s; pushI (b2i (fleB p.2.1 p.1)) p.2.2
  | .OPERATOR_GREATER_EQUAL_INT => let p := pop2I s; pushI (b2i (decide (p.2.1 ≤ p.1))) p.2.2
  | .OPERATOR_LESS => let p := pop2F s; pushI (b2i (fltB p.1 p.2.1)) p.2.2
  | .OPERATOR_LESS_INT => let p := pop2I s; pushI (b2i (decide (p.1 < p.2.1))) p.2.2
  | .OPERATOR_LESS_EQUAL => let p := pop2F s; pushI (b2i (fleB p.1 p.2.1)) p.2.2
  | .OPERATOR_LESS_EQUAL_INT => let p := pop2I s; pushI (b2i (decide (p.1 ≤ p.2.1))) p.2.2
  | .OPERATOR_AND =>
      let p := pop2I s; pushI (b2i (decide (p.1 ≠ 0) && decide (p.2.1 ≠ 0))) p.2.2
  | .OPERATOR_OR =>
      let p := pop2I s; pushI (b2i (decide (p.1 ≠ 0) || decide (p.2.1 ≠ 0))) p.2.2
  | .OPERATOR_UNARY_MINUS => let p := popF s; pushF (fneg p.1) p.2
  | .OPERATOR_UNARY_NOT => let p := popI s; pushI (b2i (decide (p.1 = 0))) p.2
  | .OPERATOR_UNARY_MINUS_INT => let p := popI s; pushI (-p.1) p.2
  | .OPERATOR_UNARY_MINUS_VEC => let p := popV s; pushV (vneg p.1) p.2
  | .OPERATOR_GET_MEMBER_VEC =>
      let f := peekF s t.intVal.toNat
      pushF f (s.drop 3)
  | .FUNCTION_COSINE => let p := popF s; pushF (cosF p.1) p.2
  | .FUNCTION_SINE => let p := popF s; pushF (sinF p.1) p.2
  | .FUNCTION_TANGENT => let p := popF s; pushF (tanF p.1) p.2
  | .FUNCTION_ASIN => let p := popF s; pushF (asinF p.1) p.2
  | .FUNCTION_ACOS => let p := popF s; pushF (acosF p.1) p.2
  | .FUNCTION_ATAN => let p := popF s; pushF (atanF p.1) p.2
  | .FUNCTION_ATAN2 => let p := pop2F s; pushF (atan2F p.1 p.2.1) p.2.2
  | .FUNCTION_SQUARE_ROOT => let p := popF s; pushF (sqrtF p.1) p.2
  | .FUNCTION_MAX => let p := pop2F s; pushF (if fltB p.2.1 p.1 then p.1 else p.2.1) p.2.2
  | .FUNCTION_MAX_INT => let p := pop2I s; pushI (if p.2.1 < p.1 then p.1 else p.2.1) p.2.2
  | .FUNCTION_MIN => let p := pop2F s; pushF (if fltB p.1 p.2.1 then p.1 else p.2.1) p.2.2
  | .FUNCTION_MIN_INT => let p := pop2I s; pushI (if p.1 < p.2.1 then p.1 else p.2.1) p.2.2
  | .FUNCTION_ABS => replaceF s (fabsF (peekF s 0)) 0
  | .FUNCTION_ABS_INT => replaceI s |peekI s 0| 0
  | .FUNCTION_SIGN =>
      let f := peekF s 0
      replaceI s (b2i (fltB (.num 0) f) - b2i (fltB f (.num 0))) 0
  | .FUNCTION_SIGN_INT =>
      let v := peekI s 0
      replaceI s (b2i (decide (0 < v)) - b2i (decide (v < 0))) 0
  | .FUNCTION_TO_RADIANS => replaceF s (fmul (peekF s 0) DEG2RAD) 0
  | .FUNCTION_TO_DEGREES => replaceF s (fmul (peekF s 0) RAD2DEG) 0
  | .FUNCTION_NOT => let p := popI s; pushI (b2i (decide (p.1 = 0))) p.2
  | .FUNCTION_LOG => let p := pop2F s; pushF (fdiv (logF p.1) (logF p.2.1)) p.2.2
  | .FUNCTION_LN => let p := popF s; pushF (logF p.1) p.2
  | .FUNCTION_POW => let p := pop2F s; pushF (fpowF p.1 p.2.1) p.2.2
  | .FUNCTION_EXP => let p := popF s; pushF (expF p.1) p.2
  | .FUNCTION_IF =>
      let pfalse := popF s
      let ptrue := popF pfalse.2
      let pcond := popI ptrue.2
      pushF (if pcond.1 ≠ 0 then ptrue.1 else pfalse.1) pcond.2
  | .FUNCTION_IF_INT =>
      let pfalse := popI s
      let ptrue := popI pfalse.2
      let pcond := popI ptrue.2
      pushI (if pcond.1 ≠ 0 then ptrue.1 else pfalse.1) pcond.2
  | .FUNCTION_IF_VEC =>
      let pfalse := popV s
      let ptrue := popV pfalse.2
      let pcond := popI ptrue.2
      pushV (if pcond.1 ≠ 0 then ptrue.1 else pfalse.1) pcond.2
  | .FUNCTION_CEIL => let p := popF s; pushF (ceilF p.1) p.2
  | .FUNCTION_FLOOR => let p := popF s; pushF (floorF p.1) p.2
  | .FUNCTION_FRAC => let p := popF s; pushF (fractF p.1) p.2
  | .FUNCTION_ROUND => let p := popF s; pushF (roundF p.1) p.2
  | .FUNCTION_TRUNCATE => let p := popF s; pushF (truncF p.1) p.2
  | .FUNCTION_COMPARE =>
      let peps := popF s
      let p := pop2F peps.2
      pushI (b2i (compare_ff p.1 p.2.1 peps.1)) p.2.2
  | .FUNCTION_COMPARE_VEC =>
      let peps := popF s
      let p := pop2V peps.2
      pushI (b2i (compare_ff p.1.x p.2.1.x peps.1 && compare_ff p.1.y p.2.1.y peps.1 &&
        compare_ff p.1.z p.2.1.z peps.1)) p.2.2
  | .FUNCTION_DOT => let p := pop2V s; pushF (vdot p.1 p.2.1) p.2.2
  | .FUNCTION_CROSS => let p := pop2V s; pushV (vcross p.1 p.2.1) p.2.2
  | .FUNCTION_NORMALIZE =>
      let p := popV s
      let len2 := vdot p.1 p.1
      let len := sqrtF len2
      pushV (vdivF p.1 len) p.2
  | .FUNCTION_LENGTH =>
      let p := popV s
      pushF (sqrtF (vdot p.1 p.1)) p.2
  | .FUNCTION_LENGTH2 =>
      let p := popV s
      pushF (vdot p.1 p.1) p.2
  | .CONVERT_INT_FLOAT =>
      let off := t.intVal.toNat
      replaceF s (i2f (peekI s off)) off
  | .CONVERT_FLOAT_INT =>
      let off := t.intVal.toNat
      replaceI s (f2i (peekF s off)) off
  | .FUNCTION_VECTOR => s
  | .LEFT_PAREN => s
  | .RIGHT_PAREN => s
  | .COMMA => s
  | .NONE => s

/-- Execute a program from a given stack. -/
def execFrom (inputs : List RVal) (prog : List Token) (s : RSt) : RSt :=
  prog.foldl (fun st t => execTok inputs t st) s

/-- The tagged output value. -/
inductive OutVal where
  | of (x : FP)
  | oi (n : ℤ)
  | ob (b : Bool)
  | ov (v : V3)
deriving DecidableEq

/-- `ExpressionProgram::execute_program`: run the program on an empty stack
and pop the result as directed by the output socket type. -/
def execute_program (inputs : List RVal) (prog : List Token) (outTy : SockT) : OutVal :=
  let st := execFrom inputs prog []
  match outTy with
  | .FLOAT => .of (peekF st 0)
  | .INT => .oi (peekI st 0)
  | .BOOLEAN => .ob (peekI st 0 ≠ 0)
  | .VECTOR => .ov ⟨peekF st 2, peekF st 1, peekF st 0⟩

end GeoExpr

namespace GeoExpr

/-!
Specification vocabulary for the stack-discipline invariants: operand
balance of token buffers, cell accounting of compile-time type stacks, and
the correspondence between compile-time kinds and runtime cell tags.
-/

/-- Operand balance contributed by one token: an operand pushes one value,
an operator or function of arity `n` replaces `n` values by one, and the
structural tokens leave the count unchanged. -/
def cnt (t : Token) : ℤ :=
  if t.type.is_operand then 1
  else if t.type.is_operator_or_function then 1 - (tokenInfo t.type).num_args
  else 0

/-- Sum of `cnt` over a token buffer. -/
def listC : List Token → ℤ
  | [] => 0
  | t :: rest => cnt t + listC rest

/-- Pending balance debt of one entry of the compiler's operator stack:
an operator of arity `n` still waiting on the stack will, when emitted,
lower the value count by `n - 1`. -/
def pend1 (t : Token) : ℤ :=
  if t.type.is_operator_or_function then (tokenInfo t.type).num_args - 1 else 0

/-- Sum of `pend1` over the operator stack. -/
def pendSum : List Token → ℤ
  | [] => 0
  | t :: rest => pend1 t + pendSum rest

/-- Total cell count of a compile-time type stack. -/
def cellsOf : List EV → ℤ
  | [] => 0
  | k :: rest => stack_space k + cellsOf rest

/-- The runtime cell tags a value of one compile-time kind occupies. -/
def flatK : EV → List CellK
  | .FLOAT => [.KF]
  | .INT => [.KI]
  | .VEC => [.KF, .KF, .KF]
  | .NONE => []

/-- The runtime cell tags of a whole compile-time type stack, top first. -/
def flatKinds : List EV → List CellK
  | [] => []
  | k :: rest => flatK k ++ flatKinds rest

/-- The declared argument kinds of an opcode, top of stack first (the
reverse of the `token_info` argument order). -/
def argKindsRev (t : TokenType) : List EV :=
  if (tokenInfo t).num_args = 1 then [(tokenInfo t).arg1]
  else if (tokenInfo t).num_args = 2 then [(tokenInfo t).arg2, (tokenInfo t).arg1]
  else if (tokenInfo t).num_args = 3 then
    [(tokenInfo t).arg3, (tokenInfo t).arg2, (tokenInfo t).arg1]
  else []

/-- Cells consumed by an opcode's declared arguments. -/
def argSpace (t : TokenType) : ℤ := cellsOf (argKindsRev t)

/-- The cell tags the program must leave for the host, per output socket
type (`execute_program` pops one float, one int, one int-as-bool, or three
floats). -/
def outKinds : SockT → List CellK
  | .FLOAT => [.KF]
  | .INT => [.KI]
  | .BOOLEAN => [.KI]
  | .VECTOR => [.KF, .KF, .KF]

/-- Largest checkpoint value recorded so far (`0` when none). -/
def ckMax (l : List ℤ) : ℤ := l.foldl max 0

/-- Parser-buffer tokens carry a `vi 0` immediate on every operator and
function except the member access, whose immediate is the member offset. -/
def goodBufTok (t : Token) : Prop :=
  t.type.is_operator_or_function = true →
    (t.value = TVal.vi 0 ∨ t.type = TokenType.OPERATOR_GET_MEMBER_VEC)

/-- What `create_postfix_program` keeps on its operator stack: left parens
and well-valued operators or functions. -/
def opsTokOK (t : Token) : Prop :=
  (t.type = TokenType.LEFT_PAREN ∨ t.type.is_operator_or_function = true) ∧ goodBufTok t

/-- Net operand balance produced by one parser call on success: an
expression, operand or function call each produce one value; the
expression loop and the argument loop are balance-neutral apart from the
one value per remaining argument. -/
def cVal : PCall → ℤ
  | .expr _ _ => 1
  | .exprLoop _ _ => 0
  | .operandOrUnary => 1
  | .operand => 1
  | .fnCall => 1
  | .fnArgs _ remaining _ => remaining

/-- Input-independent part of the compiler invariant: the running cell
count tracks the type stack, every tracked kind is real, and the recorded
checkpoints dominate the current count and respect `MAX_STACK`. -/
structure InvS (st : CSt) : Prop where
  size_eq : st.stackSize = cellsOf st.stackType
  allreal : ∀ k ∈ st.stackType, k ≠ EV.NONE
  size_le : st.stackSize ≤ ckMax st.cks
  cks_le : ∀ ck ∈ st.cks, ck ≤ MAX_STACK

/-- Simulation part of the compiler invariant, for one row of inputs: the
emitted program computes a runtime stack whose cell tags are exactly the
compile-time type stack's, and no prefix of the emitted program ever grows
the runtime stack beyond the largest recorded checkpoint. -/
structure InvD (inp : List RVal) (st : CSt) : Prop where
  sim : KindsOf (execFrom inp st.out []) = flatKinds st.stackType
  depth : ∀ p q, st.out = p ++ q → ((execFrom inp p []).length : ℤ) ≤ ckMax st.cks

end GeoExpr

namespace GeoExpr

/-- `qadd` agrees with rational addition. -/
theorem qadd_eq (a b : ℚ) : qadd a b = a + b := by
  rw [qadd, Rat.mkRat_eq_div]
  push_cast
  conv_rhs => rw [← Rat.num_div_den a, ← Rat.num_div_den b]
  have ha : ((a.den : ℚ)) ≠ 0 := by exact_mod_cast a.den_ne_zero
  have hb : ((b.den : ℚ)) ≠ 0 := by exact_mod_cast b.den_ne_zero
  field_simp

/-- `qmul` agrees with rational multiplication. -/
theorem qmul_eq (a b : ℚ) : qmul a b = a * b := by
  rw [qmul, Rat.mkRat_eq_div]
  push_cast
  conv_rhs => rw [← Rat.num_div_den a, ← Rat.num_div_den b]
  have ha : ((a.den : ℚ)) ≠ 0 := by exact_mod_cast a.den_ne_zero
  have hb : ((b.den : ℚ)) ≠ 0 := by exact_mod_cast b.den_ne_zero
  field_simp

/-- `qinv` agrees with rational inversion. -/
theorem qinv_eq (a : ℚ) : qinv a = a⁻¹ := by
  rw [qinv, Rat.mkRat_eq_div, Rat.inv_def', Rat.divInt_eq_div, Int.cast_natAbs]
  push_cast
  rcases lt_trichotomy a.num 0 with h | h | h
  · rw [if_pos h, abs_of_neg (show ((a.num : ℚ)) < 0 by exact_mod_cast h)]
    rw [div_neg, neg_div, neg_neg]
  · rw [if_neg (by omega), h]
    simp
  · rw [if_neg (by omega), abs_of_pos (show (0 : ℚ) < (a.num : ℚ) by exact_mod_cast h)]

/-- `qdiv` agrees with rational division. -/
theorem qdiv_eq (a b : ℚ) : qdiv a b = a / b := by
  rw [qdiv, qmul_eq, qinv_eq, div_eq_mul_inv]

/-- `qsub` agrees with rational subtraction. -/
theorem qsub_eq (a b : ℚ) : qsub a b = a - b := by
  rw [qsub, qadd_eq, sub_eq_add_neg]

/-- `qpow` agrees with rational powers. -/
theorem qpow_eq (a : ℚ) (n : ℕ) : qpow a n = a ^ n := by
  induction n with
  | zero => rfl
  | succ n ih => rw [qpow, qmul_eq, ih, pow_succ]

end GeoExpr

namespace GeoExpr

/-- C3: Scalar division and modulo return 0 on a zero divisor, for both the
Float and the Int variants: compiling `(x + 1) / 0` with `x : Float` and
output kind Float and evaluating it at any float value of `x` yields
exactly 0 (not a trap or an IEEE special value), and at the opcode level
each of the four scalar variants `/`, `%` (float and int) pushes 0 whenever
the divisor on top of the stack is 0, for every numerator. -/
theorem c3_zero_divisor_sentinel :
    (∀ x : FP,
      (compileProgram "(x + 1) / 0".toList ["x".toList] [.FLOAT] .FLOAT).map
        (fun p => execute_program [.rf x] p .FLOAT) = .ok (.of (.num 0))) ∧
    (∀ (a : FP) (rest : RSt),
      execTok [] (mkTokI .OPERATOR_DIVIDE 0) (.cf (.num 0) :: .cf a :: rest) =
        .cf (.num 0) :: rest) ∧
    (∀ (a : FP) (rest : RSt),
      execTok [] (mkTokI .OPERATOR_MODULO 0) (.cf (.num 0) :: .cf a :: rest) =
        .cf (.num 0) :: rest) ∧
    (∀ (a : ℤ) (rest : RSt),
      execTok [] (mkTokI .OPERATOR_DIVIDE_INT 0) (.ci 0 :: .ci a :: rest) =
        .ci 0 :: rest) ∧
    (∀ (a : ℤ) (rest : RSt),
      execTok [] (mkTokI .OPERATOR_MODULO_INT 0) (.ci 0 :: .ci a :: rest) =
        .ci 0 :: rest) :=
  ⟨fun _ => rfl, fun _ _ => rfl, fun _ _ => rfl, fun _ _ => rfl, fun _ _ => rfl⟩

/-- C4: The power operator `^` binds tighter than unary minus: `-x^2` with
`x : Float` and output kind Float compiles successfully (to a program that
loads `x`, squares it, and negates the result), and evaluating it at
`x = 3` returns exactly `-9` — i.e. `-(x^2)`, not `(-x)^2`; for every
float value of `x` the result is `-(x^2)`. -/
theorem c4_power_precedence :
    compileProgram "-x^2".toList ["x".toList] [.FLOAT] .FLOAT =
      .ok [mkTokI .VARIABLE_FLOAT 0, mkTokI .CONSTANT_INT 2, mkTokI .CONVERT_INT_FLOAT 0,
        mkTokI .OPERATOR_POWER 0, mkTokI .OPERATOR_UNARY_MINUS 0] ∧
    (compileProgram "-x^2".toList ["x".toList] [.FLOAT] .FLOAT).map
      (fun p => execute_program [.rf (.num 3)] p .FLOAT) = .ok (.of (.num (-9))) ∧
    (∀ x : FP,
      (compileProgram "-x^2".toList ["x".toList] [.FLOAT] .FLOAT).map
        (fun p => execute_program [.rf x] p .FLOAT) = .ok (.of (fneg (fpowF x (.num 2))))) :=
  ⟨rfl, rfl, fun _ => rfl⟩

/-- C5: Round-trip through member access: for every `Vec` variable `v`
(any three float components), `vec(v.x, v.y, v.z)` with output kind Vec
compiles and evaluates to exactly `v`; and member access maps `x`/`y`/`z`
to the immediate offsets 2/1/0 respectively. -/
theorem c5_member_roundtrip :
    (∀ v : V3,
      (compileProgram "vec(v.x, v.y, v.z)".toList ["v".toList] [.VECTOR] .VECTOR).map
        (fun p => execute_program [.rv v] p .VECTOR) = .ok (.ov v)) ∧
    read_member_offset ['x'] 0 = (2, 1) ∧
    read_member_offset ['y'] 0 = (1, 1) ∧
    read_member_offset ['z'] 0 = (0, 1) :=
  ⟨fun _ => rfl, rfl, rfl, rfl⟩

/-- C9: In operand position a `-` directly followed by a decimal digit is
folded into the numeric literal instead of becoming a unary-minus token:
`-2^2` lexes to the literal `-2` followed by `^ 2` (no unary token) and
evaluates to `(-2)^2 = 4`, while `-x^2` lexes to a unary-minus token and
evaluates, with `x = 2`, to `-(x^2) = -4`. -/
theorem c9_minus_digit_literal :
    (parser_parse ⟨"-2^2".toList, [], []⟩).2.out =
      [mkTokI .CONSTANT_INT (-2), mkTokI .OPERATOR_POWER 0, mkTokI .CONSTANT_INT 2] ∧
    (parser_parse ⟨"-x^2".toList, ["x".toList], [.FLOAT]⟩).2.out =
      [mkTokI .OPERATOR_UNARY_MINUS 0, mkTokI .VARIABLE_FLOAT 0, mkTokI .OPERATOR_POWER 0,
        mkTokI .CONSTANT_INT 2] ∧
    (compileProgram "-2^2".toList [] [] .INT).map (fun p => execute_program [] p .INT) =
      .ok (.oi 4) ∧
    (compileProgram "-x^2".toList ["x".toList] [.FLOAT] .FLOAT).map
      (fun p => execute_program [.rf (.num 2)] p .FLOAT) = .ok (.of (.num (-4))) :=
  ⟨rfl, rfl, rfl, rfl⟩

/-- C10: The zero-divisor guard covers only the scalar variants: the
Vec ÷ Float opcode divides componentwise with no zero check, so `v / 0`
evaluates to the raw IEEE componentwise quotient — for every `v` the
result is `(v.x/0, v.y/0, v.z/0)` under raw float division, and at
`v = (1, −1, 0)` that is `(+∞, −∞, NaN)`, not the 0 sentinel of the
scalar paths; at the opcode level `OPERATOR_DIVIDE_VEC_FLOAT` applies
`fdiv` to each component unconditionally. -/
theorem c10_vector_divide_unguarded :
    (∀ v : V3,
      (compileProgram "v / 0".toList ["v".toList] [.VECTOR] .VECTOR).map
        (fun p => execute_program [.rv v] p .VECTOR) =
        .ok (.ov ⟨fdiv v.x (.num 0), fdiv v.y (.num 0), fdiv v.z (.num 0)⟩)) ∧
    (compileProgram "v / 0".toList ["v".toList] [.VECTOR] .VECTOR).map
      (fun p => execute_program [.rv ⟨.num 1, .num (-1), .num 0⟩] p .VECTOR) =
      .ok (.ov ⟨.inf, .neginf, .nan⟩) ∧
    (OutVal.ov ⟨.inf, .neginf, .nan⟩ ≠ OutVal.ov ⟨.num 0, .num 0, .num 0⟩) ∧
    (∀ (x y z f : FP) (rest : RSt),
      execTok [] (mkTokI .OPERATOR_DIVIDE_VEC_FLOAT 0)
        (.cf f :: .cf z :: .cf y :: .cf x :: rest) = pushV (vdivF ⟨x, y, z⟩ f) rest) :=
  ⟨fun _ => rfl, rfl, by decide, fun _ _ _ _ _ => rfl⟩

/-- C6 (counterexample): the claim asserts that an integer literal whose
digits exceed the 32-bit signed range is a parse error; at the concrete
input `2147483648` (one past `INT32_MAX`, not written as a float) the int
parse overflows, yet parsing succeeds and produces a `CONSTANT_FLOAT`
token, and the whole pipeline compiles and evaluates it as a float. -/
theorem c6_counterexample :
    fromCharsInt "2147483648".toList = none ∧
    (parser_parse ⟨"2147483648".toList, [], []⟩).1 = true ∧
    (parser_parse ⟨"2147483648".toList, [], []⟩).2.out =
      [mkTokF .CONSTANT_FLOAT (.num 2147483648)] ∧
    (compileProgram "2147483648".toList [] [] .FLOAT).map
      (fun p => execute_program [] p .FLOAT) = .ok (.of (.num 2147483648)) :=
  ⟨rfl, rfl, rfl, rfl⟩

end GeoExpr

namespace GeoExpr

/-- Position of `c` in `name ++ c :: rest` when `c` does not occur in
`name`. -/
theorem strFind_paren_append (name rest : List Char) (c : Char) (h : c ∉ name) :
    strFind (name ++ c :: rest) c 0 = (name.length : ℤ) := by
  rw [strFind]
  rw [List.drop_zero, List.findIdx?_append]
  rw [List.findIdx?_eq_none_iff.2 (fun x hx => by
    simp only [decide_eq_false_iff_not]
    intro hxc; exact h (hxc ▸ hx))]
  rw [List.findIdx?_cons]
  simp

/-- `read_function_op` on an identifier directly followed by `(`: the
result is exactly the table lookup of the lowercased identifier. -/
theorem read_function_op_exact (name rest : List Char) (hp : '(' ∉ name)
    (hws : skip_white_space (name ++ '(' :: rest) 0 = 0) :
    read_function_op (name ++ '(' :: rest) 0 =
      (match func_table.find? (fun e => e.1 = name.map cToLower) with
       | some e => (e.2, name.length)
       | none => (.NONE, 0)) := by
  rw [read_function_op]
  simp only [hws, strFind_paren_append name rest '(' hp]
  rw [if_neg (by omega)]
  have ht : (name.length : ℤ).toNat - 0 = name.length := by omega
  rw [ht]
  rw [show substr (name ++ '(' :: rest) 0 name.length = name from by
    rw [substr, List.drop_zero, List.take_left]]
  simp

/-- No function-table spelling contains a space. -/
theorem func_table_names_have_no_space : ∀ e ∈ func_table, ' ' ∉ e.1 := by decide

/-- `read_function_op` fails when whitespace separates the identifier from
the `(`: the candidate substring then contains the space and matches no
table spelling. -/
theorem read_function_op_space_between (name rest : List Char) (hp : '(' ∉ name)
    (hws : skip_white_space (name ++ ' ' :: '(' :: rest) 0 = 0) :
    (read_function_op (name ++ ' ' :: '(' :: rest) 0).1 = .NONE := by
  have h2 : '(' ∉ name ++ [' '] := by
    intro hmem
    rcases List.mem_append.1 hmem with h | h
    · exact hp h
    · simp at h
  have heq : name ++ ' ' :: '(' :: rest = (name ++ [' ']) ++ '(' :: rest := by simp
  rw [heq] at hws ⊢
  rw [read_function_op_exact (name ++ [' ']) rest h2 hws]
  rw [List.find?_eq_none.2 ?_]
  intro e he
  simp only [decide_eq_true_eq]
  intro habs
  have hsp : ' ' ∈ e.1 := by
    rw [habs, List.map_append]
    simp [cToLower]
  exact func_table_names_have_no_space e he hsp

/-- `read_function_op` fails when no `(` occurs in the input at all. -/
theorem read_function_op_without_paren (l : List Char) (pos : Nat) (h : '(' ∉ l) :
    (read_function_op l pos).1 = .NONE := by
  rw [read_function_op]
  have hfind : strFind l '(' (skip_white_space l pos) = -1 := by
    rw [strFind]
    rw [List.findIdx?_eq_none_iff.2 (fun x hx => by
      simp only [decide_eq_false_iff_not]
      intro hxc
      exact h (hxc ▸ List.mem_of_mem_drop hx))]
  simp [hfind]

/-- C6 (counterexample established separately): amended claim — an integer
literal whose digits overflow the 32-bit signed range is not a parse
error; whenever the int parse fails and the float parse succeeds (as it
does for any plain digit string in float range), `parse_number` succeeds
and emits the literal as a `CONSTANT_FLOAT` token; concretely,
`2147483648` parses as the float constant 2147483648. -/
theorem c6_overflow_literal_accepted :
    (∀ (input : List Char) (s : PSt),
      fromCharsInt (input.drop (skip_white_space input s.pos)) = none →
      ∀ (v : FP) (n : Nat),
        fromCharsFloat (input.drop (skip_white_space input s.pos)) = some (v, n) →
        parse_number input s =
          (true, { s with
            pos := skip_white_space input s.pos + n,
            out := s.out ++ [mkTokF .CONSTANT_FLOAT v] })) ∧
    (parser_parse ⟨"2147483648".toList, [], []⟩).1 = true ∧
    (parser_parse ⟨"2147483648".toList, [], []⟩).2.out =
      [mkTokF .CONSTANT_FLOAT (.num 2147483648)] := by
  refine ⟨fun input s hInt v n hFloat => ?_, rfl, rfl⟩
  have hne : skip_white_space input s.pos ≠ input.length := by
    intro h
    rw [h, List.drop_length] at hFloat
    simp [show fromCharsFloat [] = none from rfl] at hFloat
  rw [parse_number]
  simp only [hne, if_false, hInt, hFloat]

/-- Witness for C6's amended theorem: the general statement applied at the
concrete overflowing literal `2147483648`. -/
theorem c6_overflow_literal_accepted_witness :
    parse_number "2147483648".toList ⟨0, [], "", 0, []⟩ =
      (true, ⟨10, [mkTokF .CONSTANT_FLOAT (.num 2147483648)], "", 0, []⟩) :=
  c6_overflow_literal_accepted.1 "2147483648".toList ⟨0, [], "", 0, []⟩ rfl
    (.num 2147483648) 10 rfl

/-- C7 (counterexample): on the input `(1` the first recorded error is
`("Expected )", 2)`, but the pair reported to the caller is
`("Unclosed parenthesis", 0)` — the parenthesis handler overwrites the
recorded error, so the reported pair is not the one recorded at the first
failure, contradicting the claim. -/
theorem c7_counterexample :
    (parser_parse ⟨"(1".toList, [], []⟩).2.errLog.head? = some ("Expected )", 2) ∧
    (parser_parse ⟨"(1".toList, [], []⟩).2.err = "Unclosed parenthesis" ∧
    (parser_parse ⟨"(1".toList, [], []⟩).2.errPos = 0 ∧
    ("Unclosed parenthesis", (0 : ℤ)) ≠ ("Expected )", (2 : ℤ)) :=
  ⟨rfl, rfl, rfl, by decide⟩

/-- C7 (amended): `set_error_if_none` itself never overwrites a nonempty
recorded error (so among errors recorded through it, the first wins), but
two paths bypass it: a parenthesized operand whose `)` is missing
unconditionally replaces the recorded error with
`("Unclosed parenthesis", offset of the '(')`, and the failed numeric
attempt in operand position clears its own recorded message before the
variable fallback, after which a later error is recorded and reported (as
on input `@`). -/
theorem c7_first_error_amended :
    (∀ (s : PSt) (msg : String) (p : ℤ), s.err ≠ "" → set_error_if_none msg p s = s) ∧
    (parser_parse ⟨"(1".toList, [], []⟩).2.err = "Unclosed parenthesis" ∧
    (parser_parse ⟨"(1".toList, [], []⟩).2.errPos = 0 ∧
    (parser_parse ⟨"@".toList, [], []⟩).2.errLog =
      [("Invalid number", 0), ("Expected a constant, variable or function", 0)] ∧
    (parser_parse ⟨"@".toList, [], []⟩).2.err = "Expected a constant, variable or function" :=
  ⟨fun s msg p h => by rw [set_error_if_none, if_neg h], rfl, rfl, rfl, rfl⟩

/-- Witness for C7's amended theorem: `set_error_if_none` applied at a
concrete state that already holds an error. -/
theorem c7_first_error_amended_witness :
    set_error_if_none "m" 1 ⟨0, [], "x", 0, []⟩ = ⟨0, [], "x", 0, []⟩ :=
  c7_first_error_amended.1 ⟨0, [], "x", 0, []⟩ "m" 1 (by decide)

/-- C8 (counterexample): the claim says a function-table identifier is
recognized as a function iff it is followed, possibly after whitespace, by
`(`.  On `sin (1)` — `sin` is in the table and is followed by `(` after a
space — recognition fails and the whole parse reports
"Unknown input name", refuting the "possibly after whitespace" direction
at a concrete input. -/
theorem c8_counterexample :
    (func_table.find? (fun e => e.1 = "sin".toList)).isSome = true ∧
    (read_function_op "sin (1)".toList 0).1 = .NONE ∧
    next_input_is_function_name "sin (1)".toList 0 = false ∧
    (parser_parse ⟨"sin (1)".toList, [], []⟩).1 = false ∧
    (parser_parse ⟨"sin (1)".toList, [], []⟩).2.err = "Unknown input name" :=
  ⟨rfl, rfl, rfl, rfl, rfl⟩

/-- C8 (amended): an identifier is recognized as a function iff the
characters from the read position up to the first `(` in the remaining
input, lowercased, are exactly a function-table spelling — so the `(`
must follow immediately, with no whitespace in between.  With a space
before the `(` recognition fails; with no `(` anywhere it fails; when not
recognized the text is handled as a number/variable operand (concretely,
`sin (1)` yields the variable-lookup error "Unknown input name"), never
as a function call. -/
theorem c8_function_recognition_amended :
    (∀ (name rest : List Char), '(' ∉ name →
      skip_white_space (name ++ '(' :: rest) 0 = 0 →
      read_function_op (name ++ '(' :: rest) 0 =
        (match func_table.find? (fun e => e.1 = name.map cToLower) with
         | some e => (e.2, name.length)
         | none => (.NONE, 0))) ∧
    (∀ (name rest : List Char), '(' ∉ name →
      skip_white_space (name ++ ' ' :: '(' :: rest) 0 = 0 →
      (read_function_op (name ++ ' ' :: '(' :: rest) 0).1 = .NONE) ∧
    (∀ (l : List Char) (pos : Nat), '(' ∉ l → (read_function_op l pos).1 = .NONE) ∧
    next_input_is_function_name "sin(1)".toList 0 = true ∧
    (parser_parse ⟨"sin (1)".toList, [], []⟩).2.err = "Unknown input name" :=
  ⟨read_function_op_exact, read_function_op_space_between, read_function_op_without_paren,
    rfl, rfl⟩

/-- Witness for C8's amended theorem: its quantified parts applied at the
concrete identifier `sin`. -/
theorem c8_function_recognition_amended_witness :
    read_function_op ("sin".toList ++ '(' :: "1)".toList) 0 = (.FUNCTION_SINE, 3) ∧
    (read_function_op ("sin".toList ++ ' ' :: '(' :: "1)".toList) 0).1 = .NONE ∧
    (read_function_op "sinx".toList 0).1 = .NONE :=
  ⟨(c8_function_recognition_amended.1 "sin".toList "1)".toList (by decide) rfl).trans rfl,
   c8_function_recognition_amended.2.1 "sin".toList "1)".toList (by decide) rfl,
   c8_function_recognition_amended.2.2.1 "sinx".toList 0 (by decide)⟩

end GeoExpr

namespace GeoExpr

/-! Basic facts about the counting and kind-correspondence vocabulary. -/

/-- `listC` is additive over append. -/
theorem listC_append (a b : List Token) : listC (a ++ b) = listC a + listC b := by
  induction a with
  | nil => simp [listC]
  | cons t rest ih => simp [listC, ih]; ring

/-- `flatKinds` is additive over append. -/
theorem flatKinds_append (a b : List EV) :
    flatKinds (a ++ b) = flatKinds a ++ flatKinds b := by
  induction a with
  | nil => simp [flatKinds]
  | cons k rest ih => simp [flatKinds, ih]

/-- `KindsOf` is additive over append. -/
theorem KindsOf_append (a b : RSt) : KindsOf (a ++ b) = KindsOf a ++ KindsOf b := by
  simp [KindsOf]

/-- `KindsOf` preserves length. -/
theorem KindsOf_length (s : RSt) : (KindsOf s).length = s.length := by
  simp [KindsOf]

/-- Tag-list inversion: empty. -/
theorem KindsOf_nilE {s : RSt} (h : KindsOf s = []) : s = [] := by
  cases s with
  | nil => rfl
  | cons c rest => simp [KindsOf] at h

/-- Tag-list inversion: a float tag on top. -/
theorem KindsOf_KF {s : RSt} {ks : List CellK} (h : KindsOf s = .KF :: ks) :
    ∃ x t, s = .cf x :: t ∧ KindsOf t = ks := by
  cases s with
  | nil => simp [KindsOf] at h
  | cons c rest =>
    cases c with
    | cf x => exact ⟨x, rest, rfl, by simpa [KindsOf] using h⟩
    | ci n => simp [KindsOf] at h

/-- Tag-list inversion: an int tag on top. -/
theorem KindsOf_KI {s : RSt} {ks : List CellK} (h : KindsOf s = .KI :: ks) :
    ∃ n t, s = .ci n :: t ∧ KindsOf t = ks := by
  cases s with
  | nil => simp [KindsOf] at h
  | cons c rest =>
    cases c with
    | cf x => simp [KindsOf] at h
    | ci n => exact ⟨n, rest, rfl, by simpa [KindsOf] using h⟩

/-- Split a runtime stack along a split of its tag list. -/
theorem KindsOf_split {k1 k2 : List CellK} :
    ∀ {s : RSt}, KindsOf s = k1 ++ k2 →
      ∃ a b, s = a ++ b ∧ KindsOf a = k1 ∧ KindsOf b = k2 := by
  induction k1 with
  | nil => exact fun h => ⟨[], _, rfl, rfl, h⟩
  | cons k ks ih =>
    intro s h
    cases s with
    | nil => simp [KindsOf] at h
    | cons c rest =>
      simp only [KindsOf, List.map_cons, List.cons_append, List.cons.injEq] at h
      obtain ⟨a, b, rfl, ha, hb⟩ := ih (by simpa [KindsOf] using h.2)
      refine ⟨c :: a, b, rfl, ?_, hb⟩
      simp only [KindsOf, List.map_cons] at ha ⊢
      rw [ha, h.1]

/-- Width of one real kind. -/
theorem flatK_length {k : EV} (h : k ≠ .NONE) :
    ((flatK k).length : ℤ) = stack_space k := by
  cases k <;> simp_all [flatK, stack_space]

/-- Width of a real type stack. -/
theorem flatKinds_length {l : List EV} (h : ∀ k ∈ l, k ≠ EV.NONE) :
    ((flatKinds l).length : ℤ) = cellsOf l := by
  induction l with
  | nil => simp [flatKinds, cellsOf]
  | cons k rest ih =>
    simp only [flatKinds, cellsOf, List.length_append]
    rw [Nat.cast_add, flatK_length (h k (by simp)), ih (fun x hx => h x (by simp [hx]))]

/-- Executing a concatenation. -/
theorem execFrom_append (inp : List RVal) (p q : List Token) (s : RSt) :
    execFrom inp (p ++ q) s = execFrom inp q (execFrom inp p s) := by
  simp [execFrom, List.foldl_append]

/-- Appending one checkpoint. -/
theorem ckMax_append_one (l : List ℤ) (x : ℤ) : ckMax (l ++ [x]) = max (ckMax l) x := by
  simp [ckMax, List.foldl_append]

/-- Helper: `foldl max` is bounded by any bound of the seed and elements. -/
theorem foldl_max_le {c : ℤ} : ∀ (l : List ℤ) (a : ℤ), a ≤ c → (∀ y ∈ l, y ≤ c) →
    l.foldl max a ≤ c := by
  intro l
  induction l with
  | nil => exact fun a ha _ => ha
  | cons x rest ih =>
    intro a ha hl
    exact ih (max a x) (by simp [ha, hl x (by simp)]) (fun y hy => hl y (by simp [hy]))

/-- `ckMax` of an everywhere-bounded checkpoint list. -/
theorem ckMax_le {c : ℤ} {l : List ℤ} (h : ∀ y ∈ l, y ≤ c) (h0 : 0 ≤ c) : ckMax l ≤ c :=
  foldl_max_le l 0 h0 h

/-- Helper: `foldl max` is monotone in the seed. -/
theorem foldl_max_seed_le : ∀ (l : List ℤ) (a : ℤ), a ≤ l.foldl max a := by
  intro l
  induction l with
  | nil => exact fun a => le_refl a
  | cons x rest ih =>
    intro a
    exact le_trans (le_max_left a x) (ih (max a x))

/-- `ckMax` grows along appends. -/
theorem ckMax_mono_app (l : List ℤ) (x : ℤ) : ckMax l ≤ ckMax (l ++ [x]) := by
  rw [ckMax_append_one]; exact le_max_left _ _

/-- The appended checkpoint is below the new maximum. -/
theorem le_ckMax_last (l : List ℤ) (x : ℤ) : x ≤ ckMax (l ++ [x]) := by
  rw [ckMax_append_one]; exact le_max_right _ _

/-- Type-stack decomposition: one real entry on top. -/
theorem stLast0_decomp {l : List EV} (h : stLast l 0 ≠ .NONE) :
    l = stLast l 0 :: l.tail := by
  cases l with
  | nil => simp [stLast] at h
  | cons k rest => rfl

/-- Type-stack decomposition: two entries, the deeper one real. -/
theorem stLast1_decomp {l : List EV} (h : stLast l 1 ≠ .NONE) :
    l = stLast l 0 :: stLast l 1 :: l.tail.tail := by
  cases l with
  | nil => simp [stLast] at h
  | cons k rest =>
    cases rest with
    | nil => simp [stLast] at h
    | cons k2 rest2 => rfl

/-- Type-stack decomposition: three entries, the deepest one real. -/
theorem stLast2_decomp {l : List EV} (h : stLast l 2 ≠ .NONE) :
    l = stLast l 0 :: stLast l 1 :: stLast l 2 :: l.tail.tail.tail := by
  cases l with
  | nil => simp [stLast] at h
  | cons k rest =>
    cases rest with
    | nil => simp [stLast] at h
    | cons k2 rest2 =>
      cases rest2 with
      | nil => simp [stLast] at h
      | cons k3 rest3 => rfl

/-! Finite facts about the opcode tables. -/

/-- Every operator or function has arity between 1 and 3. -/
theorem arity_pos (tt : TokenType) (h : tt.is_operator_or_function = true) :
    1 ≤ (tokenInfo tt).num_args ∧ (tokenInfo tt).num_args ≤ 3 := by
  revert h; cases tt <;> decide

/-- Every operator or function declares only real argument kinds. -/
theorem args_real (tt : TokenType) (h : tt.is_operator_or_function = true) :
    ∀ k ∈ argKindsRev tt, k ≠ EV.NONE := by
  revert h; cases tt <;> decide

/-- Every operator or function produces a real kind. -/
theorem result_real (tt : TokenType) (h : tt.is_operator_or_function = true) :
    (tokenInfo tt).result_type ≠ EV.NONE := by
  revert h; cases tt <;> decide

/-- No opcode produces more cells than its arguments occupied. -/
theorem result_space_le (tt : TokenType) (h : tt.is_operator_or_function = true) :
    stack_space (tokenInfo tt).result_type ≤ argSpace tt := by
  revert h; cases tt <;> decide

/-- Every non-`NONE` overload alternative is an operator or function of the
same arity as its base. -/
theorem ov_alts_good : ∀ o ∈ overloads, ∀ a ∈ ovAlts o, a ≠ TokenType.NONE →
    (a.is_operator_or_function = true ∧
      (tokenInfo a).num_args = (tokenInfo o.base).num_args) := by
  decide

/-- The non-constant operands are exactly the four variable loads. -/
theorem operand_cases (tt : TokenType) (h : tt.is_operand = true)
    (hc : tt.is_constant = false) :
    tt = .VARIABLE_FLOAT ∨ tt = .VARIABLE_INT ∨ tt = .VARIABLE_BOOL ∨ tt = .VARIABLE_VEC := by
  revert h hc; cases tt <;> decide

/-- The constants are exactly the two constant loads. -/
theorem constant_cases (tt : TokenType) (h : tt.is_constant = true) :
    tt = .CONSTANT_FLOAT ∨ tt = .CONSTANT_INT := by
  revert h; cases tt <;> decide

/-- `argKindsRev` at arity 1. -/
theorem argKindsRev_arity1 {s : TokenType} (h : (tokenInfo s).num_args = 1) :
    argKindsRev s = [(tokenInfo s).arg1] := by
  simp [argKindsRev, h]

/-- `argKindsRev` at arity 2. -/
theorem argKindsRev_arity2 {s : TokenType} (h : (tokenInfo s).num_args = 2) :
    argKindsRev s = [(tokenInfo s).arg2, (tokenInfo s).arg1] := by
  simp [argKindsRev, h]

/-- `argKindsRev` at arity 3. -/
theorem argKindsRev_arity3 {s : TokenType} (h : (tokenInfo s).num_args = 3) :
    argKindsRev s = [(tokenInfo s).arg3, (tokenInfo s).arg2, (tokenInfo s).arg1] := by
  simp [argKindsRev, h]

/-! Overload-resolution lemmas. -/

/-- A successful candidate scan returns a listed candidate that matches. -/
theorem scan1_mem : ∀ (l : List TokenType) (a : EV), scan1 l a ≠ .NONE →
    scan1 l a ∈ l ∧ check1 (scan1 l a) a = true := by
  intro l a
  induction l with
  | nil => simp [scan1]
  | cons t rest ih =>
    intro h
    by_cases ht : t = TokenType.NONE
    · simp [scan1, ht] at h
    · by_cases hc : check1 t a = true
      · simp_all [scan1]
      · simp only [scan1, if_neg ht, hc, if_false] at h ⊢
        rcases ih h with ⟨hm, hk⟩
        exact ⟨by simp [hm], hk⟩

/-- See `scan1_mem`. -/
theorem scan2_mem : ∀ (l : List TokenType) (a b : EV), scan2 l a b ≠ .NONE →
    scan2 l a b ∈ l ∧ check2 (scan2 l a b) a b = true := by
  intro l a b
  induction l with
  | nil => simp [scan2]
  | cons t rest ih =>
    intro h
    by_cases ht : t = TokenType.NONE
    · simp [scan2, ht] at h
    · by_cases hc : check2 t a b = true
      · simp_all [scan2]
      · simp only [scan2, if_neg ht, hc, if_false] at h ⊢
        rcases ih h with ⟨hm, hk⟩
        exact ⟨by simp [hm], hk⟩

/-- See `scan1_mem`. -/
theorem scan3_mem : ∀ (l : List TokenType) (a b c : EV), scan3 l a b c ≠ .NONE →
    scan3 l a b c ∈ l ∧ check3 (scan3 l a b c) a b c = true := by
  intro l a b c
  induction l with
  | nil => simp [scan3]
  | cons t rest ih =>
    intro h
    by_cases ht : t = TokenType.NONE
    · simp [scan3, ht] at h
    · by_cases hc : check3 t a b c = true
      · simp_all [scan3]
      · simp only [scan3, if_neg ht, hc, if_false] at h ⊢
        rcases ih h with ⟨hm, hk⟩
        exact ⟨by simp [hm], hk⟩

/-- A successful `get_op_version_for_type` (arity 1) returns either the base
or a listed overload alternative, and the result matches the argument. -/
theorem gov1_cases (base : TokenType) (a : EV) (h : get_op_version1 base a ≠ .NONE) :
    check1 (get_op_version1 base a) a = true ∧
    (get_op_version1 base a = base ∨
      ∃ o, o ∈ overloads ∧ o.base = base ∧ get_op_version1 base a ∈ ovAlts o) := by
  unfold get_op_version1 at h ⊢
  by_cases hc : check1 base a = true
  · simp [hc]
  · simp only [hc, if_false] at h ⊢
    cases hf : find_overloads base with
    | none => simp [hf] at h
    | some o =>
      simp only [hf] at h ⊢
      rcases scan1_mem _ _ h with ⟨hm, hk⟩
      refine ⟨hk, Or.inr ⟨o, List.mem_of_find?_eq_some hf, ?_, hm⟩⟩
      have := List.find?_some hf
      simpa using this

/-- See `gov1_cases`. -/
theorem gov2_cases (base : TokenType) (a b : EV) (h : get_op_version2 base a b ≠ .NONE) :
    check2 (get_op_version2 base a b) a b = true ∧
    (get_op_version2 base a b = base ∨
      ∃ o, o ∈ overloads ∧ o.base = base ∧ get_op_version2 base a b ∈ ovAlts o) := by
  unfold get_op_version2 at h ⊢
  by_cases hc : check2 base a b = true
  · simp [hc]
  · simp only [hc, if_false] at h ⊢
    cases hf : find_overloads base with
    | none => simp [hf] at h
    | some o =>
      simp only [hf] at h ⊢
      rcases scan2_mem _ _ _ h with ⟨hm, hk⟩
      refine ⟨hk, Or.inr ⟨o, List.mem_of_find?_eq_some hf, ?_, hm⟩⟩
      have := List.find?_some hf
      simpa using this

/-- See `gov1_cases`. -/
theorem gov3_cases (base : TokenType) (a b c : EV)
    (h : get_op_version3 base a b c ≠ .NONE) :
    check3 (get_op_version3 base a b c) a b c = true ∧
    (get_op_version3 base a b c = base ∨
      ∃ o, o ∈ overloads ∧ o.base = base ∧ get_op_version3 base a b c ∈ ovAlts o) := by
  unfold get_op_version3 at h ⊢
  by_cases hc : check3 base a b c = true
  · simp [hc]
  · simp only [hc, if_false] at h ⊢
    cases hf : find_overloads base with
    | none => simp [hf] at h
    | some o =>
      simp only [hf] at h ⊢
      rcases scan3_mem _ _ _ _ h with ⟨hm, hk⟩
      refine ⟨hk, Or.inr ⟨o, List.mem_of_find?_eq_some hf, ?_, hm⟩⟩
      have := List.find?_some hf
      simpa using this

/-- A successful resolution yields an operator or function of the base's
arity that matches the argument. -/
theorem gov1_good (base : TokenType) (a : EV) (hb : base.is_operator_or_function = true)
    (h : get_op_version1 base a ≠ .NONE) :
    (get_op_version1 base a).is_operator_or_function = true ∧
    (tokenInfo (get_op_version1 base a)).num_args = (tokenInfo base).num_args ∧
    check1 (get_op_version1 base a) a = true := by
  obtain ⟨hchk, hsp⟩ := gov1_cases base a h
  rcases hsp with he | ⟨o, ho, hob, hmem⟩
  · rw [he] at hchk ⊢
    exact ⟨hb, rfl, hchk⟩
  · have hg := ov_alts_good o ho _ hmem h
    exact ⟨hg.1, hob ▸ hg.2, hchk⟩

/-- See `gov1_good`. -/
theorem gov2_good (base : TokenType) (a b : EV) (hb : base.is_operator_or_function = true)
    (h : get_op_version2 base a b ≠ .NONE) :
    (get_op_version2 base a b).is_operator_or_function = true ∧
    (tokenInfo (get_op_version2 base a b)).num_args = (tokenInfo base).num_args ∧
    check2 (get_op_version2 base a b) a b = true := by
  obtain ⟨hchk, hsp⟩ := gov2_cases base a b h
  rcases hsp with he | ⟨o, ho, hob, hmem⟩
  · rw [he] at hchk ⊢
    exact ⟨hb, rfl, hchk⟩
  · have hg := ov_alts_good o ho _ hmem h
    exact ⟨hg.1, hob ▸ hg.2, hchk⟩

/-- See `gov1_good`. -/
theorem gov3_good (base : TokenType) (a b c : EV)
    (hb : base.is_operator_or_function = true)
    (h : get_op_version3 base a b c ≠ .NONE) :
    (get_op_version3 base a b c).is_operator_or_function = true ∧
    (tokenInfo (get_op_version3 base a b c)).num_args = (tokenInfo base).num_args ∧
    check3 (get_op_version3 base a b c) a b c = true := by
  obtain ⟨hchk, hsp⟩ := gov3_cases base a b c h
  rcases hsp with he | ⟨o, ho, hob, hmem⟩
  · rw [he] at hchk ⊢
    exact ⟨hb, rfl, hchk⟩
  · have hg := ov_alts_good o ho _ hmem h
    exact ⟨hg.1, hob ▸ hg.2, hchk⟩

/-- The only implicitly allowed conversion is Int to Float. -/
theorem gtc_implicit (a b : EV) (h : get_type_conversion_op a b true ≠ .NONE) :
    a = .INT ∧ b = .FLOAT ∧ get_type_conversion_op a b true = .CONVERT_INT_FLOAT := by
  revert h; cases a <;> cases b <;> decide

end GeoExpr

namespace GeoExpr

theorem execTok_kinds (inp : List RVal) (spec : TokenType) (v : TVal)
    (hop : spec.is_operator_or_function = true)
    (hv : v = TVal.vi 0 ∨ spec = TokenType.OPERATOR_GET_MEMBER_VEC)
    (args below : RSt)
    (hargs : KindsOf args = flatKinds (argKindsRev spec)) :
    KindsOf (execTok inp ⟨spec, v⟩ (args ++ below)) =
      flatK (tokenInfo spec).result_type ++ KindsOf below := by
  cases spec
  all_goals first
  | exact absurd hop (by decide)
  | -- conversions: the immediate is 0, so the top cell is rewritten in place
    (rcases hv with rfl | hgm
     · first
       | (have h2 : KindsOf args = [CellK.KI] := hargs
          obtain ⟨n1, t1, rfl, h3⟩ := KindsOf_KI h2
          cases KindsOf_nilE h3
          simp [execTok, popF, popI, pushF, pushI, peekF, peekI, replaceF, replaceI,
            cellF, cellI, KindsOf, flatK, tokenInfo, Token.intVal, List.getD])
       | (have h2 : KindsOf args = [CellK.KF] := hargs
          obtain ⟨x1, t1, rfl, h3⟩ := KindsOf_KF h2
          cases KindsOf_nilE h3
          simp [execTok, popF, popI, pushF, pushI, peekF, peekI, replaceF, replaceI,
            cellF, cellI, KindsOf, flatK, tokenInfo, Token.intVal, List.getD])
     · exact absurd hgm (by decide))
  | -- one float argument
    (have h2 : KindsOf args = [CellK.KF] := hargs
     obtain ⟨x1, t1, rfl, h3⟩ := KindsOf_KF h2
     cases KindsOf_nilE h3
     simp [execTok, pop2F, pop2I, pop2V, popF, popI, popV, pushF, pushI, pushV,
       peekF, peekI, replaceF, replaceI, cellF, cellI, KindsOf, flatK, tokenInfo,
       Token.intVal, Token.get_value_as_float, List.getD])
  | -- one int argument
    (have h2 : KindsOf args = [CellK.KI] := hargs
     obtain ⟨n1, t1, rfl, h3⟩ := KindsOf_KI h2
     cases KindsOf_nilE h3
     simp [execTok, pop2F, pop2I, pop2V, popF, popI, popV, pushF, pushI, pushV,
       peekF, peekI, replaceF, replaceI, cellF, cellI, KindsOf, flatK, tokenInfo,
       Token.intVal, Token.get_value_as_float, List.getD])
  | -- two float arguments
    (have h2 : KindsOf args = [CellK.KF, CellK.KF] := hargs
     obtain ⟨x1, t1, rfl, h3⟩ := KindsOf_KF h2
     obtain ⟨x2, t2, rfl, h4⟩ := KindsOf_KF h3
     cases KindsOf_nilE h4
     simp [execTok, pop2F, pop2I, pop2V, popF, popI, popV, pushF, pushI, pushV,
       peekF, peekI, replaceF, replaceI, cellF, cellI, KindsOf, flatK, tokenInfo,
       Token.intVal, Token.get_value_as_float, List.getD])
  | -- two int arguments
    (have h2 : KindsOf args = [CellK.KI, CellK.KI] := hargs
     obtain ⟨n1, t1, rfl, h3⟩ := KindsOf_KI h2
     obtain ⟨n2, t2, rfl, h4⟩ := KindsOf_KI h3
     cases KindsOf_nilE h4
     simp [execTok, pop2F, pop2I, pop2V, popF, popI, popV, pushF, pushI, pushV,
       peekF, peekI, replaceF, replaceI, cellF, cellI, KindsOf, flatK, tokenInfo,
       Token.intVal, Token.get_value_as_float, List.getD])
  | -- three float cells (one vector, or three scalars)
    (have h2 : KindsOf args = [CellK.KF, CellK.KF, CellK.KF] := hargs
     obtain ⟨x1, t1, rfl, h3⟩ := KindsOf_KF h2
     obtain ⟨x2, t2, rfl, h4⟩ := KindsOf_KF h3
     obtain ⟨x3, t3, rfl, h5⟩ := KindsOf_KF h4
     cases KindsOf_nilE h5
     simp [execTok, pop2F, pop2I, pop2V, popF, popI, popV, pushF, pushI, pushV,
       peekF, peekI, replaceF, replaceI, cellF, cellI, KindsOf, flatK, tokenInfo,
       Token.intVal, Token.get_value_as_float, List.getD])
  | -- four float cells (vector and scalar)
    (have h2 : KindsOf args = [CellK.KF, CellK.KF, CellK.KF, CellK.KF] := hargs
     obtain ⟨x1, t1, rfl, h3⟩ := KindsOf_KF h2
     obtain ⟨x2, t2, rfl, h4⟩ := KindsOf_KF h3
     obtain ⟨x3, t3, rfl, h5⟩ := KindsOf_KF h4
     obtain ⟨x4, t4, rfl, h6⟩ := KindsOf_KF h5
     cases KindsOf_nilE h6
     simp [execTok, pop2F, pop2I, pop2V, popF, popI, popV, pushF, pushI, pushV,
       peekF, peekI, replaceF, replaceI, cellF, cellI, KindsOf, flatK, tokenInfo,
       Token.intVal, Token.get_value_as_float, List.getD])
  | -- six float cells (two vectors)
    (have h2 : KindsOf args = [CellK.KF, CellK.KF, CellK.KF, CellK.KF, CellK.KF, CellK.KF] :=
       hargs
     obtain ⟨x1, t1, rfl, h3⟩ := KindsOf_KF h2
     obtain ⟨x2, t2, rfl, h4⟩ := KindsOf_KF h3
     obtain ⟨x3, t3, rfl, h5⟩ := KindsOf_KF h4
     obtain ⟨x4, t4, rfl, h6⟩ := KindsOf_KF h5
     obtain ⟨x5, t5, rfl, h7⟩ := KindsOf_KF h6
     obtain ⟨x6, t6, rfl, h8⟩ := KindsOf_KF h7
     cases KindsOf_nilE h8
     simp [execTok, pop2F, pop2I, pop2V, popF, popI, popV, pushF, pushI, pushV,
       peekF, peekI, replaceF, replaceI, cellF, cellI, KindsOf, flatK, tokenInfo,
       Token.intVal, Token.get_value_as_float, List.getD])
  | -- two floats over an int (float if)
    (have h2 : KindsOf args = [CellK.KF, CellK.KF, CellK.KI] := hargs
     obtain ⟨x1, t1, rfl, h3⟩ := KindsOf_KF h2
     obtain ⟨x2, t2, rfl, h4⟩ := KindsOf_KF h3
     obtain ⟨n1, t3, rfl, h5⟩ := KindsOf_KI h4
     cases KindsOf_nilE h5
     simp [execTok, pop2F, pop2I, pop2V, popF, popI, popV, pushF, pushI, pushV,
       peekF, peekI, replaceF, replaceI, cellF, cellI, KindsOf, flatK, tokenInfo,
       Token.intVal, Token.get_value_as_float, List.getD])
  | -- three int arguments (int if)
    (have h2 : KindsOf args = [CellK.KI, CellK.KI, CellK.KI] := hargs
     obtain ⟨n1, t1, rfl, h3⟩ := KindsOf_KI h2
     obtain ⟨n2, t2, rfl, h4⟩ := KindsOf_KI h3
     obtain ⟨n3, t3, rfl, h5⟩ := KindsOf_KI h4
     cases KindsOf_nilE h5
     simp [execTok, pop2F, pop2I, pop2V, popF, popI, popV, pushF, pushI, pushV,
       peekF, peekI, replaceF, replaceI, cellF, cellI, KindsOf, flatK, tokenInfo,
       Token.intVal, Token.get_value_as_float, List.getD])
  | -- two vectors over an int (vector if)
    (have h2 : KindsOf args =
        [CellK.KF, CellK.KF, CellK.KF, CellK.KF, CellK.KF, CellK.KF, CellK.KI] := hargs
     obtain ⟨x1, t1, rfl, h3⟩ := KindsOf_KF h2
     obtain ⟨x2, t2, rfl, h4⟩ := KindsOf_KF h3
     obtain ⟨x3, t3, rfl, h5⟩ := KindsOf_KF h4
     obtain ⟨x4, t4, rfl, h6⟩ := KindsOf_KF h5
     obtain ⟨x5, t5, rfl, h7⟩ := KindsOf_KF h6
     obtain ⟨x6, t6, rfl, h8⟩ := KindsOf_KF h7
     obtain ⟨n1, t7, rfl, h9⟩ := KindsOf_KI h8
     cases KindsOf_nilE h9
     simp [execTok, pop2F, pop2I, pop2V, popF, popI, popV, pushF, pushI, pushV,
       peekF, peekI, replaceF, replaceI, cellF, cellI, KindsOf, flatK, tokenInfo,
       Token.intVal, Token.get_value_as_float, List.getD])
  | -- a float over two vectors (vector compare)
    (have h2 : KindsOf args =
        [CellK.KF, CellK.KF, CellK.KF, CellK.KF, CellK.KF, CellK.KF, CellK.KF] := hargs
     obtain ⟨x1, t1, rfl, h3⟩ := KindsOf_KF h2
     obtain ⟨x2, t2, rfl, h4⟩ := KindsOf_KF h3
     obtain ⟨x3, t3, rfl, h5⟩ := KindsOf_KF h4
     obtain ⟨x4, t4, rfl, h6⟩ := KindsOf_KF h5
     obtain ⟨x5, t5, rfl, h7⟩ := KindsOf_KF h6
     obtain ⟨x6, t6, rfl, h8⟩ := KindsOf_KF h7
     obtain ⟨x7, t7, rfl, h9⟩ := KindsOf_KF h8
     cases KindsOf_nilE h9
     simp [execTok, pop2F, pop2I, pop2V, popF, popI, popV, pushF, pushI, pushV,
       peekF, peekI, replaceF, replaceI, cellF, cellI, KindsOf, flatK, tokenInfo,
       Token.intVal, Token.get_value_as_float, List.getD])

end GeoExpr

namespace GeoExpr

/-- `List.set` at index 1 on an exposed spine. -/
theorem list_set_one {α : Type} (a b : α) (l : List α) (v : α) :
    (a :: b :: l).set 1 v = a :: v :: l := rfl

/-- `List.set` at index 2 on an exposed spine. -/
theorem list_set_two {α : Type} (a b c : α) (l : List α) (v : α) :
    (a :: b :: c :: l).set 2 v = a :: b :: v :: l := rfl

/-- `List.set` at index 3 on an exposed spine. -/
theorem list_set_three {α : Type} (a b c d : α) (l : List α) (v : α) :
    (a :: b :: c :: d :: l).set 3 v = a :: b :: c :: v :: l := rfl

/-- `KindsOf` on a float cell. -/
theorem KindsOf_cf (x : FP) (s : RSt) : KindsOf (.cf x :: s) = .KF :: KindsOf s := rfl

/-- `KindsOf` on an int cell. -/
theorem KindsOf_ci (n : ℤ) (s : RSt) : KindsOf (.ci n :: s) = .KI :: KindsOf s := rfl

/-- `KindsOf` on the empty stack. -/
theorem KindsOf_nil : KindsOf [] = [] := rfl

/-- The scalar kinds. -/
theorem scalar_cases (b : EV) (h : is_scalar b = true) : b = .FLOAT ∨ b = .INT := by
  revert h; cases b <;> decide

/-- Characterization of a successful one-argument type conversion: the
resolved opcode is a matching operator or function of arity 1, the argument
kind is real and of unchanged width, and the emitted conversions rewrite a
matching runtime stack to the converted kind in place. -/
theorem pc1_ok (t : TokenType) (arg : EV) (ht : t.is_operator_or_function = true)
    (hn : (tokenInfo t).num_args = 1)
    (h : (perform_type_conversion1 t arg).spec ≠ .NONE) :
    arg ≠ .NONE ∧
    (perform_type_conversion1 t arg).spec.is_operator_or_function = true ∧
    (tokenInfo (perform_type_conversion1 t arg).spec).num_args = 1 ∧
    check1 (perform_type_conversion1 t arg).spec (perform_type_conversion1 t arg).a = true ∧
    stack_space (perform_type_conversion1 t arg).a = stack_space arg ∧
    (∀ e ∈ (perform_type_conversion1 t arg).emit, e.type = TokenType.CONVERT_INT_FLOAT) ∧
    ∀ inp (tail : List EV) (s : RSt), KindsOf s = flatKinds (arg :: tail) →
      KindsOf (execFrom inp (perform_type_conversion1 t arg).emit s) =
        flatKinds ((perform_type_conversion1 t arg).a :: tail) := by
  simp only [perform_type_conversion1] at h ⊢
  by_cases h1 : get_op_version1 t arg ≠ .NONE
  · rw [if_pos h1] at h ⊢
    obtain ⟨hgo, hga, hgc⟩ := gov1_good t arg ht h1
    have hc1 := hgc
    simp only [check1, decide_eq_true_eq] at hc1
    have har := args_real _ hgo
    rw [argKindsRev_arity1 (hga.trans hn)] at har
    refine ⟨?_, hgo, hga.trans hn, hgc, rfl, ?_, ?_⟩
    · rw [← hc1]; exact har _ (by simp)
    · simp
    · intro inp tail s hs
      simpa using hs
  · rw [if_neg h1] at h ⊢
    by_cases ha : arg = .INT
    · subst ha
      by_cases h2 : get_op_version1 t .FLOAT ≠ .NONE
      · rw [if_pos rfl, if_pos h2] at h ⊢
        obtain ⟨hgo, hga, hgc⟩ := gov1_good t .FLOAT ht h2
        refine ⟨?_, hgo, hga.trans hn, hgc, ?_, ?_, ?_⟩
        · decide
        · rfl
        · intro e he
          rw [List.mem_singleton] at he
          subst he
          rfl
        · intro inp tail s hs
          have hs' : KindsOf s = CellK.KI :: flatKinds tail := hs
          obtain ⟨n, s2, rfl, hrest⟩ := KindsOf_KI hs'
          simp [execFrom, execTok, mkTokI, replaceF, peekI, Token.intVal, KindsOf_cf,
            KindsOf_ci, flatKinds, flatK, cellI, List.getD, hrest]
      · rw [if_pos rfl, if_neg h2] at h
        simp at h
    · rw [if_neg ha] at h
      simp at h

end GeoExpr


namespace GeoExpr

set_option maxHeartbeats 1600000 in
/-- Characterization of a successful two-argument type conversion — see
`pc1_ok`.  The argument order is that of the source: `b1` is the deeper
(first-pushed) argument, `b2` the top of stack. -/
theorem pc2_ok (t : TokenType) (b1 b2 : EV) (ht : t.is_operator_or_function = true)
    (hn : (tokenInfo t).num_args = 2)
    (h : (perform_type_conversion2 t b1 b2).spec ≠ .NONE) :
    b1 ≠ .NONE ∧ b2 ≠ .NONE ∧
    (perform_type_conversion2 t b1 b2).spec.is_operator_or_function = true ∧
    (tokenInfo (perform_type_conversion2 t b1 b2).spec).num_args = 2 ∧
    check2 (perform_type_conversion2 t b1 b2).spec (perform_type_conversion2 t b1 b2).a1
      (perform_type_conversion2 t b1 b2).a2 = true ∧
    stack_space (perform_type_conversion2 t b1 b2).a1 +
        stack_space (perform_type_conversion2 t b1 b2).a2 =
      stack_space b1 + stack_space b2 ∧
    (∀ e ∈ (perform_type_conversion2 t b1 b2).emit, e.type = TokenType.CONVERT_INT_FLOAT) ∧
    ∀ inp (tail : List EV) (s : RSt), KindsOf s = flatKinds (b2 :: b1 :: tail) →
      KindsOf (execFrom inp (perform_type_conversion2 t b1 b2).emit s) =
        flatKinds ((perform_type_conversion2 t b1 b2).a2 ::
          (perform_type_conversion2 t b1 b2).a1 :: tail) := by
  simp only [perform_type_conversion2] at h ⊢
  by_cases h1 : get_op_version2 t b1 b2 ≠ .NONE
  · rw [if_pos h1] at h ⊢
    obtain ⟨hgo, hga, hgc⟩ := gov2_good t b1 b2 ht h1
    have hc2 := hgc
    simp only [check2, Bool.and_eq_true, decide_eq_true_eq] at hc2
    have har := args_real _ hgo
    rw [argKindsRev_arity2 (hga.trans hn)] at har
    refine ⟨?_, ?_, hgo, hga.trans hn, hgc, rfl, ?_, ?_⟩
    · rw [← hc2.1]; exact har _ (by simp)
    · rw [← hc2.2]; exact har _ (by simp)
    · simp
    · intro inp tail s hs
      simpa using hs
  · rw [if_neg h1] at h ⊢
    by_cases h2 : get_type_conversion_op b1 b2 true ≠ .NONE ∧ get_op_version2 t b2 b2 ≠ .NONE
    · rw [if_pos h2] at h ⊢
      obtain ⟨hcv, hs1⟩ := h2
      obtain ⟨hb1, hb2, hcveq⟩ := gtc_implicit _ _ hcv
      subst hb1; subst hb2
      obtain ⟨hgo, hga, hgc⟩ := gov2_good t .FLOAT .FLOAT ht hs1
      refine ⟨?_, ?_, hgo, hga.trans hn, hgc, ?_, ?_, ?_⟩
      · decide
      · decide
      · rfl
      · intro e he
        rw [List.mem_singleton] at he
        subst he
        rfl
      · intro inp tail s hs
        have hs' : KindsOf s = CellK.KF :: CellK.KI :: flatKinds tail := hs
        obtain ⟨x, s1, rfl, hr1⟩ := KindsOf_KF hs'
        obtain ⟨n, s2, rfl, hr2⟩ := KindsOf_KI hr1
        simp [execFrom, execTok, mkTokI, replaceF, peekI, Token.intVal, KindsOf_cf, KindsOf_ci, flatKinds, flatK, cellI, List.getD, list_set_one, list_set_two, list_set_three, stack_space, get_type_conversion_op, hr2]
    · rw [if_neg h2] at h ⊢
      by_cases h3 : get_type_conversion_op b2 b1 true ≠ .NONE ∧ get_op_version2 t b1 b1 ≠ .NONE
      · rw [if_pos h3] at h ⊢
        obtain ⟨hcv, hs2⟩ := h3
        obtain ⟨hb2, hb1, hcveq⟩ := gtc_implicit _ _ hcv
        subst hb1; subst hb2
        obtain ⟨hgo, hga, hgc⟩ := gov2_good t .FLOAT .FLOAT ht hs2
        refine ⟨?_, ?_, hgo, hga.trans hn, hgc, ?_, ?_, ?_⟩
        · decide
        · decide
        · rfl
        · intro e he
          rw [List.mem_singleton] at he
          subst he
          rfl
        · intro inp tail s hs
          have hs' : KindsOf s = CellK.KI :: CellK.KF :: flatKinds tail := hs
          obtain ⟨n, s1, rfl, hr1⟩ := KindsOf_KI hs'
          obtain ⟨x, s2, rfl, hr2⟩ := KindsOf_KF hr1
          simp [execFrom, execTok, mkTokI, replaceF, peekI, Token.intVal, KindsOf_cf, KindsOf_ci, flatKinds, flatK, cellI, List.getD, list_set_one, list_set_two, list_set_three, stack_space, get_type_conversion_op, hr2]
      · rw [if_neg h3] at h ⊢
        by_cases h4 : b1 = .INT ∧ b2 = .INT ∧ get_op_version2 t .FLOAT .FLOAT ≠ .NONE
        · rw [if_pos h4] at h ⊢
          obtain ⟨hb1, hb2, hsFF⟩ := h4
          subst hb1; subst hb2
          obtain ⟨hgo, hga, hgc⟩ := gov2_good t .FLOAT .FLOAT ht hsFF
          refine ⟨?_, ?_, hgo, hga.trans hn, hgc, ?_, ?_, ?_⟩
          · decide
          · decide
          · rfl
          · intro e he
            simp only [List.mem_cons, List.not_mem_nil, or_false] at he
            rcases he with rfl | rfl <;> rfl
          · intro inp tail s hs
            have hs' : KindsOf s = CellK.KI :: CellK.KI :: flatKinds tail := hs
            obtain ⟨n1, s1, rfl, hr1⟩ := KindsOf_KI hs'
            obtain ⟨n2, s2, rfl, hr2⟩ := KindsOf_KI hr1
            simp [execFrom, execTok, mkTokI, replaceF, peekI, Token.intVal, KindsOf_cf, KindsOf_ci, flatKinds, flatK, cellI, List.getD, list_set_one, list_set_two, list_set_three, stack_space, get_type_conversion_op, hr2]
        · rw [if_neg h4] at h ⊢
          by_cases h5 : b1 = .INT ∧ b2 = .VEC ∧ get_op_version2 t .FLOAT b2 ≠ .NONE
          · rw [if_pos h5] at h ⊢
            obtain ⟨hb1, hb2, hsFV⟩ := h5
            subst hb1; subst hb2
            obtain ⟨hgo, hga, hgc⟩ := gov2_good t .FLOAT .VEC ht hsFV
            refine ⟨?_, ?_, hgo, hga.trans hn, hgc, ?_, ?_, ?_⟩
            · decide
            · decide
            · rfl
            · intro e he
              rw [List.mem_singleton] at he
              subst he
              rfl
            · intro inp tail s hs
              have hs' : KindsOf s =
                  CellK.KF :: CellK.KF :: CellK.KF :: CellK.KI :: flatKinds tail := hs
              obtain ⟨x1, s1, rfl, hr1⟩ := KindsOf_KF hs'
              obtain ⟨x2, s2, rfl, hr2⟩ := KindsOf_KF hr1
              obtain ⟨x3, s3, rfl, hr3⟩ := KindsOf_KF hr2
              obtain ⟨n1, s4, rfl, hr4⟩ := KindsOf_KI hr3
              simp [execFrom, execTok, mkTokI, replaceF, peekI, Token.intVal, KindsOf_cf, KindsOf_ci, flatKinds, flatK, cellI, List.getD, list_set_one, list_set_two, list_set_three, stack_space, get_type_conversion_op, hr4]
          · rw [if_neg h5] at h ⊢
            by_cases h6 : b1 = .VEC ∧ b2 = .INT ∧ get_op_version2 t b1 .FLOAT ≠ .NONE
            · rw [if_pos h6] at h ⊢
              obtain ⟨hb1, hb2, hsVF⟩ := h6
              subst hb1; subst hb2
              obtain ⟨hgo, hga, hgc⟩ := gov2_good t .VEC .FLOAT ht hsVF
              refine ⟨?_, ?_, hgo, hga.trans hn, hgc, ?_, ?_, ?_⟩
              · decide
              · decide
              · rfl
              · intro e he
                rw [List.mem_singleton] at he
                subst he
                rfl
              · intro inp tail s hs
                have hs' : KindsOf s =
                    CellK.KI :: CellK.KF :: CellK.KF :: CellK.KF :: flatKinds tail := hs
                obtain ⟨n1, s1, rfl, hr1⟩ := KindsOf_KI hs'
                obtain ⟨x1, s2, rfl, hr2⟩ := KindsOf_KF hr1
                obtain ⟨x2, s3, rfl, hr3⟩ := KindsOf_KF hr2
                obtain ⟨x3, s4, rfl, hr4⟩ := KindsOf_KF hr3
                simp [execFrom, execTok, mkTokI, replaceF, peekI, Token.intVal, KindsOf_cf, KindsOf_ci, flatKinds, flatK, cellI, List.getD, list_set_one, list_set_two, list_set_three, stack_space, get_type_conversion_op, hr4]
            · rw [if_neg h6] at h
              simp at h

end GeoExpr



namespace GeoExpr

set_option maxHeartbeats 3200000 in
/-- Characterization of a successful three-argument type conversion — see
`pc1_ok`.  `b1` is the deepest (first-pushed) argument, `b3` the top. -/
theorem pc3_ok (t : TokenType) (b1 b2 b3 : EV) (ht : t.is_operator_or_function = true)
    (hn : (tokenInfo t).num_args = 3)
    (h : (perform_type_conversion3 t b1 b2 b3).spec ≠ .NONE) :
    b1 ≠ .NONE ∧ b2 ≠ .NONE ∧ b3 ≠ .NONE ∧
    (perform_type_conversion3 t b1 b2 b3).spec.is_operator_or_function = true ∧
    (tokenInfo (perform_type_conversion3 t b1 b2 b3).spec).num_args = 3 ∧
    check3 (perform_type_conversion3 t b1 b2 b3).spec (perform_type_conversion3 t b1 b2 b3).a1
      (perform_type_conversion3 t b1 b2 b3).a2 (perform_type_conversion3 t b1 b2 b3).a3 = true ∧
    stack_space (perform_type_conversion3 t b1 b2 b3).a1 +
        stack_space (perform_type_conversion3 t b1 b2 b3).a2 +
        stack_space (perform_type_conversion3 t b1 b2 b3).a3 =
      stack_space b1 + stack_space b2 + stack_space b3 ∧
    (∀ e ∈ (perform_type_conversion3 t b1 b2 b3).emit, e.type = TokenType.CONVERT_INT_FLOAT) ∧
    ∀ inp (tail : List EV) (s : RSt), KindsOf s = flatKinds (b3 :: b2 :: b1 :: tail) →
      KindsOf (execFrom inp (perform_type_conversion3 t b1 b2 b3).emit s) =
        flatKinds ((perform_type_conversion3 t b1 b2 b3).a3 ::
          (perform_type_conversion3 t b1 b2 b3).a2 ::
          (perform_type_conversion3 t b1 b2 b3).a1 :: tail) := by
  simp only [perform_type_conversion3] at h ⊢
  by_cases h1 : get_op_version3 t b1 b2 b3 ≠ .NONE
  · rw [if_pos h1] at h ⊢
    obtain ⟨hgo, hga, hgc⟩ := gov3_good t b1 b2 b3 ht h1
    have hc3 := hgc
    simp only [check3, Bool.and_eq_true, decide_eq_true_eq] at hc3
    have har := args_real _ hgo
    rw [argKindsRev_arity3 (hga.trans hn)] at har
    refine ⟨?_, ?_, ?_, hgo, hga.trans hn, hgc, rfl, ?_, ?_⟩
    · rw [← hc3.1.1]; exact har _ (by simp)
    · rw [← hc3.1.2]; exact har _ (by simp)
    · rw [← hc3.2]; exact har _ (by simp)
    · simp
    · intro inp tail s hs
      simpa using hs
  · rw [if_neg h1] at h ⊢
    by_cases h2 : get_op_version3 t .FLOAT .FLOAT .FLOAT ≠ .NONE ∧ is_scalar b1 = true ∧
        is_scalar b2 = true ∧ is_scalar b3 = true
    · rw [if_pos h2] at h ⊢
      obtain ⟨hFFF, hsc1, hsc2, hsc3⟩ := h2
      obtain ⟨hgo, hga, hgc⟩ := gov3_good t .FLOAT .FLOAT .FLOAT ht hFFF
      rcases scalar_cases _ hsc1 with rfl | rfl <;>
        rcases scalar_cases _ hsc2 with rfl | rfl <;>
        rcases scalar_cases _ hsc3 with rfl | rfl <;>
        refine ⟨by decide, by decide, by decide, hgo, hga.trans hn, hgc, rfl,
          by simp [mkTokI], ?_⟩ <;>
        intro inp tail s hs
      all_goals
      first
      |  (have hs' : KindsOf s = CellK.KF :: CellK.KF :: CellK.KF :: flatKinds tail := hs;
           obtain ⟨x0, s0, rfl, hr0⟩ := KindsOf_KF hs';
           obtain ⟨x1, s1, rfl, hr1⟩ := KindsOf_KF hr0;
           obtain ⟨x2, s2, rfl, hr2⟩ := KindsOf_KF hr1;
           simp [execFrom, execTok, mkTokI, replaceF, peekI, Token.intVal, KindsOf_cf, KindsOf_ci, flatKinds, flatK, cellI, List.getD, list_set_one, list_set_two, list_set_three, stack_space, get_type_conversion_op, hr2])
      |  (have hs' : KindsOf s = CellK.KF :: CellK.KF :: CellK.KI :: flatKinds tail := hs;
           obtain ⟨x0, s0, rfl, hr0⟩ := KindsOf_KF hs';
           obtain ⟨x1, s1, rfl, hr1⟩ := KindsOf_KF hr0;
           obtain ⟨n2, s2, rfl, hr2⟩ := KindsOf_KI hr1;
           simp [execFrom, execTok, mkTokI, replaceF, peekI, Token.intVal, KindsOf_cf, KindsOf_ci, flatKinds, flatK, cellI, List.getD, list_set_one, list_set_two, list_set_three, stack_space, get_type_conversion_op, hr2])
      |  (have hs' : KindsOf s = CellK.KF :: CellK.KI :: CellK.KF :: flatKinds tail := hs;
           obtain ⟨x0, s0, rfl, hr0⟩ := KindsOf_KF hs';
           obtain ⟨n1, s1, rfl, hr1⟩ := KindsOf_KI hr0;
           obtain ⟨x2, s2, rfl, hr2⟩ := KindsOf_KF hr1;
           simp [execFrom, execTok, mkTokI, replaceF, peekI, Token.intVal, KindsOf_cf, KindsOf_ci, flatKinds, flatK, cellI, List.getD, list_set_one, list_set_two, list_set_three, stack_space, get_type_conversion_op, hr2])
      |  (have hs' : KindsOf s = CellK.KF :: CellK.KI :: CellK.KI :: flatKinds tail := hs;
           obtain ⟨x0, s0, rfl, hr0⟩ := KindsOf_KF hs';
           obtain ⟨n1, s1, rfl, hr1⟩ := KindsOf_KI hr0;
           obtain ⟨n2, s2, rfl, hr2⟩ := KindsOf_KI hr1;
           simp [execFrom, execTok, mkTokI, replaceF, peekI, Token.intVal, KindsOf_cf, KindsOf_ci, flatKinds, flatK, cellI, List.getD, list_set_one, list_set_two, list_set_three, stack_space, get_type_conversion_op, hr2])
      |  (have hs' : KindsOf s = CellK.KI :: CellK.KF :: CellK.KF :: flatKinds tail := hs;
           obtain ⟨n0, s0, rfl, hr0⟩ := KindsOf_KI hs';
           obtain ⟨x1, s1, rfl, hr1⟩ := KindsOf_KF hr0;
           obtain ⟨x2, s2, rfl, hr2⟩ := KindsOf_KF hr1;
           simp [execFrom, execTok, mkTokI, replaceF, peekI, Token.intVal, KindsOf_cf, KindsOf_ci, flatKinds, flatK, cellI, List.getD, list_set_one, list_set_two, list_set_three, stack_space, get_type_conversion_op, hr2])
      |  (have hs' : KindsOf s = CellK.KI :: CellK.KF :: CellK.KI :: flatKinds tail := hs;
           obtain ⟨n0, s0, rfl, hr0⟩ := KindsOf_KI hs';
           obtain ⟨x1, s1, rfl, hr1⟩ := KindsOf_KF hr0;
           obtain ⟨n2, s2, rfl, hr2⟩ := KindsOf_KI hr1;
           simp [execFrom, execTok, mkTokI, replaceF, peekI, Token.intVal, KindsOf_cf, KindsOf_ci, flatKinds, flatK, cellI, List.getD, list_set_one, list_set_two, list_set_three, stack_space, get_type_conversion_op, hr2])
      |  (have hs' : KindsOf s = CellK.KI :: CellK.KI :: CellK.KF :: flatKinds tail := hs;
           obtain ⟨n0, s0, rfl, hr0⟩ := KindsOf_KI hs';
           obtain ⟨n1, s1, rfl, hr1⟩ := KindsOf_KI hr0;
           obtain ⟨x2, s2, rfl, hr2⟩ := KindsOf_KF hr1;
           simp [execFrom, execTok, mkTokI, replaceF, peekI, Token.intVal, KindsOf_cf, KindsOf_ci, flatKinds, flatK, cellI, List.getD, list_set_one, list_set_two, list_set_three, stack_space, get_type_conversion_op, hr2])
      |  (have hs' : KindsOf s = CellK.KI :: CellK.KI :: CellK.KI :: flatKinds tail := hs;
           obtain ⟨n0, s0, rfl, hr0⟩ := KindsOf_KI hs';
           obtain ⟨n1, s1, rfl, hr1⟩ := KindsOf_KI hr0;
           obtain ⟨n2, s2, rfl, hr2⟩ := KindsOf_KI hr1;
           simp [execFrom, execTok, mkTokI, replaceF, peekI, Token.intVal, KindsOf_cf, KindsOf_ci, flatKinds, flatK, cellI, List.getD, list_set_one, list_set_two, list_set_three, stack_space, get_type_conversion_op, hr2])
    · rw [if_neg h2] at h ⊢
      by_cases h3 : get_op_version3 t b1 .FLOAT .FLOAT ≠ .NONE ∧ is_scalar b2 = true ∧
          is_scalar b3 = true
      · rw [if_pos h3] at h ⊢
        obtain ⟨hl2, hsc2, hsc3⟩ := h3
        obtain ⟨hgo, hga, hgc⟩ := gov3_good t b1 .FLOAT .FLOAT ht hl2
        have hc3 := hgc
        simp only [check3, Bool.and_eq_true, decide_eq_true_eq] at hc3
        have har := args_real _ hgo
        rw [argKindsRev_arity3 (hga.trans hn)] at har
        have hb1 : b1 ≠ EV.NONE := by rw [← hc3.1.1]; exact har _ (by simp)
        rcases scalar_cases _ hsc2 with rfl | rfl <;>
          rcases scalar_cases _ hsc3 with rfl | rfl <;>
          refine ⟨hb1, by decide, by decide, hgo, hga.trans hn, hgc, rfl,
            by simp [mkTokI], ?_⟩ <;>
          intro inp tail s hs
        all_goals
        first
        |  (have hs' : KindsOf s = CellK.KF :: CellK.KF :: flatKinds (b1 :: tail) := hs;
             obtain ⟨x0, s0, rfl, hr0⟩ := KindsOf_KF hs';
             obtain ⟨x1, s1, rfl, hr1⟩ := KindsOf_KF hr0;
             simp [execFrom, execTok, mkTokI, replaceF, peekI, Token.intVal, KindsOf_cf, KindsOf_ci, flatKinds, flatK, cellI, List.getD, list_set_one, list_set_two, list_set_three, stack_space, get_type_conversion_op, hr1])
        |  (have hs' : KindsOf s = CellK.KF :: CellK.KI :: flatKinds (b1 :: tail) := hs;
             obtain ⟨x0, s0, rfl, hr0⟩ := KindsOf_KF hs';
             obtain ⟨n1, s1, rfl, hr1⟩ := KindsOf_KI hr0;
             simp [execFrom, execTok, mkTokI, replaceF, peekI, Token.intVal, KindsOf_cf, KindsOf_ci, flatKinds, flatK, cellI, List.getD, list_set_one, list_set_two, list_set_three, stack_space, get_type_conversion_op, hr1])
        |  (have hs' : KindsOf s = CellK.KI :: CellK.KF :: flatKinds (b1 :: tail) := hs;
             obtain ⟨n0, s0, rfl, hr0⟩ := KindsOf_KI hs';
             obtain ⟨x1, s1, rfl, hr1⟩ := KindsOf_KF hr0;
             simp [execFrom, execTok, mkTokI, replaceF, peekI, Token.intVal, KindsOf_cf, KindsOf_ci, flatKinds, flatK, cellI, List.getD, list_set_one, list_set_two, list_set_three, stack_space, get_type_conversion_op, hr1])
        |  (have hs' : KindsOf s = CellK.KI :: CellK.KI :: flatKinds (b1 :: tail) := hs;
             obtain ⟨n0, s0, rfl, hr0⟩ := KindsOf_KI hs';
             obtain ⟨n1, s1, rfl, hr1⟩ := KindsOf_KI hr0;
             simp [execFrom, execTok, mkTokI, replaceF, peekI, Token.intVal, KindsOf_cf, KindsOf_ci, flatKinds, flatK, cellI, List.getD, list_set_one, list_set_two, list_set_three, stack_space, get_type_conversion_op, hr1])
      · rw [if_neg h3] at h
        simp at h

end GeoExpr


namespace GeoExpr

/-- `cellsOf` on a cons cell. -/
theorem cellsOf_cons (k : EV) (l : List EV) : cellsOf (k :: l) = stack_space k + cellsOf l := rfl

/-- `cellsOf` on the empty stack. -/
theorem cellsOf_nil : cellsOf [] = 0 := rfl

/-- Executing a single opcode. -/
theorem execFrom_one (inp : List RVal) (t : Token) (s : RSt) :
    execFrom inp [t] s = execTok inp t s := rfl

/-- A member access monomorphizes only to itself. -/
theorem pc1_gm (arg : EV)
    (h : (perform_type_conversion1 .OPERATOR_GET_MEMBER_VEC arg).spec ≠ .NONE) :
    (perform_type_conversion1 .OPERATOR_GET_MEMBER_VEC arg).spec =
      TokenType.OPERATOR_GET_MEMBER_VEC := by
  revert h; cases arg <;> decide

/-- Conversion opcodes do not change the stack size. -/
theorem execFrom_conv_length : ∀ (p : List Token) (inp : List RVal) (s : RSt),
    (∀ e ∈ p, e.type = TokenType.CONVERT_INT_FLOAT) →
    (execFrom inp p s).length = s.length := by
  intro p
  induction p with
  | nil => intro inp s _; rfl
  | cons e rest ih =>
    intro inp s hall
    have he := hall e (by simp)
    have hstep : execFrom inp (e :: rest) s = execFrom inp rest (execTok inp e s) := rfl
    rw [hstep, ih inp _ (fun x hx => hall x (by simp [hx]))]
    cases e with
    | mk ty v =>
      simp only at he
      subst he
      simp [execTok, replaceF]

/-- The length of a runtime stack matching a real type stack. -/
theorem stack_len_of_kinds {s : RSt} {l : List EV} (hk : KindsOf s = flatKinds l)
    (hr : ∀ k ∈ l, k ≠ EV.NONE) : ((s.length : ℤ)) = cellsOf l := by
  rw [← flatKinds_length hr, ← hk, KindsOf_length]

/-- A split of a list whose right part is a one-element list: either the
left part is a prefix of the first summand, or it is the whole list. -/
theorem split_of_append_one {α : Type} {e p q : List α} {tok : α}
    (hpq : e ++ [tok] = p ++ q) (hq : q ≠ []) : ∃ a2, e = p ++ a2 := by
  rcases List.append_eq_append_iff.mp hpq with ⟨a2, h1, h2⟩ | ⟨c2, h1, h2⟩
  · cases a2 with
    | nil => exact ⟨[], by simp [h1]⟩
    | cons y c3 =>
      exfalso
      have hlen := congrArg List.length h2
      simp only [List.length_cons, List.length_append, List.length_nil] at hlen
      have hq0 : q.length = 0 := by omega
      exact hq (List.length_eq_zero.mp hq0)
  · exact ⟨c2, h1⟩

end GeoExpr


namespace GeoExpr

set_option maxHeartbeats 1600000 in
/-- What `output_op_or_function` does on success: the cell count keeps
tracking the type stack, all kinds stay real, the checkpoints and operator
stack are untouched, the cell count does not grow, the value count drops by
arity minus one, and the appended opcodes transform any matching runtime
stack accordingly without ever growing it beyond the entry cell count. -/
theorem output_op_ok (t : Token) (st st' : CSt)
    (hop : t.type.is_operator_or_function = true)
    (hgood : goodBufTok t)
    (hsz : st.stackSize = cellsOf st.stackType)
    (hreal : ∀ k ∈ st.stackType, k ≠ EV.NONE)
    (h : output_op_or_function t st = some st') :
    st'.stackSize = cellsOf st'.stackType ∧
    (∀ k ∈ st'.stackType, k ≠ EV.NONE) ∧
    st'.cks = st.cks ∧
    st'.opStack = st.opStack ∧
    st'.stackSize ≤ st.stackSize ∧
    (st'.stackType.length : ℤ) = st.stackType.length - ((tokenInfo t.type).num_args - 1) ∧
    ∃ ext, st'.out = st.out ++ ext ∧
      ∀ inp s0, KindsOf s0 = flatKinds st.stackType →
        KindsOf (execFrom inp ext s0) = flatKinds st'.stackType ∧
        ∀ p q, ext = p ++ q → ((execFrom inp p s0).length : ℤ) ≤ st.stackSize := by
  simp only [output_op_or_function] at h
  by_cases hn1 : (tokenInfo t.type).num_args = 1
  · rw [if_pos hn1] at h
    by_cases hsp : (perform_type_conversion1 t.type (stLast st.stackType 0)).spec = .NONE
    · rw [if_pos hsp] at h; exact absurd h (by simp)
    · rw [if_neg hsp] at h
      rw [Option.some.injEq] at h
      subst h
      obtain ⟨hargne, hspo, hspa, hchk, hspace, hconv, hsim⟩ :=
        pc1_ok t.type (stLast st.stackType 0) hop hn1 hsp
      have harg1 : (tokenInfo (perform_type_conversion1 t.type
          (stLast st.stackType 0)).spec).arg1 =
          (perform_type_conversion1 t.type (stLast st.stackType 0)).a := by
        simpa [check1] using hchk
      have hdec := stLast0_decomp hargne
      have hrs := result_space_le _ hspo
      rw [argSpace, argKindsRev_arity1 hspa] at hrs
      simp only [cellsOf_cons, cellsOf_nil, add_zero, harg1] at hrs
      have hszdec : st.stackSize =
          stack_space (stLast st.stackType 0) + cellsOf st.stackType.tail := by
        rw [hsz]
        conv_lhs => rw [hdec]
        rfl
      have hcareal : (perform_type_conversion1 t.type (stLast st.stackType 0)).a ≠
          EV.NONE := by
        rw [← harg1]
        exact args_real _ hspo _ (by rw [argKindsRev_arity1 hspa]; simp)
      have htailreal : ∀ k ∈ st.stackType.tail, k ≠ EV.NONE := by
        intro k hk
        exact hreal k (by rw [hdec]; exact List.mem_cons_of_mem _ hk)
      refine ⟨by simp only [cellsOf_cons]; linarith, ?_, rfl, rfl, ?_, ?_, ?_⟩
      · intro k hk
        simp only at hk
        rcases List.mem_cons.mp hk with rfl | hk2
        · exact result_real _ hspo
        · exact htailreal k hk2
      · simp only
        linarith
      · simp only [hn1]
        conv_rhs => rw [hdec]
        simp
      · refine ⟨(perform_type_conversion1 t.type (stLast st.stackType 0)).emit ++
          [⟨(perform_type_conversion1 t.type (stLast st.stackType 0)).spec, t.value⟩],
          by simp, ?_⟩
        intro inp s0 hks
        have hks' : KindsOf s0 =
            flatKinds (stLast st.stackType 0 :: st.stackType.tail) := by rw [← hdec]; exact hks
        have hemit := hsim inp st.stackType.tail s0 hks'
        have hx : KindsOf (execFrom inp
            (perform_type_conversion1 t.type (stLast st.stackType 0)).emit s0) =
            flatKinds (argKindsRev (perform_type_conversion1 t.type
              (stLast st.stackType 0)).spec) ++ flatKinds st.stackType.tail := by
          rw [hemit, argKindsRev_arity1 hspa, harg1]
          simp [flatKinds]
        obtain ⟨args, below, hsplit, hka, hkb⟩ := KindsOf_split hx
        have hv : t.value = TVal.vi 0 ∨
            (perform_type_conversion1 t.type (stLast st.stackType 0)).spec =
              TokenType.OPERATOR_GET_MEMBER_VEC := by
          rcases hgood hop with hvv | hgm
          · exact Or.inl hvv
          · right
            rw [hgm] at hsp ⊢
            exact pc1_gm _ hsp
        have hrun := execTok_kinds inp _ t.value hspo hv args below hka
        have hfullkinds : KindsOf (execFrom inp
            ((perform_type_conversion1 t.type (stLast st.stackType 0)).emit ++
              [⟨(perform_type_conversion1 t.type (stLast st.stackType 0)).spec, t.value⟩])
            s0) = flatKinds ((tokenInfo (perform_type_conversion1 t.type
              (stLast st.stackType 0)).spec).result_type :: st.stackType.tail) := by
          rw [execFrom_append, execFrom_one, hsplit, hrun, hkb]
          rfl
        refine ⟨hfullkinds, ?_⟩
        intro p q hpq
        by_cases hq : q = []
        · subst hq
          rw [List.append_nil] at hpq
          subst hpq
          have hlenfull := stack_len_of_kinds hfullkinds ?realgoal
          case realgoal =>
            intro k hk
            rcases List.mem_cons.mp hk with rfl | hk2
            · exact result_real _ hspo
            · exact htailreal k hk2
          rw [hlenfull, hszdec]
          simp only [cellsOf_cons]
          linarith
        · obtain ⟨a2, ha2⟩ := split_of_append_one hpq hq
          have hlen := execFrom_conv_length p inp s0
            (fun e he => hconv e (by rw [ha2]; exact List.mem_append_left _ he))
          rw [hlen, stack_len_of_kinds hks hreal, hsz]
  · rw [if_neg hn1] at h
    by_cases hn3 : (tokenInfo t.type).num_args = 3
    · rw [if_pos hn3] at h
      by_cases hsp : (perform_type_conversion3 t.type (stLast st.stackType 2)
          (stLast st.stackType 1) (stLast st.stackType 0)).spec = .NONE
      · rw [if_pos hsp] at h; exact absurd h (by simp)
      · rw [if_neg hsp] at h
        rw [Option.some.injEq] at h
        subst h
        obtain ⟨hb1, hb2, hb3, hspo, hspa, hchk, hspace, hconv, hsim⟩ :=
          pc3_ok t.type (stLast st.stackType 2) (stLast st.stackType 1)
            (stLast st.stackType 0) hop hn3 hsp
        have hc3 := hchk
        simp only [check3, Bool.and_eq_true, decide_eq_true_eq] at hc3
        have hdec := stLast2_decomp hb1
        have hrs := result_space_le _ hspo
        rw [argSpace, argKindsRev_arity3 hspa] at hrs
        simp only [cellsOf_cons, cellsOf_nil, add_zero, hc3.1.1, hc3.1.2, hc3.2] at hrs
        have hszdec : st.stackSize =
            stack_space (stLast st.stackType 0) + stack_space (stLast st.stackType 1) +
              stack_space (stLast st.stackType 2) + cellsOf st.stackType.tail.tail.tail := by
          rw [hsz]
          conv_lhs => rw [hdec]
          simp only [cellsOf_cons]
          ring
        have htailreal : ∀ k ∈ st.stackType.tail.tail.tail, k ≠ EV.NONE := by
          intro k hk
          refine hreal k ?_
          rw [hdec]
          exact List.mem_cons_of_mem _ (List.mem_cons_of_mem _ (List.mem_cons_of_mem _ hk))
        have hrreal : (tokenInfo (perform_type_conversion3 t.type (stLast st.stackType 2)
            (stLast st.stackType 1) (stLast st.stackType 0)).spec).result_type ≠
            EV.NONE := result_real _ hspo
        refine ⟨by simp only [cellsOf_cons]; linarith, ?_, rfl, rfl, ?_, ?_, ?_⟩
        · intro k hk
          simp only at hk
          rcases List.mem_cons.mp hk with rfl | hk2
          · exact hrreal
          · exact htailreal k hk2
        · simp only
          linarith
        · simp only [hn3]
          conv_rhs => rw [hdec]
          simp
          omega
        · refine ⟨(perform_type_conversion3 t.type (stLast st.stackType 2)
            (stLast st.stackType 1) (stLast st.stackType 0)).emit ++
            [⟨(perform_type_conversion3 t.type (stLast st.stackType 2)
              (stLast st.stackType 1) (stLast st.stackType 0)).spec, t.value⟩],
            by simp, ?_⟩
          intro inp s0 hks
          have hks' : KindsOf s0 =
              flatKinds (stLast st.stackType 0 :: stLast st.stackType 1 ::
                stLast st.stackType 2 :: st.stackType.tail.tail.tail) := by
            rw [← hdec]; exact hks
          have hemit := hsim inp st.stackType.tail.tail.tail s0 hks'
          have hx : KindsOf (execFrom inp
              (perform_type_conversion3 t.type (stLast st.stackType 2)
                (stLast st.stackType 1) (stLast st.stackType 0)).emit s0) =
              flatKinds (argKindsRev (perform_type_conversion3 t.type (stLast st.stackType 2)
                (stLast st.stackType 1) (stLast st.stackType 0)).spec) ++
                flatKinds st.stackType.tail.tail.tail := by
            rw [hemit, argKindsRev_arity3 hspa, hc3.1.1, hc3.1.2, hc3.2]
            simp [flatKinds]
          obtain ⟨args, below, hsplit, hka, hkb⟩ := KindsOf_split hx
          have hv : t.value = TVal.vi 0 ∨
              (perform_type_conversion3 t.type (stLast st.stackType 2)
                (stLast st.stackType 1) (stLast st.stackType 0)).spec =
                TokenType.OPERATOR_GET_MEMBER_VEC := by
            rcases hgood hop with hvv | hgm
            · exact Or.inl hvv
            · exfalso
              rw [hgm] at hn3
              exact absurd hn3 (by decide)
          have hrun := execTok_kinds inp _ t.value hspo hv args below hka
          have hfullkinds : KindsOf (execFrom inp
              ((perform_type_conversion3 t.type (stLast st.stackType 2)
                (stLast st.stackType 1) (stLast st.stackType 0)).emit ++
                [⟨(perform_type_conversion3 t.type (stLast st.stackType 2)
                  (stLast st.stackType 1) (stLast st.stackType 0)).spec, t.value⟩])
              s0) = flatKinds ((tokenInfo (perform_type_conversion3 t.type
                (stLast st.stackType 2) (stLast st.stackType 1)
                (stLast st.stackType 0)).spec).result_type ::
                st.stackType.tail.tail.tail) := by
            rw [execFrom_append, execFrom_one, hsplit, hrun, hkb]
            rfl
          refine ⟨hfullkinds, ?_⟩
          intro p q hpq
          by_cases hq : q = []
          · subst hq
            rw [List.append_nil] at hpq
            subst hpq
            have hlenfull := stack_len_of_kinds hfullkinds ?realgoal3
            case realgoal3 =>
              intro k hk
              rcases List.mem_cons.mp hk with rfl | hk2
              · exact hrreal
              · exact htailreal k hk2
            rw [hlenfull, hszdec]
            simp only [cellsOf_cons]
            linarith
          · obtain ⟨a2, ha2⟩ := split_of_append_one hpq hq
            have hlen := execFrom_conv_length p inp s0
              (fun e he => hconv e (by rw [ha2]; exact List.mem_append_left _ he))
            rw [hlen, stack_len_of_kinds hks hreal, hsz]
    · rw [if_neg hn3] at h
      have hn2 : (tokenInfo t.type).num_args = 2 := by
        have := arity_pos t.type hop
        omega
      by_cases hsp : (perform_type_conversion2 t.type (stLast st.stackType 1)
          (stLast st.stackType 0)).spec = .NONE
      · rw [if_pos hsp] at h; exact absurd h (by simp)
      · rw [if_neg hsp] at h
        rw [Option.some.injEq] at h
        subst h
        obtain ⟨hb1, hb2, hspo, hspa, hchk, hspace, hconv, hsim⟩ :=
          pc2_ok t.type (stLast st.stackType 1) (stLast st.stackType 0) hop hn2 hsp
        have hc2 := hchk
        simp only [check2, Bool.and_eq_true, decide_eq_true_eq] at hc2
        have hdec := stLast1_decomp hb1
        have hrs := result_space_le _ hspo
        rw [argSpace, argKindsRev_arity2 hspa] at hrs
        simp only [cellsOf_cons, cellsOf_nil, add_zero, hc2.1, hc2.2] at hrs
        have hszdec : st.stackSize =
            stack_space (stLast st.stackType 0) + stack_space (stLast st.stackType 1) +
              cellsOf st.stackType.tail.tail := by
          rw [hsz]
          conv_lhs => rw [hdec]
          simp only [cellsOf_cons]
          ring
        have htailreal : ∀ k ∈ st.stackType.tail.tail, k ≠ EV.NONE := by
          intro k hk
          refine hreal k ?_
          rw [hdec]
          exact List.mem_cons_of_mem _ (List.mem_cons_of_mem _ hk)
        have hrreal : (tokenInfo (perform_type_conversion2 t.type (stLast st.stackType 1)
            (stLast st.stackType 0)).spec).result_type ≠ EV.NONE := result_real _ hspo
        refine ⟨by simp only [cellsOf_cons]; linarith, ?_, rfl, rfl, ?_, ?_, ?_⟩
        · intro k hk
          simp only at hk
          rcases List.mem_cons.mp hk with rfl | hk2
          · exact hrreal
          · exact htailreal k hk2
        · simp only
          linarith
        · simp only [hn2]
          conv_rhs => rw [hdec]
          simp
        · refine ⟨(perform_type_conversion2 t.type (stLast st.stackType 1)
            (stLast st.stackType 0)).emit ++
            [⟨(perform_type_conversion2 t.type (stLast st.stackType 1)
              (stLast st.stackType 0)).spec, t.value⟩],
            by simp, ?_⟩
          intro inp s0 hks
          have hks' : KindsOf s0 =
              flatKinds (stLast st.stackType 0 :: stLast st.stackType 1 ::
                st.stackType.tail.tail) := by
            rw [← hdec]; exact hks
          have hemit := hsim inp st.stackType.tail.tail s0 hks'
          have hx : KindsOf (execFrom inp
              (perform_type_conversion2 t.type (stLast st.stackType 1)
                (stLast st.stackType 0)).emit s0) =
              flatKinds (argKindsRev (perform_type_conversion2 t.type (stLast st.stackType 1)
                (stLast st.stackType 0)).spec) ++ flatKinds st.stackType.tail.tail := by
            rw [hemit, argKindsRev_arity2 hspa, hc2.1, hc2.2]
            simp [flatKinds]
          obtain ⟨args, below, hsplit, hka, hkb⟩ := KindsOf_split hx
          have hv : t.value = TVal.vi 0 ∨
              (perform_type_conversion2 t.type (stLast st.stackType 1)
                (stLast st.stackType 0)).spec = TokenType.OPERATOR_GET_MEMBER_VEC := by
            rcases hgood hop with hvv | hgm
            · exact Or.inl hvv
            · exfalso
              rw [hgm] at hn1
              exact hn1 (by decide)
          have hrun := execTok_kinds inp _ t.value hspo hv args below hka
          have hfullkinds : KindsOf (execFrom inp
              ((perform_type_conversion2 t.type (stLast st.stackType 1)
                (stLast st.stackType 0)).emit ++
                [⟨(perform_type_conversion2 t.type (stLast st.stackType 1)
                  (stLast st.stackType 0)).spec, t.value⟩])
              s0) = flatKinds ((tokenInfo (perform_type_conversion2 t.type
                (stLast st.stackType 1) (stLast st.stackType 0)).spec).result_type ::
                st.stackType.tail.tail) := by
            rw [execFrom_append, execFrom_one, hsplit, hrun, hkb]
            rfl
          refine ⟨hfullkinds, ?_⟩
          intro p q hpq
          by_cases hq : q = []
          · subst hq
            rw [List.append_nil] at hpq
            subst hpq
            have hlenfull := stack_len_of_kinds hfullkinds ?realgoal2
            case realgoal2 =>
              intro k hk
              rcases List.mem_cons.mp hk with rfl | hk2
              · exact hrreal
              · exact htailreal k hk2
            rw [hlenfull, hszdec]
            simp only [cellsOf_cons]
            linarith
          · obtain ⟨a2, ha2⟩ := split_of_append_one hpq hq
            have hlen := execFrom_conv_length p inp s0
              (fun e he => hconv e (by rw [ha2]; exact List.mem_append_left _ he))
            rw [hlen, stack_len_of_kinds hks hreal, hsz]

end GeoExpr

namespace GeoExpr

/-- `pend1` is nonnegative on operator-stack entries. -/
theorem pend1_nonneg (o : Token) (h : opsTokOK o) : 0 ≤ pend1 o := by
  rcases h.1 with hlp | hof
  · rw [pend1, hlp]
    decide
  · have := arity_pos o.type hof
    simp only [pend1, hof, if_true]
    omega

/-- `pendSum` is nonnegative on well-formed operator stacks. -/
theorem pendSum_nonneg : ∀ (ops : List Token), (∀ o ∈ ops, opsTokOK o) → 0 ≤ pendSum ops := by
  intro ops
  induction ops with
  | nil => intro _; simp [pendSum]
  | cons o rest ih =>
    intro h
    have h1 := pend1_nonneg o (h o (by simp))
    have h2 := ih (fun x hx => h x (by simp [hx]))
    simp only [pendSum]
    linarith

/-- A left paren on a nonempty all-real type stack never resolves. -/
theorem pc2_lparen (a b : EV) (hb : b ≠ .NONE) :
    (perform_type_conversion2 .LEFT_PAREN a b).spec = .NONE := by
  revert hb; cases a <;> cases b <;> decide

/-- Popping a left paren from the operator stack fails the type check
whenever the type stack is nonempty and all-real (the situation during
compilation of any parser-produced buffer). -/
theorem output_op_lparen (t : Token) (st : CSt) (ht : t.type = TokenType.LEFT_PAREN)
    (hne : st.stackType ≠ []) (hreal : ∀ k ∈ st.stackType, k ≠ EV.NONE) :
    output_op_or_function t st = none := by
  have h0 : stLast st.stackType 0 ≠ EV.NONE := by
    cases hst : st.stackType with
    | nil => exact absurd hst hne
    | cons k rest =>
      have : stLast (k :: rest) 0 = k := rfl
      rw [this]
      exact hreal k (by rw [hst]; simp)
  simp only [output_op_or_function, ht]
  rw [if_neg (by decide), if_neg (by decide),
    if_pos (pc2_lparen (stLast st.stackType 1) (stLast st.stackType 0) h0)]

end GeoExpr

namespace GeoExpr

/-- Composing two program extensions: kinds chain through, and prefix
depths stay below the larger of the two bounds. -/
theorem ext_compose {inp : List RVal} {ext1 ext2 : List Token} {s0 : RSt}
    {C : List EV} {z1 z2 : ℤ}
    (hd1 : ∀ p q, ext1 = p ++ q → ((execFrom inp p s0).length : ℤ) ≤ z1)
    (h2 : KindsOf (execFrom inp ext2 (execFrom inp ext1 s0)) = flatKinds C)
    (hd2 : ∀ p q, ext2 = p ++ q →
      ((execFrom inp p (execFrom inp ext1 s0)).length : ℤ) ≤ z2)
    (hz : z2 ≤ z1) :
    KindsOf (execFrom inp (ext1 ++ ext2) s0) = flatKinds C ∧
    ∀ p q, ext1 ++ ext2 = p ++ q → ((execFrom inp p s0).length : ℤ) ≤ z1 := by
  constructor
  · rw [execFrom_append]; exact h2
  · intro p q hpq
    rcases List.append_eq_append_iff.mp hpq with ⟨a2, hp1, hp2⟩ | ⟨c2, hp1, hp2⟩
    · subst hp1
      rw [execFrom_append]
      exact le_trans (hd2 a2 q hp2) hz
    · exact hd1 p c2 hp1

/-- The pop-and-lower loop of the operator branch preserves the compiler
invariants: kinds stay real and tracked, checkpoints are untouched, the
remaining operator stack is well-formed, the cell count does not grow, the
balance difference is conserved, and the emitted opcodes simulate correctly
with depths bounded by the entry cell count. -/
theorem popWhileGE_ok (prec : ℤ) : ∀ (ops : List Token) (st : CSt) (ops1 : List Token)
    (st1 : CSt),
    popWhileGE prec ops st = ((ops1, st1), none) →
    (∀ o ∈ ops, opsTokOK o) →
    st.stackSize = cellsOf st.stackType →
    (∀ k ∈ st.stackType, k ≠ EV.NONE) →
    st1.stackSize = cellsOf st1.stackType ∧
    (∀ k ∈ st1.stackType, k ≠ EV.NONE) ∧
    st1.cks = st.cks ∧
    (∀ o ∈ ops1, opsTokOK o) ∧
    st1.stackSize ≤ st.stackSize ∧
    ((st1.stackType.length : ℤ) - pendSum ops1 = st.stackType.length - pendSum ops) ∧
    ∃ ext, st1.out = st.out ++ ext ∧
      ∀ inp s0, KindsOf s0 = flatKinds st.stackType →
        KindsOf (execFrom inp ext s0) = flatKinds st1.stackType ∧
        ∀ p q, ext = p ++ q → ((execFrom inp p s0).length : ℤ) ≤ st.stackSize := by
  intro ops
  induction ops with
  | nil =>
    intro st ops1 st1 h hops hsz hreal
    simp only [popWhileGE, Prod.mk.injEq] at h
    obtain ⟨⟨h1, h2⟩, -⟩ := h
    subst h2
    cases h1
    refine ⟨hsz, hreal, rfl, by simp, le_refl _, rfl, [], by simp, ?_⟩
    intro inp s0 hks
    refine ⟨hks, ?_⟩
    intro p q hpq
    have hp : p = [] := by
      cases p with
      | nil => rfl
      | cons a b => simp at hpq
    subst hp
    rw [show execFrom inp [] s0 = s0 from rfl, stack_len_of_kinds hks hreal, hsz]
  | cons top rest ih =>
    intro st ops1 st1 h hops hsz hreal
    simp only [popWhileGE] at h
    by_cases hstop : top.prec < prec ∨ top.type = TokenType.LEFT_PAREN
    · rw [if_pos hstop] at h
      simp only [Prod.mk.injEq] at h
      obtain ⟨⟨h1, h2⟩, -⟩ := h
      subst h2
      cases h1
      refine ⟨hsz, hreal, rfl, hops, le_refl _, rfl, [], by simp, ?_⟩
      intro inp s0 hks
      refine ⟨hks, ?_⟩
      intro p q hpq
      have hp : p = [] := by
        cases p with
        | nil => rfl
        | cons a b => simp at hpq
      subst hp
      rw [show execFrom inp [] s0 = s0 from rfl, stack_len_of_kinds hks hreal, hsz]
    · rw [if_neg hstop] at h
      cases hout : output_op_or_function top st with
      | none => rw [hout] at h; simp at h
      | some st' =>
        rw [hout] at h
        have hops_top := hops top (by simp)
        have hof : top.type.is_operator_or_function = true := by
          rcases hops_top.1 with hlp | hof
          · exact absurd (Or.inr hlp) hstop
          · exact hof
        obtain ⟨hsz', hreal', hcks', hopst', hle', hlen', ext1, hout1, hsim1⟩ :=
          output_op_ok top st st' hof hops_top.2 hsz hreal hout
        obtain ⟨s1sz, s1real, s1cks, s1ops, s1le, s1len, ext2, s1out, s1sim⟩ :=
          ih st' ops1 st1 h (fun o ho => hops o (by simp [ho])) hsz' hreal'
        have hp1 : pend1 top = ((tokenInfo top.type).num_args : ℤ) - 1 := by
          simp [pend1, hof]
        refine ⟨s1sz, s1real, s1cks.trans hcks', s1ops, le_trans s1le hle', ?_,
          ext1 ++ ext2, by rw [s1out, hout1, List.append_assoc], ?_⟩
        · simp only [pendSum, hp1]
          linarith
        · intro inp s0 hks
          obtain ⟨hk1, hd1⟩ := hsim1 inp s0 hks
          obtain ⟨hk2, hd2⟩ := s1sim inp (execFrom inp ext1 s0) hk1
          exact ext_compose hd1 hk2 hd2 hle'

end GeoExpr

namespace GeoExpr

/-- The pop loop of the `)`/`,` branch — same invariants as
`popWhileGE_ok`, plus: on success the remaining operator stack is empty or
headed by the left paren the loop stopped at. -/
theorem popToLParen_ok : ∀ (ops : List Token) (st : CSt) (ops1 : List Token) (st1 : CSt),
    popToLParen ops st = ((ops1, st1), none) →
    (∀ o ∈ ops, opsTokOK o) →
    st.stackSize = cellsOf st.stackType →
    (∀ k ∈ st.stackType, k ≠ EV.NONE) →
    st1.stackSize = cellsOf st1.stackType ∧
    (∀ k ∈ st1.stackType, k ≠ EV.NONE) ∧
    st1.cks = st.cks ∧
    (∀ o ∈ ops1, opsTokOK o) ∧
    st1.stackSize ≤ st.stackSize ∧
    ((st1.stackType.length : ℤ) - pendSum ops1 = st.stackType.length - pendSum ops) ∧
    (ops1 = [] ∨ ∃ lp rest2, ops1 = lp :: rest2 ∧ lp.type = TokenType.LEFT_PAREN) ∧
    ∃ ext, st1.out = st.out ++ ext ∧
      ∀ inp s0, KindsOf s0 = flatKinds st.stackType →
        KindsOf (execFrom inp ext s0) = flatKinds st1.stackType ∧
        ∀ p q, ext = p ++ q → ((execFrom inp p s0).length : ℤ) ≤ st.stackSize := by
  intro ops
  induction ops with
  | nil =>
    intro st ops1 st1 h hops hsz hreal
    simp only [popToLParen, Prod.mk.injEq] at h
    obtain ⟨⟨h1, h2⟩, -⟩ := h
    subst h2
    cases h1
    refine ⟨hsz, hreal, rfl, by simp, le_refl _, rfl, Or.inl rfl, [], by simp, ?_⟩
    intro inp s0 hks
    refine ⟨hks, ?_⟩
    intro p q hpq
    have hp : p = [] := by
      cases p with
      | nil => rfl
      | cons a b => simp at hpq
    subst hp
    rw [show execFrom inp [] s0 = s0 from rfl, stack_len_of_kinds hks hreal, hsz]
  | cons top rest ih =>
    intro st ops1 st1 h hops hsz hreal
    simp only [popToLParen] at h
    by_cases hstop : top.type = TokenType.LEFT_PAREN
    · rw [if_pos hstop] at h
      simp only [Prod.mk.injEq] at h
      obtain ⟨⟨h1, h2⟩, -⟩ := h
      subst h2
      cases h1
      refine ⟨hsz, hreal, rfl, hops, le_refl _, rfl,
        Or.inr ⟨top, rest, rfl, hstop⟩, [], by simp, ?_⟩
      intro inp s0 hks
      refine ⟨hks, ?_⟩
      intro p q hpq
      have hp : p = [] := by
        cases p with
        | nil => rfl
        | cons a b => simp at hpq
      subst hp
      rw [show execFrom inp [] s0 = s0 from rfl, stack_len_of_kinds hks hreal, hsz]
    · rw [if_neg hstop] at h
      cases hout : output_op_or_function top st with
      | none => rw [hout] at h; simp at h
      | some st' =>
        rw [hout] at h
        have hops_top := hops top (by simp)
        have hof : top.type.is_operator_or_function = true := by
          rcases hops_top.1 with hlp | hof
          · exact absurd hlp hstop
          · exact hof
        obtain ⟨hsz', hreal', hcks', hopst', hle', hlen', ext1, hout1, hsim1⟩ :=
          output_op_ok top st st' hof hops_top.2 hsz hreal hout
        obtain ⟨s1sz, s1real, s1cks, s1ops, s1le, s1len, s1head, ext2, s1out, s1sim⟩ :=
          ih st' ops1 st1 h (fun o ho => hops o (by simp [ho])) hsz' hreal'
        have hp1 : pend1 top = ((tokenInfo top.type).num_args : ℤ) - 1 := by
          simp [pend1, hof]
        refine ⟨s1sz, s1real, s1cks.trans hcks', s1ops, le_trans s1le hle', ?_, s1head,
          ext1 ++ ext2, by rw [s1out, hout1, List.append_assoc], ?_⟩
        · simp only [pendSum, hp1]
          linarith
        · intro inp s0 hks
          obtain ⟨hk1, hd1⟩ := hsim1 inp s0 hks
          obtain ⟨hk2, hd2⟩ := s1sim inp (execFrom inp ext1 s0) hk1
          exact ext_compose hd1 hk2 hd2 hle'

/-- The final pop loop: with a well-formed operator stack, a one-value
balance, an all-real tracked type stack — the situation after a successful
main loop on parser output — success empties the operator stack and leaves
exactly one value, and any leftover left paren makes it fail instead. -/
theorem finishOps_ok : ∀ (ops : List Token) (st : CSt) (ops1 : List Token) (st1 : CSt),
    finishOps ops st = ((ops1, st1), none) →
    (∀ o ∈ ops, opsTokOK o) →
    st.stackSize = cellsOf st.stackType →
    (∀ k ∈ st.stackType, k ≠ EV.NONE) →
    ((st.stackType.length : ℤ) = 1 + pendSum ops) →
    st1.stackSize = cellsOf st1.stackType ∧
    (∀ k ∈ st1.stackType, k ≠ EV.NONE) ∧
    st1.cks = st.cks ∧
    st1.stackSize ≤ st.stackSize ∧
    (st1.stackType.length : ℤ) = 1 ∧
    ∃ ext, st1.out = st.out ++ ext ∧
      ∀ inp s0, KindsOf s0 = flatKinds st.stackType →
        KindsOf (execFrom inp ext s0) = flatKinds st1.stackType ∧
        ∀ p q, ext = p ++ q → ((execFrom inp p s0).length : ℤ) ≤ st.stackSize := by
  intro ops
  induction ops with
  | nil =>
    intro st ops1 st1 h hops hsz hreal hcount
    simp only [finishOps, Prod.mk.injEq] at h
    obtain ⟨⟨h1, h2⟩, -⟩ := h
    subst h2
    cases h1
    refine ⟨hsz, hreal, rfl, le_refl _, by simpa [pendSum] using hcount, [], by simp, ?_⟩
    intro inp s0 hks
    refine ⟨hks, ?_⟩
    intro p q hpq
    have hp : p = [] := by
      cases p with
      | nil => rfl
      | cons a b => simp at hpq
    subst hp
    rw [show execFrom inp [] s0 = s0 from rfl, stack_len_of_kinds hks hreal, hsz]
  | cons top rest ih =>
    intro st ops1 st1 h hops hsz hreal hcount
    simp only [finishOps] at h
    have hne : st.stackType ≠ [] := by
      intro hnil
      rw [hnil] at hcount
      have hpos := pendSum_nonneg (top :: rest) hops
      simp only [List.length_nil, Nat.cast_zero] at hcount
      linarith
    rcases (hops top (by simp)).1 with hlp | hof
    · rw [output_op_lparen top st hlp hne hreal] at h
      simp at h
    · cases hout : output_op_or_function top st with
      | none => rw [hout] at h; simp at h
      | some st' =>
        rw [hout] at h
        obtain ⟨hsz', hreal', hcks', hopst', hle', hlen', ext1, hout1, hsim1⟩ :=
          output_op_ok top st st' hof (hops top (by simp)).2 hsz hreal hout
        have hp1 : pend1 top = ((tokenInfo top.type).num_args : ℤ) - 1 := by
          simp [pend1, hof]
        have hcount' : (st'.stackType.length : ℤ) = 1 + pendSum rest := by
          rw [hlen']
          simp only [pendSum, hp1] at hcount
          linarith
        obtain ⟨s1sz, s1real, s1cks, s1le, s1len, ext2, s1out, s1sim⟩ :=
          ih st' ops1 st1 h (fun o ho => hops o (by simp [ho])) hsz' hreal' hcount'
        refine ⟨s1sz, s1real, s1cks.trans hcks', le_trans s1le hle', s1len,
          ext1 ++ ext2, by rw [s1out, hout1, List.append_assoc], ?_⟩
        intro inp s0 hks
        obtain ⟨hk1, hd1⟩ := hsim1 inp s0 hks
        obtain ⟨hk2, hd2⟩ := s1sim inp (execFrom inp ext1 s0) hk1
        exact ext_compose hd1 hk2 hd2 hle'

end GeoExpr

namespace GeoExpr

/-- Recording the end-of-token checkpoint restores the full invariant from
the core-step facts: the checkpoint list gains exactly the current cell
count, which the `MAX_STACK` test has just bounded. -/
theorem step_ok (st st1 st' : CSt)
    (hst' : st' = { st1 with cks := st1.cks ++ [st1.stackSize] })
    (hsz1 : st1.stackSize = cellsOf st1.stackType)
    (hreal1 : ∀ k ∈ st1.stackType, k ≠ EV.NONE)
    (hcks1 : st1.cks = st.cks)
    (hle : st1.stackSize ≤ MAX_STACK)
    (hS : InvS st)
    (hD : ∀ inp, InvD inp st)
    (hext : ∃ ext, st1.out = st.out ++ ext ∧
      ∀ inp, KindsOf (execFrom inp st.out []) = flatKinds st.stackType →
        KindsOf (execFrom inp ext (execFrom inp st.out [])) = flatKinds st1.stackType ∧
        ∀ p q, ext = p ++ q →
          ((execFrom inp p (execFrom inp st.out [])).length : ℤ) ≤
            max st.stackSize st1.stackSize) :
    InvS st' ∧ ∀ inp, InvD inp st' := by
  subst hst'
  obtain ⟨ext, hout, hsim⟩ := hext
  constructor
  · refine ⟨hsz1, hreal1, ?_, ?_⟩
    · simp only [hcks1]
      exact le_ckMax_last st.cks st1.stackSize
    · intro ck hck
      simp only [hcks1] at hck
      rcases List.mem_append.mp hck with hl | hr
      · exact hS.cks_le ck hl
      · rw [List.mem_singleton] at hr
        subst hr
        exact hle
  · intro inp
    obtain ⟨hk, hd⟩ := hsim inp (hD inp).sim
    refine ⟨?_, ?_⟩
    · simp only
      rw [hout, execFrom_append]
      exact hk
    · intro p q hpq
      simp only [hcks1, hout] at hpq ⊢
      rcases List.append_eq_append_iff.mp hpq with ⟨a2, hp1, hp2⟩ | ⟨c2, hp1, hp2⟩
      · subst hp1
        rw [execFrom_append]
        refine le_trans (hd a2 q hp2) ?_
        rw [ckMax_append_one]
        exact max_le_max hS.size_le (le_refl _)
      · refine le_trans ((hD inp).depth p c2 hp1) (ckMax_mono_app _ _)

end GeoExpr
